import Mathlib

/-!
# DummyEngine: scene loader and serializer

A shallow embedding of `SceneManager::LoadScene`, `SceneManager::SaveScene` and
`SceneManager::ClearScene` (src/Eng/Scene/SceneManager.cpp) together with the
data they touch, and theorems about the scene that a load leaves behind.

Conventions of the embedding

* Stateful code is explicit state passing.  A call ends in one of three ways,
  see `Outcome`: it returns, it throws a C++ exception (the state reached so
  far stays observable to the caller), or it runs into undefined behaviour
  (a null pointer is dereferenced).
* `uint32_t` values are natural numbers reduced modulo `2 ^ 32` where the code
  computes with them.
* Names that the code passes through `c_str()` end at their first NUL
  character, see `c_str`.
* `float` and `double` values are modelled by integers: the code embedded here
  only copies them and takes componentwise minima and maxima.
* Everything the scene manager owns besides `scene_data_` proper (the render
  context and its resource caches, the lightmap splitter, the decal atlas, the
  probe storage, the ray scene, the spatial index, pending asynchronous loads)
  is one value of an arbitrary type `Ext`; the operations on it are fields of
  `Config`.
-/

set_option autoImplicit false

namespace DummyEngine

/-! ## Serialized document -/

/-- Modelled from the spec: the serialized scene document of `Sys/Json.h`,
"a tree of named nodes".  An object node keeps its members in document order as
a sequence of key/value pairs (`JsObject::elements`, iterated by `LoadScene`
with `.first` and `.second`). -/
inductive JsElement where
  | num (val : Int)
  | str (val : String)
  | lit (val : Bool)
  | arr (elements : List JsElement)
  | obj (elements : List (String × JsElement))

/-- Members of an object node, in document order. -/
abbrev JsObject := List (String × JsElement)

/-- Elements of an array node. -/
abbrev JsArray := List JsElement

/-- Checked downcast `as_obj()`: `none` stands for the exception of a failed cast. -/
def JsElement.as_obj : JsElement → Option JsObject
  | .obj es => some es
  | _ => none

/-- Checked downcast `as_arr()`. -/
def JsElement.as_arr : JsElement → Option JsArray
  | .arr es => some es
  | _ => none

/-- Checked downcast `as_str()`, giving the `val` of the string node. -/
def JsElement.as_str : JsElement → Option String
  | .str s => some s
  | _ => none

/-- Checked downcast `as_num()`, giving the `val` of the number node. -/
def JsElement.as_num : JsElement → Option Int
  | .num v => some v
  | _ => none

/-- Modelled from the spec: `JsObject::Has(key)`, true when some member has this key. -/
def JsObject.Has (o : JsObject) (key : String) : Bool :=
  o.any (fun kv => kv.1 == key)

/-- Modelled from the spec: `JsObject::at(key)`, the value of the first member
with this key; `none` stands for the exception thrown when there is none. -/
def JsObject.at_ (o : JsObject) (key : String) : Option JsElement :=
  (o.find? (fun kv => kv.1 == key)).map Prod.snd

/-- Modelled from the spec: `JsObject::Push(key, value)`.  An object node is "a
map" from names to nodes: the value of the member with this key is replaced,
and a new member is appended when there is none. -/
def JsObject.Push : JsObject → String → JsElement → JsObject
  | [], key, v => [(key, v)]
  | (k, x) :: rest, key, v =>
    if k = key then (k, v) :: rest else (k, x) :: JsObject.Push rest key v

/-- Keys of an object node, in document order. -/
def JsObject.keys (o : JsObject) : List String :=
  o.map Prod.fst

/-! ## Vectors and boxes -/

/-- Three scalars (`Ren::Vec3f`). -/
structure Vec3f where
  x : Int
  y : Int
  z : Int
deriving DecidableEq, Repr

/-- Componentwise minimum `Ren::Min`. -/
def Vec3f.Min (a b : Vec3f) : Vec3f :=
  ⟨min a.x b.x, min a.y b.y, min a.z b.z⟩

/-- Componentwise maximum `Ren::Max`. -/
def Vec3f.Max (a b : Vec3f) : Vec3f :=
  ⟨max a.x b.x, max a.y b.y, max a.z b.z⟩

/-- Unary minus on vectors. -/
def Vec3f.neg (a : Vec3f) : Vec3f :=
  ⟨-a.x, -a.y, -a.z⟩

/-- Component `v[i]`. -/
def Vec3f.get (v : Vec3f) (i : Nat) : Int :=
  if i = 0 then v.x else if i = 1 then v.y else v.z

/-- Vector with all three components equal (`Ren::Vec3f{ v }`). -/
def Vec3f.splat (v : Int) : Vec3f :=
  ⟨v, v, v⟩

/-- Value of `std::numeric_limits<float>::max()`, which is an integer. -/
def FLT_MAX : Int := 340282346638528859811704183484516925440

/-- The pair `obj_bbox[2]`: minimum corner and maximum corner. -/
structure BBox where
  bmin : Vec3f
  bmax : Vec3f
deriving DecidableEq, Repr

/-- Initial value of the accumulator `obj_bbox` in `LoadScene`. -/
def BBox.initial : BBox :=
  ⟨Vec3f.splat FLT_MAX, Vec3f.splat (-FLT_MAX)⟩

/-- Union of two boxes: what `obj_bbox[0] = Min(obj_bbox[0], lo)` and
`obj_bbox[1] = Max(obj_bbox[1], hi)` do to the accumulator. -/
def BBox.union (a b : BBox) : BBox :=
  ⟨Vec3f.Min a.bmin b.bmin, Vec3f.Max a.bmax b.bmax⟩

/-! ## Outcomes -/

/-- How a call ends: it returns with state `st`, it throws an exception with
message `what` leaving state `st` behind, or it has undefined behaviour. -/
inductive Outcome (σ : Type) where
  | ok (st : σ)
  | thrown (what : String) (st : σ)
  | crash

/-- True when the call returned. -/
def Outcome.isOk {σ : Type} : Outcome σ → Bool
  | .ok _ => true
  | _ => false

/-- State observable by the caller after the call, when there is one. -/
def Outcome.state? {σ : Type} : Outcome σ → Option σ
  | .ok s => some s
  | .thrown _ s => some s
  | .crash => none

/-- The state a call returned, or `dflt` when it did not return. -/
def Outcome.getD {σ : Type} (o : Outcome σ) (dflt : σ) : σ :=
  match o with
  | .ok s => s
  | _ => dflt

/-! ## Sparse arrays -/

/-- Modelled from the spec: `Ren::SparseArray<T>`, "a slot array that recycles
freed indices and supports O(1) lookup by index and ordered forward
iteration".  A slot is `none` when free. -/
structure SparseArray (T : Type) where
  slots : List (Option T)

namespace SparseArray

variable {T : Type}

/-- Result of `clear()`. -/
def clear : SparseArray T := ⟨[]⟩

/-- Index the next `emplace` uses: a freed slot when there is one, else a new
slot at the end. -/
def nextIndex (a : SparseArray T) : Nat :=
  a.slots.findIdx (fun s => s.isNone)

/-- Method `emplace(v)`: stores `v` and returns its index. -/
def emplace (a : SparseArray T) (v : T) : SparseArray T × Nat :=
  let i := a.nextIndex
  (⟨if i < a.slots.length then a.slots.set i (some v) else a.slots ++ [some v]⟩, i)

/-- Method `GetOrNull(i)`: `none` is the null pointer. -/
def GetOrNull (a : SparseArray T) (i : Nat) : Option T :=
  (a.slots[i]?).join

/-- Write through a pointer previously obtained for slot `i`. -/
def write (a : SparseArray T) (i : Nat) (v : T) : SparseArray T :=
  ⟨a.slots.set i (some v)⟩

/-- Method `size()`: number of live elements. -/
def size (a : SparseArray T) : Nat :=
  a.slots.countP (fun s => s.isSome)

/-- Live elements in index order, as a range-based `for` visits them. -/
def toList (a : SparseArray T) : List T :=
  a.slots.filterMap id

end SparseArray

/-! ## Components, entities, environment -/

/-- Modelled from the spec: "exactly MAX_COMPONENT_TYPES slots exist", the mask
is a bitset of width "currently ≤ 32". -/
def MAX_COMPONENT_TYPES : Nat := 32

/-- Modelled from the spec: the component-type slots, numbered in the order in
which the constructor of `SceneManager` registers them. -/
def CompTransform : Nat := 0

/-- Slot of the Drawable component, see `CompTransform`. -/
def CompDrawable : Nat := 1

/-- Slot of the Occluder component. -/
def CompOccluder : Nat := 2

/-- Slot of the Lightmap component. -/
def CompLightmap : Nat := 3

/-- Slot of the LightSource component. -/
def CompLightSource : Nat := 4

/-- Slot of the Decal component. -/
def CompDecal : Nat := 5

/-- Slot of the LightProbe component. -/
def CompProbe : Nat := 6

/-- Slot of the AnimState component. -/
def CompAnimState : Nat := 7

/-- Slot of the VegState component. -/
def CompVegState : Nat := 8

/-- A component behind the type-erased `void *` of `CompStorage`.  `LoadScene`
itself reads and writes only the Transform fields `bbox_min`, `bbox_max` (and,
through `UpdateBBox`, `mat`, `bbox_min_ws`, `bbox_max_ws`); everything
type-specific is the uninterpreted `payload`.  `mat i j` is entry `mat[i][j]`,
column `i` and row `j`. -/
structure Comp where
  payload : JsObject
  mat : Nat → Nat → Int
  bbox_min : Vec3f
  bbox_max : Vec3f
  bbox_min_ws : Vec3f
  bbox_max_ws : Vec3f

/-- A default-constructed component, as `data_.emplace()` creates it: the
identity matrix and zero vectors. -/
def Comp.new : Comp :=
  { payload := [], mat := fun i j => if i = j then 1 else 0,
    bbox_min := ⟨0, 0, 0⟩, bbox_max := ⟨0, 0, 0⟩,
    bbox_min_ws := ⟨0, 0, 0⟩, bbox_max_ws := ⟨0, 0, 0⟩ }

/-- Modelled from the spec: `Transform::UpdateBBox()`, which "recomputes
world-space bounds from local bounds and the current matrix": the
axis-aligned box around the image of the local box under the affine map
`mat`. -/
def Comp.UpdateBBox (tr : Comp) : Comp :=
  let lo : Nat → Int := fun j =>
    tr.mat 3 j + min (tr.mat 0 j * tr.bbox_min.x) (tr.mat 0 j * tr.bbox_max.x)
      + min (tr.mat 1 j * tr.bbox_min.y) (tr.mat 1 j * tr.bbox_max.y)
      + min (tr.mat 2 j * tr.bbox_min.z) (tr.mat 2 j * tr.bbox_max.z)
  let hi : Nat → Int := fun j =>
    tr.mat 3 j + max (tr.mat 0 j * tr.bbox_min.x) (tr.mat 0 j * tr.bbox_max.x)
      + max (tr.mat 1 j * tr.bbox_min.y) (tr.mat 1 j * tr.bbox_max.y)
      + max (tr.mat 2 j * tr.bbox_min.z) (tr.mat 2 j * tr.bbox_max.z)
  { tr with bbox_min_ws := ⟨lo 0, lo 1, lo 2⟩, bbox_max_ws := ⟨hi 0, hi 1, hi 2⟩ }

/-- An entity (`SceneObject`): the mask of present component types, the storage
index per type and the optional name (empty when the node declares none). -/
structure SceneObject where
  comp_mask : Nat
  components : Nat → Nat
  name : String

/-- Reference to a cached texture: its name in the cache, `none` for a null
reference. -/
abbrev TexRef := Option String

/-- The environment record of a scene (`scene_data_.env`). -/
structure Environment where
  sun_dir : Vec3f
  sun_col : Vec3f
  sun_softness : Int
  env_map : TexRef
  lm_direct : TexRef
  lm_indir_sh : Nat → TexRef
  env_map_name : String
  env_map_name_pt : String

/-- Modelled from the spec: the value-initialised record `Environment{}`
assigned by `scene_data_.env = {}`. -/
def Environment.empty : Environment :=
  { sun_dir := ⟨0, 0, 0⟩, sun_col := ⟨0, 0, 0⟩, sun_softness := 0, env_map := none,
    lm_direct := none, lm_indir_sh := fun _ => none, env_map_name := "",
    env_map_name_pt := "" }

/-- The part of `scene_data_` that the loader and the serializer read and
write directly.  `comp_store i` is the slot array `data_` of the storage
registered in slot `i`; `name_to_object` is the name index, a finite map. -/
structure SceneData where
  name : String
  objects : SparseArray SceneObject
  name_to_object : String → Option Nat
  env : Environment
  comp_store : Nat → SparseArray Comp

/-- State of a `SceneManager`; `ext` is everything outside `scene_data_` and
the in-flight texture counter. -/
structure SceneManager (Ext : Type) where
  scene_data_ : SceneData
  scene_texture_load_counter_ : Int
  ext : Ext

/-- Status reported by the texture cache. -/
inductive eTexLoadStatus where
  | TexFound
  | TexCreatedDefault
  | TexCreatedFromData
deriving DecidableEq, Repr

/-- The virtual interface of a registered `CompStorage` apart from its data:
the declared name and the two serialization functions (`T::Read`, which may
throw on a malformed node, and `T::Write`). -/
structure CompStorage where
  name : String
  ReadFromJs : JsObject → Comp → Except String Comp
  WriteToJs : Comp → JsObject

/-- Signature `PostLoadFunc` of a post-load hook: it receives the serialized
node, the component and the accumulator `obj_bbox`, may mutate both and the
state outside `scene_data_`, and may throw. -/
abbrev PostLoadFunc (Ext : Type) :=
  JsObject → Comp → BBox → Ext → Outcome (Comp × BBox × Ext)

/-- What is fixed while a scene is loaded or saved: the registry
(`scene_data_.comp_store[i]` apart from the data, `component_post_load_[i]`;
`none` is a null pointer resp. an empty `std::function`), the indeterminate
content of the never-assigned `components` array of a fresh `SceneObject`
(`uninit k i` is what `components[i]` holds in the object constructed for node
`k`), and the collaborators acting on `Ext`. -/
structure Config (Ext : Type) where
  /-- Registry entry `scene_data_.comp_store[i]` without its data. -/
  comp_store : Nat → Option CompStorage
  /-- Hook `component_post_load_[i]`. -/
  component_post_load_ : Nat → Option (PostLoadFunc Ext)
  /-- Content of the never-assigned `components` array of the object of node `k`. -/
  uninit : Nat → Nat → Nat
  /-- Function `Ren::Normalize` on three scalars. -/
  Normalize : Vec3f → Vec3f
  /-- Method `scene_data_.lm_splitter.Clear()`. -/
  lm_splitter_Clear : Ext → Ext
  /-- Assignment `ray_scene_ = {}`. -/
  ray_scene_reset : Ext → Ext
  /-- Call `ctx_.LoadTexture2D(name, nullptr, 0, p, &status)`: the reference, the
  status and the cache afterwards. -/
  LoadTexture2D : String → Ext → TexRef × eTexLoadStatus × Ext
  /-- Call `Sys::LoadAssetComplete` for a texture created as a placeholder. -/
  LoadAssetComplete : TexRef → Nat → Ext → Ext
  /-- Reading the six faces of the environment map and `ctx_.LoadTextureCube`. -/
  LoadEnvMap : String → Ext → Outcome (TexRef × Ext)
  /-- Request started by `LoadProbeCache` for scene name, probe index, probe and
  face index. -/
  LoadProbeFace : String → Nat → Comp → Nat → Ext → Ext
  /-- Switch of the probe storage to the compressed format when it has another. -/
  probe_storage_compress : Ext → Ext
  /-- Method `scene_data_.decals_atlas.Finalize()`. -/
  decals_atlas_Finalize : Ext → Ext
  /-- Method `RebuildBVH()`, which rebuilds the spatial index from the scene. -/
  RebuildBVH : SceneData → Ext → Ext

/-- Sequencing: run `f` on the state a call returned; an exception or
undefined behaviour ends the sequence. -/
def Outcome.andThen {σ : Type} (o : Outcome σ) (f : σ → Outcome σ) : Outcome σ :=
  match o with
  | .ok s => f s
  | .thrown w s => .thrown w s
  | .crash => .crash

section Operations

variable {Ext : Type}

/-- Replace the slot array of the storage in slot `i`. -/
def SceneManager.setStore (sm : SceneManager Ext) (i : Nat) (a : SparseArray Comp) :
    SceneManager Ext :=
  { sm with scene_data_ :=
      { sm.scene_data_ with
        comp_store := fun j => if j = i then a else sm.scene_data_.comp_store j } }

/-- Replace the environment record. -/
def SceneManager.setEnv (sm : SceneManager Ext) (e : Environment) : SceneManager Ext :=
  { sm with scene_data_ := { sm.scene_data_ with env := e } }

/-- Replace the state outside `scene_data_`. -/
def SceneManager.setExt (sm : SceneManager Ext) (e : Ext) : SceneManager Ext :=
  { sm with ext := e }

/-- The text of `Ren::String{ s.c_str() }`: a C string ends at its first NUL
character, so only the characters of `s` before the first NUL are kept. -/
def c_str (s : String) : String :=
  ⟨s.data.takeWhile fun c => decide (c ≠ Char.ofNat 0)⟩

/-! ## ClearScene -/

/-- Embedding of `SceneManager::ClearScene`: the scene name, the entity store, the
name index and the lightmap splitter are reset, and so is the ray scene; the
component storages and the environment are not touched. -/
def ClearScene (cfg : Config Ext) (sm : SceneManager Ext) : SceneManager Ext :=
  { sm with
    scene_data_ :=
      { sm.scene_data_ with
        name := "", objects := SparseArray.clear, name_to_object := fun _ => none },
    ext := cfg.ray_scene_reset (cfg.lm_splitter_Clear sm.ext) }

/-! ## LoadScene -/

/-- Constant `SceneManagerConstants::TEXTURES_PATH` (desktop build). -/
def TEXTURES_PATH : String := "./assets_pc/textures/"

/-- Texture file extension `tex_ext` (desktop build). -/
def tex_ext : String := ".dds"

/-- Embedding of `SceneManager::OnLoadTexture`: the texture is looked up or created in
the cache without data; when it was created as a placeholder the in-flight
counter is incremented and an asynchronous load is started.  The name is first
copied into `char name_buf[4096]`, which overflows for long names. -/
def OnLoadTexture (cfg : Config Ext) (name : String) (flags : Nat) (sm : SceneManager Ext) :
    Outcome (TexRef × SceneManager Ext) :=
  let name_buf := TEXTURES_PATH ++ name
  if 4096 ≤ name_buf.utf8ByteSize then .crash
  else
    match cfg.LoadTexture2D name_buf sm.ext with
    | (ret, status, ext1) =>
      if status = eTexLoadStatus.TexCreatedDefault then
        .ok (ret, { sm with
                    scene_texture_load_counter_ := sm.scene_texture_load_counter_ + 1,
                    ext := cfg.LoadAssetComplete ret flags ext1 })
      else .ok (ret, { sm with ext := ext1 })

/-- The loop `for (sh_l = 0; sh_l < 4; sh_l++) env.lm_indir_sh[sh_l] = OnLoadTexture(...)`,
from index `sh_l` on with `fuel` iterations left. -/
def LoadLightmapSH (cfg : Config Ext) (lm_base_tex_name : String) :
    Nat → Nat → SceneManager Ext → Outcome (SceneManager Ext)
  | 0, _, sm => .ok sm
  | fuel + 1, sh_l, sm =>
    match OnLoadTexture cfg (lm_base_tex_name ++ "_lm_sh_" ++ toString sh_l ++ tex_ext) 0 sm with
    | .ok (ret, sm1) =>
      LoadLightmapSH cfg lm_base_tex_name fuel (sh_l + 1)
        (sm1.setEnv { sm1.scene_data_.env with
          lm_indir_sh := fun k => if k = sh_l then ret else sm1.scene_data_.env.lm_indir_sh k })
    | .thrown w (_, sm1) => .thrown w sm1
    | .crash => .crash

/-- The block of `LoadScene` that requests the lightmap textures of the scene. -/
def LoadLightmaps (cfg : Config Ext) (sm : SceneManager Ext) : Outcome (SceneManager Ext) :=
  let lm_base_tex_name := "lightmaps/" ++ sm.scene_data_.name
  match OnLoadTexture cfg (lm_base_tex_name ++ "_lm_direct" ++ tex_ext) 0 sm with
  | .ok (ret, sm1) =>
    LoadLightmapSH cfg lm_base_tex_name 4 0
      (sm1.setEnv { sm1.scene_data_.env with lm_direct := ret })
  | .thrown w (_, sm1) => .thrown w sm1
  | .crash => .crash

/-- The locals of one iteration of the object loop next to the manager: the
entity under construction and the accumulator `obj_bbox`. -/
structure LoadState (Ext : Type) where
  sm : SceneManager Ext
  obj : SceneObject
  obj_bbox : BBox

/-- A freshly constructed `SceneObject obj;` in iteration `k` of the object loop:
empty mask, empty name, and the `components` array holding whatever the
configuration says it holds. -/
def SceneObject.fresh (cfg : Config Ext) (k : Nat) : SceneObject :=
  { comp_mask := 0, components := cfg.uninit k, name := "" }

/-- The locals at the start of an iteration of the object loop in state `sm`:
a fresh `SceneObject` and the inverted box
`{ Vec3f{ FLT_MAX }, Vec3f{ -FLT_MAX } }`. -/
def LoadState.start (cfg : Config Ext) (sm : SceneManager Ext) : LoadState Ext :=
  { sm := sm, obj := SceneObject.fresh cfg sm.scene_data_.objects.size,
    obj_bbox := BBox.initial }

/-- Body of the slot loop once `js_comp_name == store->name()` holds for slot `i`
(lines 337 to 349): create the component, read it from the node, record index
and mask bit, run the post-load hook. -/
def LoadComponent (cfg : Config Ext) (js_comp_obj : JsObject) (i : Nat) (store : CompStorage)
    (L : LoadState Ext) : Outcome (LoadState Ext) :=
  match (L.sm.scene_data_.comp_store i).emplace Comp.new with
  | (data1, index) =>
    match store.ReadFromJs js_comp_obj Comp.new with
    | .error w => .thrown w { L with sm := L.sm.setStore i data1 }
    | .ok c1 =>
      let obj1 : SceneObject :=
        { L.obj with
          components := fun j => if j = i then index else L.obj.components j,
          comp_mask := (L.obj.comp_mask ||| (1 <<< i)) % 4294967296 }
      match cfg.component_post_load_ i with
      | none => .ok { sm := L.sm.setStore i (data1.write index c1), obj := obj1,
                      obj_bbox := L.obj_bbox }
      | some post_load =>
        match post_load js_comp_obj c1 L.obj_bbox L.sm.ext with
        | .ok (c2, bb, ext1) =>
          .ok { sm := (L.sm.setStore i (data1.write index c2)).setExt ext1, obj := obj1,
                obj_bbox := bb }
        | .thrown w (c2, bb, ext1) =>
          .thrown w { sm := (L.sm.setStore i (data1.write index c2)).setExt ext1, obj := obj1,
                      obj_bbox := bb }
        | .crash => .crash

/-- The loop `for (unsigned i = 0; i < MAX_COMPONENT_TYPES; i++)` of `LoadScene`,
from slot `i` on with `fuel` slots left: null slots are skipped, the first slot
whose declared name equals the key handles it and ends the loop. -/
def LoadSlots (cfg : Config Ext) (js_comp_name : String) (js_comp_obj : JsObject) :
    Nat → Nat → LoadState Ext → Outcome (LoadState Ext)
  | 0, _, L => .ok L
  | fuel + 1, i, L =>
    match cfg.comp_store i with
    | none => LoadSlots cfg js_comp_name js_comp_obj fuel (i + 1) L
    | some store =>
      if js_comp_name = store.name then LoadComponent cfg js_comp_obj i store L
      else LoadSlots cfg js_comp_name js_comp_obj fuel (i + 1) L

/-- One iteration of `for (const auto &js_comp : js_obj.elements)`: members
that are not object nodes are skipped. -/
def LoadKey (cfg : Config Ext) (js_comp : String × JsElement) (L : LoadState Ext) :
    Outcome (LoadState Ext) :=
  match js_comp.2 with
  | .obj js_comp_obj => LoadSlots cfg js_comp.1 js_comp_obj MAX_COMPONENT_TYPES 0 L
  | _ => .ok L

/-- The loop over the members of an object node. -/
def LoadKeys (cfg : Config Ext) : JsObject → LoadState Ext → Outcome (LoadState Ext)
  | [], L => .ok L
  | js_comp :: rest, L => (LoadKey cfg js_comp L).andThen (LoadKeys cfg rest)

/-- Lines 354 to 365 of `LoadScene`: the Transform of the entity receives the
accumulated box, the name is indexed, the entity is appended. -/
def FinishObject (cfg : Config Ext) (js_obj : JsObject) (L : LoadState Ext) :
    Outcome (SceneManager Ext) :=
  match cfg.comp_store CompTransform with
  | none => .crash
  | some _ =>
    match (L.sm.scene_data_.comp_store CompTransform).GetOrNull
        (L.obj.components CompTransform) with
    | none => .crash
    | some tr =>
      let tr1 := Comp.UpdateBBox
        { tr with bbox_min := L.obj_bbox.bmin, bbox_max := L.obj_bbox.bmax }
      let sm1 := L.sm.setStore CompTransform
        ((L.sm.scene_data_.comp_store CompTransform).write (L.obj.components CompTransform) tr1)
      if JsObject.Has js_obj "name" then
        match (JsObject.at_ js_obj "name").bind JsElement.as_str with
        | none => .thrown "Wrong type!" sm1
        | some js_name =>
          .ok { sm1 with scene_data_ :=
                  { sm1.scene_data_ with
                    name_to_object := fun k =>
                      if k = c_str js_name then
                        some (sm1.scene_data_.objects.size % 4294967296)
                      else sm1.scene_data_.name_to_object k,
                    objects :=
                      (sm1.scene_data_.objects.emplace
                        { L.obj with name := c_str js_name }).1 } }
      else
        .ok { sm1 with scene_data_ :=
                { sm1.scene_data_ with
                  objects := (sm1.scene_data_.objects.emplace L.obj).1 } }

/-- One iteration of `for (const JsElement &js_elem : js_objects.elements)`. -/
def LoadObject (cfg : Config Ext) (js_elem : JsElement) (sm : SceneManager Ext) :
    Outcome (SceneManager Ext) :=
  match js_elem.as_obj with
  | none => .thrown "Wrong type!" sm
  | some js_obj =>
    match LoadKeys cfg js_obj (LoadState.start cfg sm) with
    | .ok L => FinishObject cfg js_obj L
    | .thrown w L => .thrown w L.sm
    | .crash => .crash

/-- The loop over the `objects` array. -/
def LoadObjects (cfg : Config Ext) : JsArray → SceneManager Ext → Outcome (SceneManager Ext)
  | [], sm => .ok sm
  | js_elem :: rest, sm => (LoadObject cfg js_elem sm).andThen (LoadObjects cfg rest)

/-- Reads `js.as_arr()` and its elements `at(0)`, `at(1)`, `at(2)` as numbers;
`none` stands for the exception of a failed cast or a missing element. -/
def readVec3 (js : JsElement) : Option Vec3f :=
  match js.as_arr with
  | none => none
  | some js_arr =>
    match (js_arr[0]?).bind JsElement.as_num, (js_arr[1]?).bind JsElement.as_num,
        (js_arr[2]?).bind JsElement.as_num with
    | some x, some y, some z => some ⟨x, y, z⟩
    | _, _, _ => none

/-- The block `if (js_env.Has("sun_dir"))`. -/
def LoadSunDir (cfg : Config Ext) (js_env : JsObject) (sm : SceneManager Ext) :
    Outcome (SceneManager Ext) :=
  if JsObject.Has js_env "sun_dir" then
    match (JsObject.at_ js_env "sun_dir").bind readVec3 with
    | none => .thrown "Wrong type!" sm
    | some v => .ok (sm.setEnv { sm.scene_data_.env with sun_dir := (cfg.Normalize v).neg })
  else .ok sm

/-- The block `if (js_env.Has("sun_col"))`. -/
def LoadSunCol (js_env : JsObject) (sm : SceneManager Ext) : Outcome (SceneManager Ext) :=
  if JsObject.Has js_env "sun_col" then
    match (JsObject.at_ js_env "sun_col").bind readVec3 with
    | none => .thrown "Wrong type!" sm
    | some v => .ok (sm.setEnv { sm.scene_data_.env with sun_col := v })
  else .ok sm

/-- The block `if (js_env.Has("sun_softness"))`. -/
def LoadSunSoftness (js_env : JsObject) (sm : SceneManager Ext) : Outcome (SceneManager Ext) :=
  if JsObject.Has js_env "sun_softness" then
    match (JsObject.at_ js_env "sun_softness").bind JsElement.as_num with
    | none => .thrown "Wrong type!" sm
    | some v => .ok (sm.setEnv { sm.scene_data_.env with sun_softness := v })
  else .ok sm

/-- The block `if (js_env.Has("env_map"))`: the name is stored, then the six
faces are read and the cube map is requested from the cache (`LoadEnvMap`). -/
def LoadEnvMapBlock (cfg : Config Ext) (js_env : JsObject) (sm : SceneManager Ext) :
    Outcome (SceneManager Ext) :=
  if JsObject.Has js_env "env_map" then
    match (JsObject.at_ js_env "env_map").bind JsElement.as_str with
    | none => .thrown "Wrong type!" sm
    | some js_env_map =>
      let sm1 := sm.setEnv { sm.scene_data_.env with env_map_name := c_str js_env_map }
      match cfg.LoadEnvMap js_env_map sm1.ext with
      | .ok (ret, ext1) =>
        .ok ((sm1.setExt ext1).setEnv { sm1.scene_data_.env with env_map := ret })
      | .thrown w (_, ext1) => .thrown w (sm1.setExt ext1)
      | .crash => .crash
  else .ok sm

/-- The block `if (js_env.Has("env_map_pt"))`. -/
def LoadEnvMapPt (js_env : JsObject) (sm : SceneManager Ext) : Outcome (SceneManager Ext) :=
  if JsObject.Has js_env "env_map_pt" then
    match (JsObject.at_ js_env "env_map_pt").bind JsElement.as_str with
    | none => .thrown "Wrong type!" sm
    | some v => .ok (sm.setEnv { sm.scene_data_.env with env_map_name_pt := c_str v })
  else .ok sm

/-- Lines 368 to 469 of `LoadScene`: with an `environment` node each of the five
blocks assigns its field when its key is present; without one the record is
value-initialised. -/
def LoadEnvironment (cfg : Config Ext) (js_scene : JsObject) (sm : SceneManager Ext) :
    Outcome (SceneManager Ext) :=
  if JsObject.Has js_scene "environment" then
    match (JsObject.at_ js_scene "environment").bind JsElement.as_obj with
    | none => .thrown "Wrong type!" sm
    | some js_env =>
      ((((LoadSunDir cfg js_env sm).andThen (LoadSunCol js_env)).andThen
        (LoadSunSoftness js_env)).andThen (LoadEnvMapBlock cfg js_env)).andThen
        (LoadEnvMapPt js_env)
  else .ok (sm.setEnv Environment.empty)

/-- Live elements with their indices, in index order (`First()`, `Next(id)`). -/
def SparseArray.entries {T : Type} (a : SparseArray T) : List (Nat × T) :=
  a.slots.enum.filterMap (fun p => p.2.map (fun v => (p.1, v)))

/-- Embedding of `SceneManager::LoadProbeCache` up to the asynchronous requests it
starts: for every live LightProbe, in index order, and each of its six faces
one request is handed to the asset loader. -/
def LoadProbeCache (cfg : Config Ext) (sm : SceneManager Ext) : Outcome (SceneManager Ext) :=
  let ext0 := cfg.probe_storage_compress sm.ext
  match cfg.comp_store CompProbe with
  | none => .crash
  | some _ =>
    .ok (sm.setExt
      ((sm.scene_data_.comp_store CompProbe).entries.foldl
        (fun e p => (List.range 6).foldl
          (fun e1 face_index => cfg.LoadProbeFace sm.scene_data_.name p.1 p.2 face_index e1) e)
        ext0))

/-- The statements of `LoadScene` from `ClearScene()` to the end of the name check. -/
def LoadHeader (cfg : Config Ext) (sm : SceneManager Ext) (js_scene : JsObject) :
    Outcome (SceneManager Ext) :=
  let sm1 := ClearScene cfg sm
  if JsObject.Has js_scene "name" then
    match (JsObject.at_ js_scene "name").bind JsElement.as_str with
    | none => .thrown "Wrong type!" sm1
    | some js_name =>
      .ok { sm1 with scene_data_ := { sm1.scene_data_ with name := c_str js_name },
                     scene_texture_load_counter_ := 0 }
  else .thrown "Level has no name!" sm1

/-- The statement `js_scene.at("objects").as_arr()` followed by the object loop. -/
def LoadObjectsBlock (cfg : Config Ext) (js_scene : JsObject) (sm : SceneManager Ext) :
    Outcome (SceneManager Ext) :=
  match (JsObject.at_ js_scene "objects").bind JsElement.as_arr with
  | none => .thrown "Wrong type!" sm
  | some js_objects => LoadObjects cfg js_objects sm

/-- The last statements of `LoadScene`: `LoadProbeCache()`, `decals_atlas.Finalize()`,
`RebuildBVH()`. -/
def LoadFinish (cfg : Config Ext) (sm : SceneManager Ext) : Outcome (SceneManager Ext) :=
  (LoadProbeCache cfg sm).andThen fun sm1 =>
    let ext1 := cfg.decals_atlas_Finalize sm1.ext
    .ok (sm1.setExt (cfg.RebuildBVH sm1.scene_data_ ext1))

/-- Embedding of `SceneManager::LoadScene`. -/
def LoadScene (cfg : Config Ext) (sm : SceneManager Ext) (js_scene : JsObject) :
    Outcome (SceneManager Ext) :=
  ((((LoadHeader cfg sm js_scene).andThen (LoadLightmaps cfg)).andThen
    (LoadObjectsBlock cfg js_scene)).andThen (LoadEnvironment cfg js_scene)).andThen
    (LoadFinish cfg)

/-! ## SaveScene -/

/-- The loop `for (unsigned i = 0; i < MAX_COMPONENT_TYPES; i++)` of `SaveScene` for
one entity, from slot `i` on with `fuel` slots left; `none` is undefined
behaviour (a set bit whose storage pointer or component pointer is null). -/
def SaveSlots (cfg : Config Ext) (sd : SceneData) (obj : SceneObject) :
    Nat → Nat → JsObject → Option JsObject
  | 0, _, js_obj => some js_obj
  | fuel + 1, i, js_obj =>
    if (obj.comp_mask &&& (1 <<< i)) % 4294967296 ≠ 0 then
      match cfg.comp_store i with
      | none => none
      | some store =>
        match (sd.comp_store i).GetOrNull (obj.components i) with
        | none => none
        | some comp =>
          SaveSlots cfg sd obj fuel (i + 1)
            (JsObject.Push js_obj store.name (.obj (store.WriteToJs comp)))
    else SaveSlots cfg sd obj fuel (i + 1) js_obj

/-- The loop `for (const SceneObject &obj : scene_data_.objects)` of `SaveScene`. -/
def SaveObjects (cfg : Config Ext) (sd : SceneData) :
    List SceneObject → JsArray → Option JsArray
  | [], js_objects => some js_objects
  | obj :: rest, js_objects =>
    match SaveSlots cfg sd obj MAX_COMPONENT_TYPES 0 [] with
    | none => none
    | some js_obj => SaveObjects cfg sd rest (js_objects ++ [.obj js_obj])

/-- The block "write environment" of `SaveScene`. -/
def SaveEnvironment (env : Environment) : JsObject :=
  let js_sun_dir : JsArray :=
    [.num (-env.sun_dir.x), .num (-env.sun_dir.y), .num (-env.sun_dir.z)]
  let js_sun_col : JsArray := [.num env.sun_col.x, .num env.sun_col.y, .num env.sun_col.z]
  JsObject.Push (JsObject.Push (JsObject.Push (JsObject.Push (JsObject.Push []
    "sun_dir" (.arr js_sun_dir)) "sun_col" (.arr js_sun_col))
    "sun_softness" (.num env.sun_softness)) "env_map" (.str env.env_map_name))
    "env_map_pt" (.str env.env_map_name_pt)

/-- Embedding of `SceneManager::SaveScene`: the members `name`, `environment` and
`objects` are pushed onto `js_scene`; `none` is undefined behaviour. -/
def SaveScene (cfg : Config Ext) (sm : SceneManager Ext) (js_scene : JsObject) :
    Option JsObject :=
  let js1 := JsObject.Push js_scene "name" (.str sm.scene_data_.name)
  let js2 := JsObject.Push js1 "environment" (.obj (SaveEnvironment sm.scene_data_.env))
  match SaveObjects cfg sm.scene_data_ sm.scene_data_.objects.toList [] with
  | none => none
  | some js_objects => some (JsObject.Push js2 "objects" (.arr js_objects))

end Operations

/-! ## A concrete manager

The registry below is the one the constructor of `SceneManager` builds: nine
storages, hooks on Drawable, Occluder, Lightmap, LightSource, Decal and
LightProbe.  It is used to run the embedding on concrete documents. -/

/-- Modelled from the spec: the declared names `T::name()` of the nine default
component types, in slot order (`CompTransform`, `CompDrawable`, ...). -/
def stdNames : List String :=
  ["Transform", "Drawable", "Occluder", "Lightmap", "LightSource", "Decal", "LightProbe",
    "AnimState", "VegState"]

/-- Declared name of the storage in slot `i`, when one is registered. -/
def stdName (i : Nat) : Option String :=
  stdNames[i]?

/-- Modelled from the spec: `Transform::Read`, which fills the local matrix; an
optional member `pos` (three numbers) becomes the translation column.  The
node is kept as payload. -/
def stdReadTransform (js : JsObject) (c : Comp) : Except String Comp :=
  if JsObject.Has js "pos" then
    match (JsObject.at_ js "pos").bind readVec3 with
    | none => .error "Wrong type!"
    | some p =>
      .ok { c with payload := js,
                   mat := fun i j => if i = 3 then p.get j else c.mat i j }
  else .ok { c with payload := js }

/-- Modelled from the spec: `T::Read` of the other component types, keeping the
node as payload. -/
def stdRead (js : JsObject) (c : Comp) : Except String Comp :=
  .ok { c with payload := js }

/-- Storage interface of slot `i` in the default registry. -/
def stdStore (i : Nat) : Option CompStorage :=
  (stdName i).map fun n =>
    { name := n,
      ReadFromJs := if i = CompTransform then stdReadTransform else stdRead,
      WriteToJs := fun c => c.payload }

/-- Bounding box of every mesh of the concrete manager. -/
def stdMeshBox : BBox := ⟨⟨-1, -1, -1⟩, ⟨1, 1, 1⟩⟩

/-- World-space box of every light of the concrete manager. -/
def stdLightBox : BBox := ⟨⟨-5, 0, -5⟩, ⟨5, 3, 5⟩⟩

/-- Post-load hooks of the concrete manager, by slot: Drawable and Occluder
unite the mesh box into the accumulator, LightSource and LightProbe the light
box, Lightmap and Decal leave it alone; the state outside the scene is a list
of cached texture names, which the hooks do not touch. -/
def stdHook (i : Nat) : Option (PostLoadFunc (List String)) :=
  if i = CompDrawable ∨ i = CompOccluder then
    some fun _ c bb ext => .ok (c, bb.union stdMeshBox, ext)
  else if i = CompLightSource ∨ i = CompProbe then
    some fun _ c bb ext => .ok (c, bb.union stdLightBox, ext)
  else if i = CompLightmap ∨ i = CompDecal then
    some fun _ c bb ext => .ok (c, bb, ext)
  else none

/-- The box each hook of the concrete manager contributes, by slot. -/
def stdContrib (i : Nat) (_ : JsObject) (_ : Comp) (_ : List String) : Option BBox :=
  if i = CompDrawable ∨ i = CompOccluder then some stdMeshBox
  else if i = CompLightSource ∨ i = CompProbe then some stdLightBox
  else none

/-- The concrete manager configuration; `g k` is the content of the
never-assigned `components` array of the object constructed for node `k`.  The texture cache creates a placeholder for an unknown
name and finds a known one. -/
def stdConfig (g : Nat → Nat → Nat) : Config (List String) :=
  { comp_store := stdStore,
    component_post_load_ := stdHook,
    uninit := g,
    Normalize := fun v => v,
    lm_splitter_Clear := fun e => e,
    ray_scene_reset := fun e => e,
    LoadTexture2D := fun n e =>
      if n ∈ e then (some n, eTexLoadStatus.TexFound, e)
      else (some n, eTexLoadStatus.TexCreatedDefault, n :: e),
    LoadAssetComplete := fun _ _ e => e,
    LoadEnvMap := fun n e => .ok (some n, e),
    LoadProbeFace := fun _ _ _ _ e => e,
    probe_storage_compress := fun e => e,
    decals_atlas_Finalize := fun e => e,
    RebuildBVH := fun _ e => e }

/-- A newly constructed manager: no scene, empty storages, empty caches. -/
def freshManager : SceneManager (List String) :=
  { scene_data_ :=
      { name := "", objects := SparseArray.clear, name_to_object := fun _ => none,
        env := Environment.empty, comp_store := fun _ => SparseArray.clear },
    scene_texture_load_counter_ := 0,
    ext := [] }

/-- The document of the end-to-end example of the spec:
one entity `a` with a Transform and a Drawable. -/
def exampleScene : JsObject :=
  [("name", .str "t"),
   ("objects", .arr [.obj [("name", .str "a"), ("Transform", .obj []),
                           ("Drawable", .obj [("mesh_file", .str "x")])]])]


/-! ## Auxiliary notions used to state the results -/

section Notions

variable {Ext : Type}

/-- The lookup `scene_data_.comp_store[i]->Get(idx)` in the state `sm`. -/
def CompAt (sm : SceneManager Ext) (i idx : Nat) : Option Comp :=
  (sm.scene_data_.comp_store i).GetOrNull idx

/-- The slot that handles a key: the search performed by the slot loop of
`LoadScene` (see `LoadSlots`), from slot `i` on with `fuel` slots left. -/
def matchSlot (cfg : Config Ext) (js_comp_name : String) : Nat → Nat → Option Nat
  | 0, _ => none
  | fuel + 1, i =>
    match cfg.comp_store i with
    | none => matchSlot cfg js_comp_name fuel (i + 1)
    | some store =>
      if js_comp_name = store.name then some i
      else matchSlot cfg js_comp_name fuel (i + 1)

/-- The run of `LoadScene` up to the start of the iteration for object node `k`:
header, lightmap textures and the first `k` iterations of the object loop. -/
def LoadPrefix (cfg : Config Ext) (sm : SceneManager Ext) (js_scene : JsObject) (k : Nat) :
    Outcome (SceneManager Ext) :=
  ((LoadHeader cfg sm js_scene).andThen (LoadLightmaps cfg)).andThen fun s =>
    match (JsObject.at_ js_scene "objects").bind JsElement.as_arr with
    | none => .thrown "Wrong type!" s
    | some js_objects => LoadObjects cfg (js_objects.take k) s

/-- The object nodes of a document: the elements of its `objects` array. -/
def sceneObjects (js_scene : JsObject) : JsArray :=
  ((JsObject.at_ js_scene "objects").bind JsElement.as_arr).getD []

/-- Slot `i` holds a registered storage. -/
def Registered (cfg : Config Ext) (i : Nat) : Prop :=
  (cfg.comp_store i).isSome = true

/-- No two registered storages declare the same name. -/
def NamesDistinct (cfg : Config Ext) : Prop :=
  ∀ i j si sj, i < MAX_COMPONENT_TYPES → j < MAX_COMPONENT_TYPES →
    cfg.comp_store i = some si → cfg.comp_store j = some sj → si.name = sj.name → i = j

/-- The node has an object-valued member whose key is `name`. -/
def HasObjectKey (js_obj : JsObject) (name : String) : Prop :=
  ∃ js_comp_obj, (name, JsElement.obj js_comp_obj) ∈ js_obj

/-- What holds of the locals `L` of an iteration of the object loop that
started in state `s0`, while the members of the node are processed: the scene
proper is as in `s0`, components live in `s0` are untouched, a set mask bit
comes with a component created in this iteration, and a clear bit with an
untouched storage. -/
structure NodeInv (cfg : Config Ext) (s0 : SceneManager Ext) (L : LoadState Ext) : Prop where
  objects : L.sm.scene_data_.objects = s0.scene_data_.objects
  names : L.sm.scene_data_.name_to_object = s0.scene_data_.name_to_object
  name : L.sm.scene_data_.name = s0.scene_data_.name
  env : L.sm.scene_data_.env = s0.scene_data_.env
  counter : L.sm.scene_texture_load_counter_ = s0.scene_texture_load_counter_
  obj_name : L.obj.name = ""
  keep : ∀ i idx c, CompAt s0 i idx = some c → CompAt L.sm i idx = some c
  set_bit : ∀ i, L.obj.comp_mask.testBit i = true →
    i < MAX_COMPONENT_TYPES ∧ Registered cfg i ∧
      CompAt s0 i (L.obj.components i) = none ∧
      (CompAt L.sm i (L.obj.components i)).isSome = true
  clear_bit : ∀ i, L.obj.comp_mask.testBit i = false →
    ∀ idx, CompAt L.sm i idx = CompAt s0 i idx

/-- Two states of the manager with the same entities, name index, component
storages and scene name. -/
structure SameScene (s s1 : SceneManager Ext) : Prop where
  objects : s1.scene_data_.objects = s.scene_data_.objects
  names : s1.scene_data_.name_to_object = s.scene_data_.name_to_object
  comp_store : s1.scene_data_.comp_store = s.scene_data_.comp_store
  name : s1.scene_data_.name = s.scene_data_.name

/-- The name an object node declares: the string under its key `name`. -/
def declaredName (js_obj : JsObject) : Option String :=
  if JsObject.Has js_obj "name" then (JsObject.at_ js_obj "name").bind JsElement.as_str
  else none

/-- The name of the entity built from an object node: the declared name as the
C string from which `obj.name` is constructed. -/
def entityName (js_obj : JsObject) : Option String :=
  (declaredName js_obj).map c_str

/-- The element of the `objects` array is an object node that declares a name
whose C string is `s`, the name its entity is stored and indexed under. -/
def Declares (js_elem : JsElement) (s : String) : Prop :=
  ∃ js_obj, js_elem = JsElement.obj js_obj ∧ entityName js_obj = some s

/-- Declared name of the storage in slot `i` (empty for a null slot). -/
def slotName (cfg : Config Ext) (i : Nat) : String :=
  ((cfg.comp_store i).map fun st => st.name).getD ""

/-- Every set mask bit of the entity comes with a registered storage and a live
component at the recorded index. -/
def EntityOk (cfg : Config Ext) (sd : SceneData) (e : SceneObject) : Prop :=
  ∀ i, i < MAX_COMPONENT_TYPES → e.comp_mask.testBit i = true →
    ∃ st c, cfg.comp_store i = some st ∧ (sd.comp_store i).GetOrNull (e.components i) = some c

/-- The keys `SaveScene` is to write for an entity: the declared names of the
storages of the set mask bits, by ascending slot. -/
def maskKeys (cfg : Config Ext) (e : SceneObject) : List String :=
  ((List.range MAX_COMPONENT_TYPES).filter fun i => e.comp_mask.testBit i).map (slotName cfg)

/-- Accumulator after a hook that contributes the box `ob`, or nothing. -/
def BBox.unionOpt (bb : BBox) (ob : Option BBox) : BBox :=
  match ob with
  | some b => bb.union b
  | none => bb

/-- Every registered post-load hook, when it returns, has united into the
accumulator the box `contrib i js comp ext` (a function of the slot, the node,
the component and the state outside the scene, not of the accumulator), or left
the accumulator alone when that is `none`. -/
def HooksUnite (cfg : Config Ext) (contrib : Nat → JsObject → Comp → Ext → Option BBox) :
    Prop :=
  ∀ i post js c bb ext c1 bb1 ext1, cfg.component_post_load_ i = some post →
    post js c bb ext = .ok (c1, bb1, ext1) → bb1 = bb.unionOpt (contrib i js c ext)

/-- The box contributed while one member of a node is processed in state `L`:
that of the hook of the slot handling the member, when there is one. -/
def keyBox (cfg : Config Ext) (contrib : Nat → JsObject → Comp → Ext → Option BBox)
    (js_comp : String × JsElement) (L : LoadState Ext) : Option BBox :=
  match js_comp.2 with
  | .obj js_comp_obj =>
    match matchSlot cfg js_comp.1 MAX_COMPONENT_TYPES 0 with
    | some i =>
      match cfg.comp_store i, cfg.component_post_load_ i with
      | some store, some _ =>
        match store.ReadFromJs js_comp_obj Comp.new with
        | .ok c1 => contrib i js_comp_obj c1 L.sm.ext
        | .error _ => none
      | _, _ => none
    | none => none
  | _ => none

/-- The boxes contributed by the hooks while the members of a node are
processed from state `L` on, in document order. -/
def hookBoxes (cfg : Config Ext) (contrib : Nat → JsObject → Comp → Ext → Option BBox) :
    JsObject → LoadState Ext → List BBox
  | [], _ => []
  | js_comp :: rest, L =>
    (keyBox cfg contrib js_comp L).toList ++
      (match LoadKey cfg js_comp L with
       | .ok L1 => hookBoxes cfg contrib rest L1
       | _ => [])

end Notions

/-- The manager after the example scene was loaded into a new manager. -/
def exampleLoaded : SceneManager (List String) :=
  (LoadScene (stdConfig fun _ _ => 0) freshManager exampleScene).getD freshManager

/-- The first entity of the loaded example scene. -/
def exampleEntity : SceneObject :=
  (exampleLoaded.scene_data_.objects.toList[0]?).getD (SceneObject.fresh (stdConfig fun _ _ => 0) 0)

/-- Keys of the object nodes of a document, node by node. -/
def nodeKeys (js_scene : JsObject) : List (List String) :=
  (sceneObjects js_scene).map fun n => JsObject.keys (n.as_obj.getD [])

/-- The document `SaveScene` writes for the loaded example scene. -/
def exampleSaved : JsObject :=
  (SaveScene (stdConfig fun _ _ => 0) exampleLoaded []).getD []

/-- The manager after the saved example scene was loaded into a new manager. -/
def exampleReloaded : SceneManager (List String) :=
  (LoadScene (stdConfig fun _ _ => 0) freshManager exampleSaved).getD freshManager

/-- A document with one object node that has a Drawable but no Transform. -/
def sceneWithoutTransform : JsObject :=
  [("name", .str "t"),
   ("objects", .arr [.obj [("Drawable", .obj [("mesh_file", .str "x")])]])]

/-- A document whose second object node has a LightSource but no Transform. -/
def sceneSecondWithoutTransform : JsObject :=
  [("name", .str "t"),
   ("objects", .arr [.obj [("Transform", .obj []), ("Drawable", .obj [("mesh_file", .str "x")])],
                     .obj [("LightSource", .obj [])]])]

/-- The manager after `sceneSecondWithoutTransform` was loaded into a new
manager whose never-assigned indices read as 0. -/
def loadedSecondWithoutTransform : SceneManager (List String) :=
  (LoadScene (stdConfig fun _ _ => 0) freshManager sceneSecondWithoutTransform).getD freshManager

/-- A document with a complete `environment` node (no cube map). -/
def sceneWithSun : JsObject :=
  [("name", .str "u"), ("objects", .arr []),
   ("environment", .obj [("sun_dir", .arr [.num 0, .num 1, .num 0]),
                         ("sun_col", .arr [.num 9, .num 9, .num 9]),
                         ("sun_softness", .num 5),
                         ("env_map_pt", .str "old")])]

/-- A manager that has loaded `sceneWithSun`. -/
def managerAfterSun : SceneManager (List String) :=
  (LoadScene (stdConfig fun _ _ => 0) freshManager sceneWithSun).getD freshManager

/-- A document whose `environment` node sets the sun colour only. -/
def sceneSunColOnly : JsObject :=
  [("name", .str "t"), ("objects", .arr []),
   ("environment", .obj [("sun_col", .arr [.num 1, .num 2, .num 3])])]

/-- The manager after `sceneSunColOnly` was loaded into a new manager. -/
def sunColOnlyFromFresh : SceneManager (List String) :=
  (LoadScene (stdConfig fun _ _ => 0) freshManager sceneSunColOnly).getD freshManager

/-- The manager after `sceneSunColOnly` was loaded into `managerAfterSun`. -/
def sunColOnlyAfterSun : SceneManager (List String) :=
  (LoadScene (stdConfig fun _ _ => 0) managerAfterSun sceneSunColOnly).getD freshManager

/-- A document with one entity: a Transform translated by (10, 0, 0) and a
Drawable. -/
def sceneMoved : JsObject :=
  [("name", .str "t"),
   ("objects", .arr [.obj [("Transform", .obj [("pos", .arr [.num 10, .num 0, .num 0])]),
                           ("Drawable", .obj [("mesh_file", .str "x")])]])]

/-- The manager after `sceneMoved` was loaded into a new manager. -/
def loadedMoved : SceneManager (List String) :=
  (LoadScene (stdConfig fun _ _ => 0) freshManager sceneMoved).getD freshManager

/-- The first entity of `loadedMoved`. -/
def movedEntity : SceneObject :=
  (loadedMoved.scene_data_.objects.toList[0]?).getD (SceneObject.fresh (stdConfig fun _ _ => 0) 0)

/-- The Transform of the first entity of `loadedMoved`. -/
def movedTransform : Comp :=
  (CompAt loadedMoved CompTransform (movedEntity.components CompTransform)).getD Comp.new

/-! ## Resource cache (Ren/Context.cpp) -/

/-- Source bytes handed to a load call (`std::istream *`, `const char *mat_src`,
`const void *data` with `size`); `Option Data` is a possibly null pointer. -/
abbrev Data := List Nat

/-- Modelled from the spec: an entry of a typed cache, "a reference-counted,
named" resource with a `ready` flag that "is false until its payload is
installed".  `init_calls` counts the invocations of `Init` on the entry. -/
structure Resource where
  name : String
  ready : Bool
  init_calls : Nat
  payload : Option Data
deriving DecidableEq, Repr

/-- Modelled from the spec: `T::Init(data, ...)`.  With source bytes the payload
is installed and the entry becomes ready; without, the entry stays the
placeholder it is. -/
def Resource.Init (r : Resource) (data : Option Data) : Resource :=
  match data with
  | some d => { r with ready := true, init_calls := r.init_calls + 1, payload := some d }
  | none => { r with init_calls := r.init_calls + 1 }

/-- Modelled from the spec: the entry a cache constructs for `Add(name, data, ...)`:
"create one (immediately usable as a default/placeholder reference even before
data arrives) and, if source bytes are supplied, initialize synchronously". -/
def Resource.create (name : String) (data : Option Data) : Resource :=
  match data with
  | some d => Resource.Init { name := name, ready := false, init_calls := 0, payload := none }
      (some d)
  | none => { name := name, ready := false, init_calls := 0, payload := none }

/-- A typed cache (`Ren::Storage<T>`): a sparse array of named entries. -/
abbrev Storage := SparseArray Resource

/-- Modelled from the spec: `Storage::FindByName(name)`, the first live entry with
this name together with its index; `none` is the null reference. -/
def Storage.FindByName (s : Storage) (name : String) : Option (Nat × Resource) :=
  s.entries.find? fun p => p.2.name == name

/-- Modelled from the spec: `Storage::Add(name, data, ...)`, which constructs a new
entry and returns the reference to it. -/
def Storage.Add (s : Storage) (name : String) (data : Option Data) : Storage × Nat :=
  s.emplace (Resource.create name data)

/-- Status reported by the mesh cache. -/
inductive eMeshLoadStatus where
  | MeshFound
  | MeshSetToDefault
  | MeshCreatedFromData
deriving DecidableEq, Repr

/-- Status reported by the material cache. -/
inductive eMatLoadStatus where
  | MatFound
  | MatSetToDefault
  | MatCreatedFromData
deriving DecidableEq, Repr

/-- The typed caches of `Ren::Context`. -/
structure Context where
  meshes_ : Storage
  materials_ : Storage
  textures_ : Storage
  texture_regions_ : Storage
  anims_ : Storage
  buffers_ : Storage

/-- A context with empty caches. -/
def Context.empty : Context :=
  { meshes_ := SparseArray.clear, materials_ := SparseArray.clear,
    textures_ := SparseArray.clear, texture_regions_ := SparseArray.clear,
    anims_ := SparseArray.clear, buffers_ := SparseArray.clear }

/-- What a call writes through a status pointer: nothing through a null pointer
(`ptr = false`). -/
def writeStatus {α : Type} (ptr : Bool) (v : α) : Option α :=
  if ptr then some v else none

/-- Embedding of `Ren::Context::LoadMesh`.  The result is the returned reference, what
was written through `load_status` (`none` when nothing was written), and the
context afterwards.  `load_status` tells whether the pointer is non-null. -/
def Context.LoadMesh (ctx : Context) (name : String) (data : Option Data) (load_status : Bool) :
    Nat × Option eMeshLoadStatus × Context :=
  match ctx.meshes_.FindByName name with
  | none =>
    match ctx.meshes_.Add name data with
    | (st, ref) =>
      (ref,
        writeStatus load_status
          (if data.isSome then eMeshLoadStatus.MeshCreatedFromData
           else eMeshLoadStatus.MeshSetToDefault),
        { ctx with meshes_ := st })
  | some (ref, r) =>
    if r.ready then (ref, writeStatus load_status eMeshLoadStatus.MeshFound, ctx)
    else
      match data with
      | some d =>
        (ref, writeStatus load_status eMeshLoadStatus.MeshCreatedFromData,
          { ctx with meshes_ := ctx.meshes_.write ref (r.Init (some d)) })
      | none => (ref, none, ctx)

/-- Embedding of `Ren::Context::LoadMaterial`. -/
def Context.LoadMaterial (ctx : Context) (name : String) (mat_src : Option Data)
    (status : Bool) : Nat × Option eMatLoadStatus × Context :=
  match ctx.materials_.FindByName name with
  | none =>
    match ctx.materials_.Add name mat_src with
    | (st, ref) =>
      (ref,
        writeStatus status
          (if mat_src.isSome then eMatLoadStatus.MatCreatedFromData
           else eMatLoadStatus.MatSetToDefault),
        { ctx with materials_ := st })
  | some (ref, r) =>
    if r.ready then (ref, writeStatus status eMatLoadStatus.MatFound, ctx)
    else
      match mat_src with
      | some d =>
        if !r.ready then
          (ref, writeStatus status eMatLoadStatus.MatCreatedFromData,
            { ctx with materials_ := ctx.materials_.write ref (r.Init (some d)) })
        else (ref, none, ctx)
      | none => (ref, none, ctx)

/-- Embedding of `Ren::Context::LoadTexture2D`: for an existing entry `TexFound` is
written first, whether the entry is ready or not. -/
def Context.LoadTexture2D (ctx : Context) (name : String) (data : Option Data)
    (load_status : Bool) : Nat × Option eTexLoadStatus × Context :=
  match ctx.textures_.FindByName name with
  | none =>
    match ctx.textures_.Add name data with
    | (st, ref) =>
      (ref,
        writeStatus load_status
          (if data.isSome then eTexLoadStatus.TexCreatedFromData
           else eTexLoadStatus.TexCreatedDefault),
        { ctx with textures_ := st })
  | some (ref, r) =>
    match data with
    | some d =>
      if !r.ready then
        (ref, writeStatus load_status eTexLoadStatus.TexCreatedFromData,
          { ctx with textures_ := ctx.textures_.write ref (r.Init (some d)) })
      else (ref, writeStatus load_status eTexLoadStatus.TexFound, ctx)
    | none => (ref, writeStatus load_status eTexLoadStatus.TexFound, ctx)

/-- Embedding of `Ren::Context::LoadTextureCube`, which shares the cache `textures_`. -/
def Context.LoadTextureCube (ctx : Context) (name : String) (data : Option Data)
    (load_status : Bool) : Nat × Option eTexLoadStatus × Context :=
  match ctx.textures_.FindByName name with
  | none =>
    match ctx.textures_.Add name data with
    | (st, ref) =>
      (ref,
        writeStatus load_status
          (if data.isSome then eTexLoadStatus.TexCreatedFromData
           else eTexLoadStatus.TexCreatedDefault),
        { ctx with textures_ := st })
  | some (ref, r) =>
    if r.ready then (ref, writeStatus load_status eTexLoadStatus.TexFound, ctx)
    else
      match data with
      | some d =>
        (ref, writeStatus load_status eTexLoadStatus.TexCreatedFromData,
          { ctx with textures_ := ctx.textures_.write ref (r.Init (some d)) })
      | none => (ref, none, ctx)

/-- Embedding of `Ren::Context::LoadTextureRegion`: an entry that is not ready is
initialized again, with or without data. -/
def Context.LoadTextureRegion (ctx : Context) (name : String) (data : Option Data)
    (load_status : Bool) : Nat × Option eTexLoadStatus × Context :=
  match ctx.texture_regions_.FindByName name with
  | none =>
    match ctx.texture_regions_.Add name data with
    | (st, ref) =>
      (ref,
        writeStatus load_status
          (if data.isSome then eTexLoadStatus.TexCreatedFromData
           else eTexLoadStatus.TexCreatedDefault),
        { ctx with texture_regions_ := st })
  | some (ref, r) =>
    if r.ready then (ref, writeStatus load_status eTexLoadStatus.TexFound, ctx)
    else
      (ref,
        writeStatus load_status
          (if data.isSome then eTexLoadStatus.TexCreatedFromData
           else eTexLoadStatus.TexCreatedDefault),
        { ctx with texture_regions_ := ctx.texture_regions_.write ref (r.Init data) })

/-- Embedding of `Ren::Context::LoadAnimSequence`; `data` is `none` when the stream
tests false. -/
def Context.LoadAnimSequence (ctx : Context) (name : String) (data : Option Data) :
    Nat × Context :=
  match ctx.anims_.FindByName name with
  | none =>
    match ctx.anims_.Add name data with
    | (st, ref) => (ref, { ctx with anims_ := st })
  | some (ref, r) =>
    if r.ready then (ref, ctx)
    else
      match data with
      | some d =>
        if !r.ready then (ref, { ctx with anims_ := ctx.anims_.write ref (r.Init (some d)) })
        else (ref, ctx)
      | none => (ref, ctx)

/-- Embedding of `Ren::Context::CreateBuffer`: the buffer is added without a lookup.
The initial size is kept as payload. -/
def Context.CreateBuffer (ctx : Context) (name : String) (initial_size : Nat) :
    Nat × Context :=
  match ctx.buffers_.emplace
      { name := name, ready := true, init_calls := 0, payload := some [initial_size] } with
  | (st, ref) => (ref, { ctx with buffers_ := st })

/-- A call of one of the loading functions of `Ren::Context`. -/
inductive CtxCall where
  | LoadMesh (name : String) (data : Option Data) (load_status : Bool)
  | LoadMaterial (name : String) (mat_src : Option Data) (status : Bool)
  | LoadTexture2D (name : String) (data : Option Data) (load_status : Bool)
  | LoadTextureCube (name : String) (data : Option Data) (load_status : Bool)
  | LoadTextureRegion (name : String) (data : Option Data) (load_status : Bool)
  | LoadAnimSequence (name : String) (data : Option Data)
  | CreateBuffer (name : String) (initial_size : Nat)

/-- The context after a call. -/
def Context.call (ctx : Context) : CtxCall → Context
  | .LoadMesh n d p => (ctx.LoadMesh n d p).2.2
  | .LoadMaterial n d p => (ctx.LoadMaterial n d p).2.2
  | .LoadTexture2D n d p => (ctx.LoadTexture2D n d p).2.2
  | .LoadTextureCube n d p => (ctx.LoadTextureCube n d p).2.2
  | .LoadTextureRegion n d p => (ctx.LoadTextureRegion n d p).2.2
  | .LoadAnimSequence n d => (ctx.LoadAnimSequence n d).2
  | .CreateBuffer n sz => (ctx.CreateBuffer n sz).2

/-- The context after a sequence of calls. -/
def Context.calls (ctx : Context) (cs : List CtxCall) : Context :=
  cs.foldl Context.call ctx

/-- No two live entries of the cache have the same name. -/
def Storage.NoDupNames (s : Storage) : Prop :=
  ∀ i j ri rj, s.GetOrNull i = some ri → s.GetOrNull j = some rj → ri.name = rj.name → i = j

/-- One change of a cache that keeps names apart: nothing, a live entry overwritten
by one of the same name, or an entry added under a name no live entry has. -/
inductive CacheStep (s : Storage) : Storage → Prop where
  | same : CacheStep s s
  | init (i : Nat) (r q : Resource) (hr : s.GetOrNull i = some r) (hq : q.name = r.name) :
      CacheStep s (s.write i q)
  | add (q : Resource) (hq : ∀ i r, s.GetOrNull i = some r → r.name ≠ q.name) :
      CacheStep s (s.emplace q).1

/-- No cache that is looked up by name holds two live entries of one name. -/
def Context.NamesApart (ctx : Context) : Prop :=
  ctx.meshes_.NoDupNames ∧ ctx.materials_.NoDupNames ∧ ctx.textures_.NoDupNames ∧
    ctx.texture_regions_.NoDupNames ∧ ctx.anims_.NoDupNames

/-- The four load calls that take optional source data and report a status. -/
inductive LoadKind where
  | mesh
  | material
  | texture2D
  | textureCube
deriving DecidableEq, Repr

/-- A status of any of the caches. -/
inductive LoadStatus where
  | mesh (s : eMeshLoadStatus)
  | mat (s : eMatLoadStatus)
  | tex (s : eTexLoadStatus)
deriving DecidableEq, Repr

/-- The cache a load call works on. -/
def LoadKind.cache : LoadKind → Context → Storage
  | .mesh, ctx => ctx.meshes_
  | .material, ctx => ctx.materials_
  | .texture2D, ctx => ctx.textures_
  | .textureCube, ctx => ctx.textures_

/-- The status `Found` of the cache of a load call. -/
def LoadKind.Found : LoadKind → LoadStatus
  | .mesh => .mesh .MeshFound
  | .material => .mat .MatFound
  | .texture2D => .tex .TexFound
  | .textureCube => .tex .TexFound

/-- The load call of the given kind: `LoadMesh`, `LoadMaterial`, `LoadTexture2D` or
`LoadTextureCube`. -/
def Context.load (k : LoadKind) (ctx : Context) (name : String) (data : Option Data)
    (load_status : Bool) : Nat × Option LoadStatus × Context :=
  match k with
  | .mesh =>
    match ctx.LoadMesh name data load_status with
    | (ref, st, c) => (ref, st.map LoadStatus.mesh, c)
  | .material =>
    match ctx.LoadMaterial name data load_status with
    | (ref, st, c) => (ref, st.map LoadStatus.mat, c)
  | .texture2D =>
    match ctx.LoadTexture2D name data load_status with
    | (ref, st, c) => (ref, st.map LoadStatus.tex, c)
  | .textureCube =>
    match ctx.LoadTextureCube name data load_status with
    | (ref, st, c) => (ref, st.map LoadStatus.tex, c)

/-- A context whose mesh cache holds the placeholder entry "m" that a load without
source data has created. -/
def ctxWithPlaceholder : Context :=
  (Context.empty.LoadMesh "m" none false).2.2

/-- A context whose mesh cache holds the ready entry "m", created from data. -/
def ctxWithMesh : Context :=
  (Context.empty.LoadMesh "m" (some [7]) false).2.2

/-! ## PostloadLightmap -/

/-- Constant `SceneManagerConstants::LIGHTMAP_ATLAS_RESX`. -/
def LIGHTMAP_ATLAS_RESX : Int := 2048

/-- Constant `SceneManagerConstants::LIGHTMAP_ATLAS_RESY`. -/
def LIGHTMAP_ATLAS_RESY : Int := 1024

/-- The fields of a `Lightmap` component that `PostloadLightmap` uses: the requested
size and the allocated position in pixels (`int[2]`), and the atlas transform
(`Vec4f`, here in exact arithmetic). -/
structure Lightmap where
  size : Int × Int
  pos : Int × Int
  xform : ℚ × ℚ × ℚ × ℚ
deriving DecidableEq

/-- Signature of `TextureSplitter::Allocate(size, pos)` on a splitter state `S`: the node
index (`-1` on failure), the content of `pos` afterwards, and the splitter
afterwards. -/
abbrev SplitterAllocate (S : Type) := S → Int × Int → Int × Int → Int × (Int × Int) × S

/-- Embedding of `SceneManager::PostloadLightmap`; the state is the component, the
accumulator `obj_bbox` and the lightmap splitter. -/
def PostloadLightmap {S : Type} (Allocate : SplitterAllocate S) (lm : Lightmap)
    (obj_bbox : BBox) (lm_splitter : S) : Outcome (Lightmap × BBox × S) :=
  match Allocate lm_splitter lm.size lm.pos with
  | (node_id, pos, sp) =>
    let lm1 := { lm with pos := pos }
    if node_id = -1 then .thrown "Cannot allocate lightmap region!" (lm1, obj_bbox, sp)
    else
      .ok ({ lm1 with
             xform := ((lm1.pos.1 : ℚ) / LIGHTMAP_ATLAS_RESX,
                       1 - (lm1.pos.2 : ℚ) / LIGHTMAP_ATLAS_RESY,
                       (lm1.size.1 : ℚ) / LIGHTMAP_ATLAS_RESX,
                       -(lm1.size.2 : ℚ) / LIGHTMAP_ATLAS_RESY) },
           obj_bbox, sp)

/-- A splitter that hands out rows of a 2048 x 1024 canvas from the top: the state
is the first free row; a request higher than what is left or wider than the
canvas fails. -/
def rowAllocate : SplitterAllocate Int := fun next size pos =>
  if 0 ≤ size.1 ∧ size.1 ≤ 2048 ∧ 0 ≤ size.2 ∧ next + size.2 ≤ 1024 then
    (next, (0, next), next + size.2)
  else (-1, pos, next)

/-- A lightmap component asking for 512 x 256 pixels. -/
def exampleLightmap : Lightmap :=
  { size := (512, 256), pos := (0, 0), xform := (0, 0, 0, 0) }

/-- The u coordinate of the atlas point for the lightmap coordinate `s`. -/
def Lightmap.u (lm : Lightmap) (s : ℚ) : ℚ := lm.xform.1 + lm.xform.2.2.1 * s

/-- The v coordinate of the atlas point for the lightmap coordinate `t`. -/
def Lightmap.v (lm : Lightmap) (t : ℚ) : ℚ := lm.xform.2.1 + lm.xform.2.2.2 * t

/-! ## The engine around the scene: allocators, cache, asynchronous loads -/

/-- Constant `SceneManagerConstants::PROBE_RES`. -/
def PROBE_RES : Nat := 512

/-- Constant `SceneManagerConstants::PROBE_COUNT`. -/
def PROBE_COUNT : Nat := 16

/-- One call of `ProbeStorage::SetPixelData` that succeeded: mip level, layer, face, and
the byte range of the loaded file that was installed (identified by the name of
the file). -/
structure ProbePixels where
  level : Nat
  layer : Int
  face : Nat
  file : String
  offset : Int
  len : Int
deriving DecidableEq, Repr

/-- Modelled from the spec: `Ren::ProbeStorage`, "a fixed-capacity array of cubemap
slots (capacity fixed at construction)"; "slots are assigned sequentially and
never shared between entities"; "allocating probes until capacity succeeds
exactly capacity times; the next allocation fails".  `used` slots have been
handed out, `pixels` is what has been installed. -/
structure ProbeStorage where
  res : Nat
  capacity : Nat
  used : Nat
  pixels : List ProbePixels
deriving DecidableEq, Repr

/-- Modelled from the spec: `ProbeStorage::Resize(format, res, capacity, log)` as the
constructor of `SceneManager` calls it on the empty storage. -/
def ProbeStorage.Resize (res capacity : Nat) : ProbeStorage :=
  { res := res, capacity := capacity, used := 0, pixels := [] }

/-- Modelled from the spec: `ProbeStorage::Allocate()`, the index of the next slot, or
`-1` when all `capacity` slots are taken. -/
def ProbeStorage.Allocate (p : ProbeStorage) : Int × ProbeStorage :=
  if p.used < p.capacity then ((p.used : Int), { p with used := p.used + 1 }) else (-1, p)

/-- Modelled from the spec: `ProbeStorage::SetPixelData(level, layer, face, format, data,
data_len, log)`; it installs the bytes and returns `true`. -/
def ProbeStorage.SetPixelData (p : ProbeStorage) (px : ProbePixels) : Bool × ProbeStorage :=
  (true, { p with pixels := p.pixels ++ [px] })

/-- The fields of a `LightProbe` component that `PostloadLightProbe` and
`LoadProbeCache` use. -/
structure LightProbe where
  offset : Vec3f
  radius : Int
  layer_index : Int
deriving DecidableEq, Repr

/-- Vector sum. -/
def Vec3f.add (a b : Vec3f) : Vec3f :=
  ⟨a.x + b.x, a.y + b.y, a.z + b.z⟩

/-- Vector difference. -/
def Vec3f.sub (a b : Vec3f) : Vec3f :=
  ⟨a.x - b.x, a.y - b.y, a.z - b.z⟩

/-- Embedding of `SceneManager::PostloadLightProbe`: the result of `Allocate()` is stored
as it comes, and the box of the probe is united into the accumulator. -/
def PostloadLightProbe (pr : LightProbe) (obj_bbox : BBox) (probe_storage : ProbeStorage) :
    LightProbe × BBox × ProbeStorage :=
  match probe_storage.Allocate with
  | (layer, ps) =>
    let pr1 := { pr with layer_index := layer }
    (pr1,
      ⟨Vec3f.Min obj_bbox.bmin (pr1.offset.sub (Vec3f.splat pr1.radius)),
       Vec3f.Max obj_bbox.bmax (pr1.offset.add (Vec3f.splat pr1.radius))⟩,
      ps)

/-- The probe held by a component of the LightProbe storage: the members `offset`
and `radius` as read from the node, and `layer_index` (`-1` before a slot is
assigned). -/
def LightProbe.ofComp (c : Comp) : LightProbe :=
  { offset := ((JsObject.at_ c.payload "offset").bind readVec3).getD ⟨0, 0, 0⟩,
    radius := ((JsObject.at_ c.payload "radius").bind JsElement.as_num).getD 0,
    layer_index := ((JsObject.at_ c.payload "layer_index").bind JsElement.as_num).getD (-1) }

/-- Store the `layer_index` of the probe in the component. -/
def LightProbe.toComp (pr : LightProbe) (c : Comp) : Comp :=
  { c with payload := JsObject.Push c.payload "layer_index" (.num pr.layer_index) }

/-- A request handed to `Sys::LoadAssetComplete` that has not completed yet. -/
inductive AsyncLoad where
  | texture (name : String) (flags : Nat)
  | probeFace (file_path : String) (probe_id face_index : Nat)
deriving DecidableEq, Repr

/-- A task handed to `ctx_.ProcessSingleTask` by a completion callback. -/
inductive QueuedTask where
  | textureLoaded (name : String) (flags : Nat) (data : Data)
  | textureFailed (name : String)
  | probeFaceLoaded (probe_id face_index : Nat) (file : String) (size : Int)
deriving DecidableEq, Repr

/-- Modelled from the spec: state of a rectangle allocator (`TextureSplitter`,
`TextureAtlas`), "a 2D packing allocator over a fixed canvas, returning
placement rectangles": the rectangles (position, size) handed out so far. -/
abbrev Regions := List ((Int × Int) × (Int × Int))

/-- The state of a `SceneManager` outside `scene_data_` proper: the resource cache
`ctx_`, the allocators, the requests in flight, the task queue and the log. -/
structure Engine where
  ctx : Context
  lm_splitter : Regions
  decals_atlas : Regions
  probe_storage : ProbeStorage
  loads : List AsyncLoad
  tasks : List QueuedTask
  log : List String

/-- The engine as the constructor of `SceneManager` leaves it. -/
def Engine.fresh : Engine :=
  { ctx := Context.empty, lm_splitter := [], decals_atlas := [],
    probe_storage := ProbeStorage.Resize PROBE_RES PROBE_COUNT,
    loads := [], tasks := [], log := [] }

/-- Modelled from the spec: `ProcessSingleTask`, which puts the task on the "single-task
queue drained once per frame on the owning thread". -/
def Engine.ProcessSingleTask (e : Engine) (t : QueuedTask) : Engine :=
  { e with tasks := e.tasks ++ [t] }

/-- The hook registered for the LightProbe slot: `PostloadLightProbe` on the probe of
the component. -/
def probeHook : PostLoadFunc Engine := fun _ c obj_bbox e =>
  match PostloadLightProbe (LightProbe.ofComp c) obj_bbox e.probe_storage with
  | (pr, bb, ps) => .ok (pr.toComp c, bb, { e with probe_storage := ps })

/-- File name of a face of the probe cache (desktop build). -/
def probeFacePath (scene_name : String) (layer_index : Int) (face_index : Nat) : String :=
  "assets_pc/textures/probes_cache/" ++ scene_name ++ toString layer_index ++ "_" ++
    toString face_index ++ ".dds"

/-- The manager configuration over `Engine`, with the registry the constructor of
`SceneManager` sets up: no hook for Transform, AnimState and VegState,
`PostloadLightProbe` for LightProbe.  `g` is the indeterminate content of fresh
objects, `hooks` the post-load hooks of Drawable, Occluder, Lightmap, LightSource
and Decal, and `LoadEnvMap` the loading of the environment map; the ray scene,
the spatial index and the atlas texture are not part of `Engine`. -/
def engConfig (g : Nat → Nat → Nat) (hooks : Nat → PostLoadFunc Engine)
    (LoadEnvMap : String → Engine → Outcome (TexRef × Engine)) : Config Engine :=
  { comp_store := stdStore,
    component_post_load_ := fun i =>
      if i = CompProbe then some probeHook
      else if i = CompDrawable ∨ i = CompOccluder ∨ i = CompLightmap ∨ i = CompLightSource ∨
          i = CompDecal then some (hooks i)
      else none,
    uninit := g,
    Normalize := fun v => v,
    lm_splitter_Clear := fun e => { e with lm_splitter := [] },
    ray_scene_reset := fun e => e,
    LoadTexture2D := fun n e =>
      match e.ctx.LoadTexture2D n none true with
      | (_, st, c) => (some n, st.getD eTexLoadStatus.TexFound, { e with ctx := c }),
    LoadAssetComplete := fun ret flags e =>
      { e with loads := e.loads ++ [AsyncLoad.texture (ret.getD "") flags] },
    LoadEnvMap := LoadEnvMap,
    LoadProbeFace := fun scene_name probe_id c face_index e =>
      { e with loads := e.loads ++
          [AsyncLoad.probeFace
            (probeFacePath scene_name (LightProbe.ofComp c).layer_index face_index)
            probe_id face_index] },
    probe_storage_compress := fun e => e,
    decals_atlas_Finalize := fun e => e,
    RebuildBVH := fun _ e => e }

/-- A newly constructed manager over `Engine`. -/
def freshEngine : SceneManager Engine :=
  { scene_data_ :=
      { name := "", objects := SparseArray.clear, name_to_object := fun _ => none,
        env := Environment.empty, comp_store := fun _ => SparseArray.clear },
    scene_texture_load_counter_ := 0,
    ext := Engine.fresh }

/-- A document with `n` object nodes, each with a Transform and a LightProbe of
radius 1 at the origin. -/
def probeScene (name : String) (n : Nat) : JsObject :=
  [("name", .str name),
   ("objects", .arr (List.replicate n
      (.obj [("Transform", .obj []), ("LightProbe", .obj [("radius", .num 1)])])))]

/-- The layer index of the probe at index `probe_id` of the LightProbe storage,
when the manager holds one there. -/
def probeLayer (sm : SceneManager Engine) (probe_id : Nat) : Option Int :=
  ((sm.scene_data_.comp_store CompProbe).GetOrNull probe_id).map fun c =>
    (LightProbe.ofComp c).layer_index

/-- Stand-ins for the post-load hooks of Drawable, Occluder, Lightmap, LightSource
and Decal in the examples, whose documents have none of these components. -/
def idleHooks : Nat → PostLoadFunc Engine := fun _ _ c obj_bbox e => .ok (c, obj_bbox, e)

/-- The configuration of the examples over `Engine`: fresh objects are zeroed and
the environment map is not loaded. -/
def engine0 : Config Engine :=
  engConfig (fun _ _ => 0) idleHooks (fun n e => .ok (some n, e))

/-- A minimal document: a name and an empty `objects` array. -/
def minimalScene : JsObject :=
  [("name", .str "m"), ("objects", .arr [])]

/-! ## Completion callbacks and queued tasks -/

/-- Removal of the element at index `i` (the slot becomes free). -/
def SparseArray.erase {T : Type} (a : SparseArray T) (i : Nat) : SparseArray T :=
  ⟨a.slots.set i none⟩

/-- A `SceneManager` as a completion callback sees it: `alive` tells whether the
weak reference `_self` still resolves (`_self.lock()` is non-null); `sm` is the
state of the manager and of the engine around it. -/
structure World where
  alive : Bool
  sm : SceneManager Engine

/-- The success callback `OnLoadTexture` hands to `Sys::LoadAssetComplete`, called with
the bytes of the file. -/
def World.onTextureLoaded (w : World) (name : String) (flags : Nat) (data : Data) : World :=
  if !w.alive then w
  else
    { w with
      sm := w.sm.setExt (w.sm.ext.ProcessSingleTask (QueuedTask.textureLoaded name flags data)) }

/-- The failure callback `OnLoadTexture` hands to `Sys::LoadAssetComplete`. -/
def World.onTextureFailed (w : World) (name : String) : World :=
  if !w.alive then w
  else
    { w with sm := w.sm.setExt (w.sm.ext.ProcessSingleTask (QueuedTask.textureFailed name)) }

/-- The success callback `LoadProbeCache` hands to `Sys::LoadAssetComplete`, called with
the file that was read and its size. -/
def World.onProbeFaceLoaded (w : World) (probe_id face_index : Nat) (file : String)
    (size : Int) : World :=
  if !w.alive then w
  else
    { w with
      sm := w.sm.setExt
        (w.sm.ext.ProcessSingleTask (QueuedTask.probeFaceLoaded probe_id face_index file size)) }

/-- The failure callback `LoadProbeCache` hands to `Sys::LoadAssetComplete`: it logs an
error and queues nothing. -/
def World.onProbeFaceFailed (w : World) (probe_id face_index : Nat) : World :=
  if !w.alive then w
  else
    { w with
      sm := w.sm.setExt
        { w.sm.ext with
          log := w.sm.ext.log ++
            ["Failed to load probe " ++ toString probe_id ++ " face " ++ toString face_index] } }

/-- Size of `Ren::DDSHeader`, the header of a DDS file with its magic number. -/
def sizeof_DDSHeader : Int := 128

/-- The loop `while (_res >= 16)` of the probe task (desktop build), with `fuel`
iterations left: `offset` is `p_data - data`; the state is the probe storage
and the log.  The lengths are computed from the resolution, and for the
resolutions and file sizes at hand no `int` overflows. -/
def installMipsDDS (layer_index : Int) (face_index : Nat) (file : String) :
    Nat → Int → Nat → Int → Int → ProbeStorage × List String → ProbeStorage × List String
  | 0, _, _, _, _, st => st
  | fuel + 1, _res, level, offset, data_len, st =>
    if 16 ≤ _res then
      let len := ((_res + 3) / 4) * ((_res + 3) / 4) * 16
      let st1 : ProbeStorage × List String :=
        if data_len < len then (st.1, st.2 ++ ["Failed to load probe texture!"])
        else
          match st.1.SetPixelData
              { level := level, layer := layer_index, face := face_index, file := file,
                offset := offset, len := len } with
          | (true, ps) => (ps, st.2)
          | (false, ps) => (ps, st.2 ++ ["Failed to load probe texture!"])
      installMipsDDS layer_index face_index file fuel (_res / 2) (level + 1) (offset + len)
        (data_len - len) st1
    else st

/-- Embedding of the tasks the completion callbacks queue, as the owning thread runs
them.  `in_use` tells whether the texture has a user besides the callback
(`ret->ref_count() > 1`); the entry of a texture without one is destroyed when
the callback drops its reference. -/
def runTask (t : QueuedTask) (in_use : Bool) (sm : SceneManager Engine) :
    Outcome (SceneManager Engine) :=
  match t with
  | .textureLoaded name _ data =>
    let textures :=
      match sm.ext.ctx.textures_.FindByName name with
      | some (i, r) =>
        if in_use then sm.ext.ctx.textures_.write i (r.Init (some data))
        else sm.ext.ctx.textures_.erase i
      | none => sm.ext.ctx.textures_
    let count := sm.scene_texture_load_counter_ - 1
    .ok { sm with
          scene_texture_load_counter_ := count,
          ext := { sm.ext with
                   ctx := { sm.ext.ctx with textures_ := textures },
                   log := sm.ext.log ++
                     ["Texture " ++ name ++ " loaded (" ++ toString count ++ " left)"] } }
  | .textureFailed name =>
    let textures :=
      match sm.ext.ctx.textures_.FindByName name with
      | some (i, _) => if in_use then sm.ext.ctx.textures_ else sm.ext.ctx.textures_.erase i
      | none => sm.ext.ctx.textures_
    .ok { sm with
          scene_texture_load_counter_ := sm.scene_texture_load_counter_ - 1,
          ext := { sm.ext with
                   ctx := { sm.ext.ctx with textures_ := textures },
                   log := sm.ext.log ++ ["Error loading " ++ name] } }
  | .probeFaceLoaded probe_id face_index file size =>
    match (sm.scene_data_.comp_store CompProbe).GetOrNull probe_id with
    | none => .crash
    | some c =>
      match installMipsDDS (LightProbe.ofComp c).layer_index face_index file
          (sm.ext.probe_storage.res + 1) sm.ext.probe_storage.res 0 sizeof_DDSHeader
          (size - sizeof_DDSHeader) (sm.ext.probe_storage, sm.ext.log) with
      | (ps, log) => .ok (sm.setExt { sm.ext with probe_storage := ps, log := log })

/-- The owning thread runs the task at the head of the queue, if there is one. -/
def runNext (in_use : Bool) (sm : SceneManager Engine) : Outcome (SceneManager Engine) :=
  match sm.ext.tasks with
  | [] => .ok sm
  | t :: rest => runTask t in_use (sm.setExt { sm.ext with tasks := rest })

/-- The asynchronous load of the texture `name` succeeds while the manager is alive:
the request is no longer in flight, the success callback queues its task, and
the owning thread runs the head of the queue. -/
def completeTexture (name : String) (flags : Nat) (data : Data) (in_use : Bool)
    (sm : SceneManager Engine) : Outcome (SceneManager Engine) :=
  runNext in_use
    (World.onTextureLoaded
      ⟨true, sm.setExt { sm.ext with loads := sm.ext.loads.erase (.texture name flags) }⟩
      name flags data).sm

/-- The asynchronous load of a probe face succeeds while the manager is alive, as
`completeTexture`. -/
def completeProbeFace (file : String) (probe_id face_index : Nat) (size : Int)
    (sm : SceneManager Engine) : Outcome (SceneManager Engine) :=
  runNext true
    (World.onProbeFaceLoaded
      ⟨true, sm.setExt
        { sm.ext with loads := sm.ext.loads.erase (.probeFace file probe_id face_index) }⟩
      probe_id face_index file size).sm

/-- Number of asynchronous texture loads started by `OnLoadTexture` whose completion
task has not run: the requests in flight and the tasks in the queue. -/
def texturesInFlight (sm : SceneManager Engine) : Nat :=
  (sm.ext.loads.filter fun l =>
      match l with
      | .texture _ _ => true
      | .probeFace _ _ _ => false).length +
    (sm.ext.tasks.filter fun t =>
      match t with
      | .textureLoaded _ _ _ => true
      | .textureFailed _ => true
      | .probeFaceLoaded _ _ _ _ => false).length

/-- The manager after scene "a", with one probe, was loaded on a fresh manager. -/
def afterA : Outcome (SceneManager Engine) :=
  LoadScene engine0 freshEngine (probeScene "a" 1)

/-- The manager after scene "a" and then scene "b", without objects, were loaded. -/
def afterAB : Outcome (SceneManager Engine) :=
  afterA.andThen fun s => LoadScene engine0 s (probeScene "b" 0)

/-- The manager after scene "a" was loaded twice in a row. -/
def afterAA : Outcome (SceneManager Engine) :=
  afterA.andThen fun s => LoadScene engine0 s (probeScene "a" 1)

/-- The manager after scene "a" was loaded, the scene was cleared and the minimal
document was loaded. -/
def afterAClearMinimal : Outcome (SceneManager Engine) :=
  afterA.andThen fun s => LoadScene engine0 (ClearScene engine0 s) minimalScene

/-- The five lightmap textures of a scene, as `LoadScene` names them. -/
def lightmapNames (scene : String) : List String :=
  [TEXTURES_PATH ++ "lightmaps/" ++ scene ++ "_lm_direct" ++ tex_ext,
   TEXTURES_PATH ++ "lightmaps/" ++ scene ++ "_lm_sh_0" ++ tex_ext,
   TEXTURES_PATH ++ "lightmaps/" ++ scene ++ "_lm_sh_1" ++ tex_ext,
   TEXTURES_PATH ++ "lightmaps/" ++ scene ++ "_lm_sh_2" ++ tex_ext,
   TEXTURES_PATH ++ "lightmaps/" ++ scene ++ "_lm_sh_3" ++ tex_ext]

/-- The loads of the given textures succeed one after the other, each task being
run as soon as it is queued. -/
def completeTextures (names : List String) (data : Data) (in_use : Bool)
    (o : Outcome (SceneManager Engine)) : Outcome (SceneManager Engine) :=
  names.foldl (fun acc n => acc.andThen (completeTexture n 0 data in_use)) o

/-- Size of a DDS file holding the full mip chain of a probe face of resolution
512: the header and the levels 512, 256, 128, 64, 32 and 16. -/
def fullFaceSize : Int := 128 + 262144 + 65536 + 16384 + 4096 + 1024 + 256

/-- A fresh manager with one default-constructed probe in its LightProbe storage. -/
def managerWithProbe : SceneManager Engine :=
  freshEngine.setStore CompProbe ((SparseArray.clear : SparseArray Comp).emplace Comp.new).1

/-- A world whose manager has been destroyed: the weak reference does not resolve. -/
def deadWorld : World :=
  { alive := false, sm := freshEngine }

/-! ## The length-prefixed mip loop of the probe task (KTX files) -/

/-- Size of `Ren::KTXHeader`, the header of a KTX file: a 12-byte identifier and
thirteen 32-bit words. -/
def sizeof_KTXHeader : Int := 64

/-- Conversion to `int`: the value modulo 2^32 in the range of a 32-bit
two's-complement integer. -/
def toInt32 (x : Int) : Int :=
  (x + 2147483648) % 4294967296 - 2147483648

/-- What an iteration of the loop does with the buffer and the log: it reads a
length prefix of 4 bytes at an offset, it passes the range of `len` bytes at
an offset to `SetPixelData` for a level, it logs an error for a level. -/
inductive MipAccess where
  | readLen (offset : Int)
  | setPixel (level : Nat) (offset : Int) (len : Nat)
  | error (level : Nat)
deriving DecidableEq, Repr

/-- The `uint32_t` that `memcpy(&len, &p_data[offset], sizeof(uint32_t))` reads (little
endian), when the four bytes lie inside the buffer. -/
def readU32 (data : List Nat) (offset : Int) : Option Nat :=
  if 0 ≤ offset ∧ offset + 4 ≤ data.length then
    some (data.getD offset.toNat 0 + 256 * data.getD (offset.toNat + 1) 0 +
      65536 * data.getD (offset.toNat + 2) 0 + 16777216 * data.getD (offset.toNat + 3) 0)
  else none

/-- The loop `while (_res >= 16)` of the probe task for KTX files, with `fuel`
iterations left, as the list of its accesses in order.  `SetPixelData level
offset len` tells whether the installation succeeds.  A length prefix that does
not lie inside the buffer is still read by the code; what happens then is
undefined, and the list ends with that read. -/
def installMipsKTX (SetPixelData : Nat → Int → Nat → Bool) (data : List Nat) :
    Nat → Int → Nat → Int → Int → List MipAccess
  | 0, _, _, _, _ => []
  | fuel + 1, _res, level, data_offset, data_len =>
    if 16 ≤ _res then
      match readU32 data data_offset with
      | none => [MipAccess.readLen data_offset]
      | some len =>
        let data_offset1 := toInt32 (data_offset + 4)
        let data_len1 := toInt32 (data_len - 4)
        let body : List MipAccess :=
          if data_len1 < toInt32 len then [MipAccess.error level]
          else if SetPixelData level data_offset1 len then
            [MipAccess.setPixel level data_offset1 len]
          else [MipAccess.setPixel level data_offset1 len, MipAccess.error level]
        let data_offset2 := toInt32 (data_offset1 + len)
        let data_len2 := toInt32 (data_len1 - len)
        let pad : Int := if data_offset2.tmod 4 ≠ 0 then 4 - data_offset2.tmod 4 else 0
        MipAccess.readLen data_offset :: body ++
          installMipsKTX SetPixelData data fuel (_res / 2) (level + 1)
            (toInt32 (data_offset2 + pad)) data_len2
    else []

/-- The body of the probe task for a KTX file `data` of `data.length` bytes and a
probe storage of resolution `res`. -/
def installProbeFaceKTX (SetPixelData : Nat → Int → Nat → Bool) (data : List Nat) (res : Nat) :
    List MipAccess :=
  installMipsKTX SetPixelData data (res + 1) res 0 sizeof_KTXHeader
    (toInt32 (data.length - sizeof_KTXHeader))

/-- The access stays inside a buffer of `size` bytes. -/
def MipAccess.inBounds (size : Nat) : MipAccess → Bool
  | .readLen offset => decide (0 ≤ offset ∧ offset + 4 ≤ size)
  | .setPixel _ offset len => decide (0 ≤ offset ∧ offset + len ≤ size)
  | .error _ => true

/-- A KTX file cut off after its header. -/
def ktxHeaderOnly : List Nat := List.replicate 64 0

/-- A KTX file whose first level declares the length 0xFFFFFFFF and has no data. -/
def ktxHugeLength : List Nat := List.replicate 64 0 ++ [255, 255, 255, 255]

/-- A KTX file whose first level declares 8 bytes and has 4. -/
def ktxShortLevel : List Nat := List.replicate 64 0 ++ [8, 0, 0, 0] ++ [1, 2, 3, 4]

/-! ## PostloadDrawable: the mesh lookup -/

/-- The statements of `SceneManager::PostloadDrawable` that load the mesh (the block
`if (js_comp_obj.Has("mesh_file"))` from the declaration of `status` on).
`uninit` is the indeterminate content of the local `status` before the first
call, `in_file` the bytes of the mesh file.  The result is the mesh reference,
the value of `status` that is compared with `MeshFound`, and the context. -/
def PostloadDrawable_LoadMesh (uninit : eMeshLoadStatus) (ctx : Context)
    (js_mesh_lookup_name : String) (in_file : Data) : Nat × eMeshLoadStatus × Context :=
  match ctx.LoadMesh js_mesh_lookup_name none true with
  | (ref, written, ctx1) =>
    let status := written.getD uninit
    if status ≠ eMeshLoadStatus.MeshFound then
      match ctx1.LoadMesh js_mesh_lookup_name (some in_file) true with
      | (ref2, _, ctx2) => (ref2, status, ctx2)
    else (ref, status, ctx1)

/-- A context whose material cache and texture cache each hold a placeholder entry
"m" that a load without source data has created. -/
def ctxWithPlaceholders : Context :=
  ((Context.empty.LoadMaterial "m" none false).2.2.LoadTexture2D "m" none false).2.2

/-! ## DefaultCompStorage -/

/-- Modelled from the spec: the index of the first live element at or after
position `i` of a sparse array, which is where `cbegin()` (for `i = 0`) and
`++it` from the element at `i - 1` stand; `none` is `cend()`. -/
def SparseArray.liveFrom {T : Type} (a : SparseArray T) (i : Nat) : Option Nat :=
  if (a.slots.drop i).findIdx (fun s => s.isSome) < (a.slots.drop i).length then
    some (i + (a.slots.drop i).findIdx (fun s => s.isSome))
  else none

namespace DefaultCompStorage

/-- Embedding of `DefaultCompStorage::Create`: `data_.emplace()`. -/
def Create (data_ : SparseArray Comp) : SparseArray Comp × Nat :=
  data_.emplace Comp.new

/-- Embedding of `DefaultCompStorage::Get`: `data_.GetOrNull(i)`. -/
def Get (data_ : SparseArray Comp) (i : Nat) : Option Comp :=
  data_.GetOrNull i

/-- Embedding of `DefaultCompStorage::First`. -/
def First (data_ : SparseArray Comp) : Nat :=
  if data_.size = 0 then 0xffffffff else (data_.liveFrom 0).getD 0xffffffff

/-- Embedding of `DefaultCompStorage::Next`. -/
def Next (data_ : SparseArray Comp) (i : Nat) : Nat :=
  match data_.liveFrom (i + 1) with
  | none => 0xffffffff
  | some j => j

/-- Embedding of `DefaultCompStorage::Count`: the size converted to `int`. -/
def Count (data_ : SparseArray Comp) : Int :=
  ((data_.size : Int) + 2147483648) % 4294967296 - 2147483648

/-- The storage after `n` calls of `Create()`, with the indices they returned in
the order of the calls. -/
def createN : Nat → SparseArray Comp → SparseArray Comp × List Nat
  | 0, data_ => (data_, [])
  | n + 1, data_ =>
    match Create data_ with
    | (d1, i) =>
      match createN n d1 with
      | (d2, rest) => (d2, i :: rest)

/-- The loop `for (i = First(); i != 0xffffffff; i = Next(i))` from index `i` on,
with `fuel` iterations left: the indices visited, and whether the sentinel was
reached. -/
def iterate (data_ : SparseArray Comp) : Nat → Nat → List Nat × Bool
  | 0, i => ([], decide (i = 0xffffffff))
  | fuel + 1, i =>
    if i = 0xffffffff then ([], true)
    else
      match iterate data_ fuel (Next data_ i) with
      | (visited, done) => (i :: visited, done)

end DefaultCompStorage

/-- A vector of three scalars (`Ren::Vec3f`) over an ordered field `F`, in which the
arithmetic of the hook is exact. -/
structure V3 (F : Type) where
  x : F
  y : F
  z : F
deriving DecidableEq, Repr

namespace V3

variable {F : Type} [LinearOrderedField F]

/-- Product with a scalar (`v * k`). -/
def smul (v : V3 F) (k : F) : V3 F := ⟨v.x * k, v.y * k, v.z * k⟩

/-- Vector sum. -/
def add (a b : V3 F) : V3 F := ⟨a.x + b.x, a.y + b.y, a.z + b.z⟩

/-- Vector difference. -/
def sub (a b : V3 F) : V3 F := ⟨a.x - b.x, a.y - b.y, a.z - b.z⟩

/-- Componentwise minimum `Ren::Min`. -/
def Min (a b : V3 F) : V3 F := ⟨min a.x b.x, min a.y b.y, min a.z b.z⟩

/-- Componentwise maximum `Ren::Max`. -/
def Max (a b : V3 F) : V3 F := ⟨max a.x b.x, max a.y b.y, max a.z b.z⟩

/-- Scalar product. -/
def dot (a b : V3 F) : F := a.x * b.x + a.y * b.y + a.z * b.z

/-- Vector product `Ren::Cross`. -/
def Cross (a b : V3 F) : V3 F :=
  ⟨a.y * b.z - a.z * b.y, a.z * b.x - a.x * b.z, a.x * b.y - a.y * b.x⟩

/-- Componentwise order: `a` is below `b` in every coordinate. -/
def le (a b : V3 F) : Prop := a.x ≤ b.x ∧ a.y ≤ b.y ∧ a.z ≤ b.z

end V3

/-- An axis-aligned box over `F`: minimum corner and maximum corner. -/
structure Box3 (F : Type) where
  bmin : V3 F
  bmax : V3 F
deriving DecidableEq, Repr

namespace Box3

variable {F : Type} [LinearOrderedField F]

/-- The box of a single point. -/
def point (p : V3 F) : Box3 F := ⟨p, p⟩

/-- Union of two boxes: componentwise minimum of the minimum corners and maximum
of the maximum corners. -/
def union (a b : Box3 F) : Box3 F := ⟨V3.Min a.bmin b.bmin, V3.Max a.bmax b.bmax⟩

/-- The point lies in the box. -/
def contains (b : Box3 F) (p : V3 F) : Prop := V3.le b.bmin p ∧ V3.le p b.bmax

end Box3

/-- The fields of a `LightSource` component that `PostloadLightSource` uses. -/
structure LightSource (F : Type) where
  offset : V3 F
  dir : V3 F
  spot : F
  influence : F

section LightHook

variable {F : Type} [LinearOrderedField F]

/-- The statements of `SceneManager::PostloadLightSource` that compute the local box of
the light (`bbox_min`, `bbox_max`).  `sqrt` is `std::sqrt`, and `init` is the
value of a default-constructed `Ren::Vec3f`, with which both corners start. -/
def PostloadLightSource_bbox (sqrt : F → F) (init : V3 F) (ls : LightSource F) : Box3 F :=
  let _dir := ls.dir
  let p1 := _dir.smul ls.influence
  let bbox_min := V3.Min init p1
  let bbox_max := V3.Max init p1
  let p2 := (_dir.smul ls.spot).smul ls.influence
  let d := sqrt (1 - ls.spot * ls.spot) * ls.influence
  let bbox_min1 := V3.Min bbox_min (p2.sub ⟨d, 0, d⟩)
  let bbox_max1 := V3.Max bbox_max (p2.add ⟨d, 0, d⟩)
  if ls.spot < 0 then
    ⟨V3.Min bbox_min1 (p1.sub ⟨ls.influence, 0, ls.influence⟩),
     V3.Max bbox_max1 (p1.add ⟨ls.influence, 0, ls.influence⟩)⟩
  else ⟨bbox_min1, bbox_max1⟩

/-- The statements of `SceneManager::PostloadLightSource` that choose the axis `up`. -/
def PostloadLightSource_up (_dir : V3 F) : V3 F :=
  if |_dir.y| < |_dir.z| ∧ |_dir.y| < |_dir.x| then ⟨0, 1, 0⟩
  else if |_dir.z| < |_dir.x| ∧ |_dir.z| < |_dir.y| then ⟨0, 0, 1⟩
  else ⟨1, 0, 0⟩

/-- The vector `side = Ren::Cross(_dir, up)` of `SceneManager::PostloadLightSource`. -/
def PostloadLightSource_side (_dir : V3 F) : V3 F :=
  V3.Cross _dir (PostloadLightSource_up _dir)

/-- The union the description of the light box names: the boxes of `p1` and of
`p2 ± (d, 0, d)`, and for a negative spot cosine also that of `p1 ± (r, 0, r)`. -/
def lightBoxUnion (sqrt : F → F) (ls : LightSource F) : Box3 F :=
  let p1 := ls.dir.smul ls.influence
  let p2 := (ls.dir.smul ls.spot).smul ls.influence
  let d := sqrt (1 - ls.spot * ls.spot) * ls.influence
  let u := (Box3.point p1).union ⟨p2.sub ⟨d, 0, d⟩, p2.add ⟨d, 0, d⟩⟩
  if ls.spot < 0 then
    u.union ⟨p1.sub ⟨ls.influence, 0, ls.influence⟩, p1.add ⟨ls.influence, 0, ls.influence⟩⟩
  else u

/-- The point `x` lies in the cone of influence of the light: its length `n` is at
most the radius and `x . dir >= s * n`. -/
def InCone (ls : LightSource F) (x : V3 F) : Prop :=
  ∃ n : F, 0 ≤ n ∧ n * n = x.dot x ∧ n ≤ ls.influence ∧ ls.spot * n ≤ x.dot ls.dir

end LightHook

/-- A square root on the rationals for the examples: exact on the squares 0, 1,
16/25 and 9/25. -/
def sqrtQ (x : ℚ) : ℚ :=
  if x = 1 then 1 else if x = 16 / 25 then 4 / 5 else if x = 9 / 25 then 3 / 5 else 0

/-- A light at the origin pointing straight down, with spot cosine 3/5 and
influence radius 5. -/
def lightDown : LightSource ℚ :=
  { offset := ⟨0, 0, 0⟩, dir := ⟨0, -1, 0⟩, spot := 3 / 5, influence := 5 }

/-- The light `lightDown` pointing straight up. -/
def lightUpward : LightSource ℚ :=
  { offset := ⟨0, 0, 0⟩, dir := ⟨0, 1, 0⟩, spot := 3 / 5, influence := 5 }

/-- A light at the origin pointing along the x axis, with spot cosine 3/5 and
influence radius 5. -/
def lightAlongX : LightSource ℚ :=
  { offset := ⟨0, 0, 0⟩, dir := ⟨1, 0, 0⟩, spot := 3 / 5, influence := 5 }

/-! ## Tokenize (Modl/ModlApp.cpp) -/

/-- The character `str.c_str()[i]`: a character of the string, the terminating NUL
at index `length`, and nothing beyond (`none`: the read is outside the
buffer). -/
def charAt (str : List Char) (i : Nat) : Option Char :=
  if i < str.length then str[i]?
  else if i = str.length then some (Char.ofNat 0)
  else none

/-- The call `strpbrk(str + i, delims)`: `some (some j)` is a pointer to index `j`,
`some none` is `NULL`, and `none` means that `str + i` points beyond the
terminating NUL, so that the scan reads outside the buffer. -/
def strpbrk (str delims : List Char) (i : Nat) : Option (Option Nat) :=
  if str.length < i then none
  else some (((List.range str.length).drop i).find? fun j => decide (str.getD j ' ' ∈ delims))

/-- The loop `while (strchr(delims, (int)*p)) p++`: `strchr` also finds the terminating
NUL of `delims`, so the loop steps over the end of the string.  The result is
`p` after the loop, `none` when `*p` is read outside the buffer. -/
def Tokenize_skip (str delims : List Char) : Nat → Nat → Option Nat
  | 0, _ => none
  | fuel + 1, p =>
    match charAt str p with
    | none => none
    | some c =>
      if c ∈ delims ∨ c = Char.ofNat 0 then Tokenize_skip str delims fuel (p + 1)
      else some p

/-- The loop `for (; p != NULL && q != NULL; q = strpbrk(p, delims))` of `Tokenize`:
the result is `p` after the loop and the tokens stored so far; `none` stands for
undefined behaviour, which `assign(p, q)` with `q` before `p` is. -/
def Tokenize_loop (str delims : List Char) :
    Nat → Nat → Option Nat → List String → Option (Nat × List String)
  | 0, _, _, _ => none
  | fuel + 1, p, q, out_toks =>
    match q with
    | none => some (p, out_toks)
    | some q =>
      if p = q then
        match strpbrk str delims (q + 1) with
        | none => none
        | some q1 => Tokenize_loop str delims fuel (q + 1) q1 out_toks
      else if q < p then none
      else
        match strpbrk str delims (q + 1) with
        | none => none
        | some q1 =>
          Tokenize_loop str delims fuel (q + 1) q1
            (out_toks ++ [String.mk ((str.drop p).take (q - p))])

/-- Embedding of `Tokenize(str, delims, out_toks)`: the tokens stored in `out_toks`, in
order (the return value is their number); `none` stands for undefined
behaviour (a read outside the buffer of `str`, or `assign` with a reversed
range). -/
def Tokenize (str delims : String) : Option (List String) :=
  match strpbrk str.data delims.data 1 with
  | none => none
  | some q =>
    match Tokenize_skip str.data delims.data (str.length + 2) 0 with
    | none => none
    | some p =>
      match Tokenize_loop str.data delims.data (str.length + 2) p q [] with
      | none => none
      | some (p1, out_toks) =>
        match charAt str.data p1 with
        | none => none
        | some c =>
          if c ≠ Char.ofNat 0 then some (out_toks ++ [String.mk (str.data.drop p1)])
          else some out_toks

/-! ## CompileModel: the output file (Modl/ModlApp.cpp) -/

/-- The mesh types of `CompileModel`. -/
inductive eModelType where
  | M_STATIC
  | M_COLORED
  | M_SKEL
deriving DecidableEq, Repr

/-- An entry `ChunkPos` of the header. -/
structure ChunkPos where
  offset : Int
  length : Int
deriving DecidableEq, Repr

/-- The sizes of the containers `CompileModel` writes from: `positions.size()`,
`vtx_colors.size()`, `weights.size()`, `total_indices.size()`, `materials.size()`,
`total_chunks.size()` and `out_bones.size()`. -/
structure ModelSizes where
  positions : Nat
  vtx_colors : Nat
  weights : Nat
  total_indices : Nat
  materials : Nat
  total_chunks : Nat
  out_bones : Nat
deriving DecidableEq, Repr

/-- The output file apart from its 12-byte signature: the field `num_chunks` and the
entries of `p` that lie in the `header_size` bytes written from `file_header`, and
the number of bytes written after the header for the mesh info, the vertex
attributes, the indices, the materials, the strips and (skeletal meshes) the
bones. -/
structure ModelFile where
  num_chunks : Int
  p : List ChunkPos
  header_size : Nat
  written : List Nat
deriving DecidableEq, Repr

/-- Size of `MeshInfo` (`static_assert(sizeof(MeshInfo) == 56)`). -/
def sizeof_MeshInfo : Nat := 56

/-- Size of `MeshChunk`: three `uint32_t`. -/
def sizeof_MeshChunk : Nat := 12

/-- Size of `Header`: an `int32_t` and six `ChunkPos` of two `int32_t`. -/
def sizeof_Header : Nat := 52

/-- Size of `ChunkPos`. -/
def sizeof_ChunkPos : Nat := 8

/-- Bytes written for one vertex by the loop over `positions.size() / 3`: position,
normal and tangent (three floats each), uvs (two floats), and then the second
uvs (static), the colour (four bytes, colored) or the weights (eight floats,
skeletal). -/
def vertexBytes (mesh_type : eModelType) : Nat :=
  4 * 3 + 4 * 3 + 4 * 3 + 4 * 2 +
    (match mesh_type with
     | .M_STATIC => 4 * 2
     | .M_COLORED => 1 * 4
     | .M_SKEL => 4 * 8)

/-- Embedding of the part of `ModlApp::CompileModel` that writes the output file (from
`size_t header_size = sizeof(Header)` on), on the sizes of the containers.  The
casts `(int32_t)` go through `toInt32`. -/
def CompileModel_write (mesh_type : eModelType) (sz : ModelSizes) : ModelFile :=
  let static_or_colored := mesh_type = .M_STATIC ∨ mesh_type = .M_COLORED
  let header_size : Nat := if static_or_colored then sizeof_Header - sizeof_ChunkPos
    else sizeof_Header
  let num_chunks : Int := if static_or_colored then 5 else 6
  let file_offset : Int := 12 + header_size
  let mesh_info : ChunkPos := ⟨toInt32 file_offset, sizeof_MeshInfo⟩
  let file_offset1 := file_offset + mesh_info.length
  let vtx_attr : ChunkPos :=
    ⟨toInt32 file_offset1,
     if mesh_type = .M_COLORED then
       toInt32 (4 * (sz.positions / 3) * 11 + 1 * sz.vtx_colors)
     else toInt32 (4 * (sz.positions / 3) * 13 + 4 * sz.weights)⟩
  let file_offset2 := file_offset1 + vtx_attr.length
  let vtx_ndx : ChunkPos := ⟨toInt32 file_offset2, toInt32 (4 * sz.total_indices)⟩
  let file_offset3 := file_offset2 + vtx_ndx.length
  let materials : ChunkPos := ⟨toInt32 file_offset3, toInt32 (64 * sz.materials)⟩
  let file_offset4 := file_offset3 + materials.length
  let strips : ChunkPos := ⟨toInt32 file_offset4, toInt32 (sizeof_MeshChunk * sz.total_chunks)⟩
  let file_offset5 := file_offset4 + strips.length
  let bones : ChunkPos := ⟨toInt32 file_offset5, toInt32 (100 * sz.out_bones)⟩
  { num_chunks := if mesh_type = .M_SKEL then num_chunks + 1 else num_chunks,
    p := ([mesh_info, vtx_attr, vtx_ndx, materials, strips] ++
            (if mesh_type = .M_SKEL then [bones] else [])).take ((header_size - 4) / 8),
    header_size := header_size,
    written :=
      [sizeof_MeshInfo, (sz.positions / 3) * vertexBytes mesh_type, 4 * sz.total_indices,
        64 * sz.materials, sizeof_MeshChunk * sz.total_chunks] ++
        (if mesh_type = .M_SKEL then [sz.out_bones * (64 + 4 + 4 + 4 * 3 + 4 * 4)] else []) }

/-- The header is consistent with the bytes that follow it: as many entries as
`num_chunks` says, the first chunk right after the signature and the header,
every chunk where the previous one ends, and every declared length equal to the
number of bytes written for the chunk. -/
def ModelFile.consistent (f : ModelFile) : Bool :=
  decide (f.num_chunks = f.p.length) &&
  decide ((f.p.head?.map fun c => c.offset) = some ((12 : Int) + f.header_size)) &&
  decide (f.p.map (fun c => c.length) = f.written.map fun n => (n : Int)) &&
  (List.zip f.p f.p.tail).all fun cc => decide (cc.2.offset = cc.1.offset + cc.1.length)

/-- The sizes of the containers for a mesh of `n` vertices and one triangle, material,
strip and bone: three floats per position, four colour bytes per vertex of a
colored mesh, eight weights per vertex of a skeletal mesh. -/
def smallMesh (mesh_type : eModelType) (n : Nat) : ModelSizes :=
  { positions := 3 * n,
    vtx_colors := if mesh_type = .M_COLORED then 4 * n else 0,
    weights := if mesh_type = .M_SKEL then 8 * n else 0,
    total_indices := 3, materials := 1, total_chunks := 1,
    out_bones := if mesh_type = .M_SKEL then 1 else 0 }

/-! ## The fixed-size mip loop of the probe task (DDS files), in `int` arithmetic -/

/-- One iteration of the loop: the level, the offset of `p_data` in the file, the
length `len`, whether `SetPixelData` was invoked, and whether the error was
logged. -/
structure DdsStep where
  level : Nat
  offset : Int
  len : Int
  invoked : Bool
  failed : Bool
deriving DecidableEq, Repr

/-- The value of `((_res + 3) / 4) * ((_res + 3) / 4) * 16` in `int`: every intermediate
result is reduced to 32 bits. -/
def ddsLen32 (_res : Int) : Int :=
  toInt32 (toInt32 (Int.tdiv (toInt32 (_res + 3)) 4 * Int.tdiv (toInt32 (_res + 3)) 4) * 16)

/-- The loop `while (_res >= 16)` of the probe task for DDS files with all `int`
variables reduced to 32 bits, with `fuel` iterations left, as the list of its
iterations.  `SetPixelData level offset len` tells whether the installation
succeeds; it is not invoked when `len > data_len`. -/
def installMipsDDS32 (SetPixelData : Nat → Int → Int → Bool) :
    Nat → Int → Nat → Int → Int → List DdsStep
  | 0, _, _, _, _ => []
  | fuel + 1, _res, level, offset, data_len =>
    if 16 ≤ _res then
      let len := ddsLen32 _res
      let invoked := decide (¬ data_len < len)
      { level := level, offset := offset, len := len, invoked := invoked,
        failed := !(invoked && SetPixelData level offset len) } ::
        installMipsDDS32 SetPixelData fuel (Int.tdiv _res 2) (level + 1) (offset + len)
          (toInt32 (data_len - len))
    else []

/-- The body of the probe task for a DDS file of `size` bytes and a probe storage of
resolution `res`. -/
def installProbeFaceDDS (SetPixelData : Nat → Int → Int → Bool) (res : Nat) (size : Int) :
    List DdsStep :=
  installMipsDDS32 SetPixelData (res + 1) res 0 sizeof_DDSHeader
    (toInt32 (size - sizeof_DDSHeader))

/-- Length in bytes of mip level `k` of a face of resolution `res`, as a natural
number: `((floor(res / 2^k) + 3) / 4)^2 * 16`. -/
def mipLen (res k : Nat) : Nat :=
  ((res / 2 ^ k + 3) / 4) ^ 2 * 16

/-- Sum of the lengths of the levels below `k`. -/
def mipSum (res k : Nat) : Nat :=
  ((List.range k).map (mipLen res)).sum

/-- Number of halvings of `r` that stay at least 16, counted with `fuel`. -/
def halvings : Nat → Nat → Nat
  | 0, _ => 0
  | fuel + 1, r => if 16 ≤ r then halvings fuel (r / 2) + 1 else 0

/-- Number of mip levels of a face of resolution `res`: the number of halvings of
`res` that stay at least 16. -/
def mipLevels (res : Nat) : Nat :=
  halvings (res + 1) res

/-! ## Components of a document, by type -/

section ComponentCount

variable {Ext : Type}

/-- Number of components of the type of slot `i` that an object node declares: its
object-valued members whose key the slot loop hands to slot `i`. -/
def nodeComponents (cfg : Config Ext) (i : Nat) (js_obj : JsObject) : Nat :=
  js_obj.countP fun kv =>
    match kv.2 with
    | .obj _ => decide (matchSlot cfg kv.1 MAX_COMPONENT_TYPES 0 = some i)
    | _ => false

/-- Number of components of the type of slot `i` in a list of object nodes. -/
def nodesComponents (cfg : Config Ext) (i : Nat) (nodes : JsArray) : Nat :=
  (nodes.map fun n => nodeComponents cfg i (n.as_obj.getD [])).sum

/-- Number of components of the type of slot `i` in a document. -/
def sceneComponents (cfg : Config Ext) (i : Nat) (js_scene : JsObject) : Nat :=
  nodesComponents cfg i (sceneObjects js_scene)

/-- Method `Count()` of the storage in slot `i`, in the state `sm`. -/
def storeCount (sm : SceneManager Ext) (i : Nat) : Nat :=
  (sm.scene_data_.comp_store i).size

end ComponentCount

/-- The calls `LoadProbeCache` makes in state `sm`, in order: for every live
LightProbe, in index order, one request per face 0 to 5, as triples of the
index of the probe, the probe and the face. -/
def probeRequests {Ext : Type} (sm : SceneManager Ext) : List (Nat × Comp × Nat) :=
  (sm.scene_data_.comp_store CompProbe).entries.flatMap fun p =>
    (List.range 6).map fun face_index => (p.1, p.2, face_index)

/-- The manager over `Engine` after scene "a", with one probe, was loaded. -/
def probesLoaded : SceneManager Engine :=
  afterA.getD freshEngine

/-- The manager over `Engine` after scene "a" was loaded twice in a row. -/
def probesLoadedTwice : SceneManager Engine :=
  afterAA.getD freshEngine

/-! ## Documents with long object lists and with unusual names -/

/-- A document named `t` with the given object nodes and no environment. -/
def sceneOfNodes (nodes : JsArray) : JsObject :=
  [("name", .str "t"), ("objects", .arr nodes)]

/-- An object node with a Transform that declares no name. -/
def plainNode : JsElement := .obj [("Transform", .obj [])]

/-- An object node with a Transform that declares the name `a`. -/
def namedNode : JsElement := .obj [("name", .str "a"), ("Transform", .obj [])]

/-- The three characters `a`, NUL, `b`. -/
def nameWithNul : String := ⟨['a', Char.ofNat 0, 'b']⟩

/-- A document with one node, which declares the name `nameWithNul`. -/
def sceneNulName : JsObject :=
  sceneOfNodes [.obj [("name", .str nameWithNul), ("Transform", .obj [])]]

/-- The manager after `sceneNulName` was loaded into a new manager. -/
def loadedNulName : SceneManager (List String) :=
  (LoadScene (stdConfig fun _ _ => 0) freshManager sceneNulName).getD freshManager

/-- A document of `2 ^ 32` nodes without a name followed by one node named `a`. -/
def sceneManyThenNamed : JsObject :=
  sceneOfNodes (List.replicate 4294967296 plainNode ++ [namedNode])

/-- A document of `2 ^ 30` nodes, each with a Transform only. -/
def sceneManyPlain : JsObject :=
  sceneOfNodes (List.replicate 1073741824 plainNode)

/-! ## What the probe task installs -/

/-- The installation the probe task makes for mip level `k` of a face of
resolution `res`: the bytes of the file from the end of the header and of the
levels before `k` on, `mipLen res k` of them. -/
def mipPixels (res : Nat) (layer_index : Int) (face_index : Nat) (file : String) (k : Nat) :
    ProbePixels :=
  { level := k, layer := layer_index, face := face_index, file := file,
    offset := 128 + (mipSum res k : Int), len := (mipLen res k : Int) }

/-- The mip levels of a face of resolution `res` that a file of `size` bytes holds
in full: the levels `k` whose last byte, at `128 + mipSum res (k + 1)`, is within
the file. -/
def levelsInFile (res : Nat) (size : Int) : List Nat :=
  (List.range (mipLevels res)).filter fun k => decide ((mipSum res (k + 1) : Int) ≤ size - 128)

/-- A fresh manager over `Engine` whose texture cache holds the placeholder "m". -/
def managerWithTexture : SceneManager Engine :=
  freshEngine.setExt { Engine.fresh with ctx := ctxWithPlaceholders }

/-! ## PostloadDrawable and PostloadOccluder: the box of the mesh -/

/-- Constant `SceneManagerConstants::MODELS_PATH` (desktop build). -/
def MODELS_PATH : String := "./assets_pc/models/"

/-- Modelled from the spec: the bounds `bbox_min()`, `bbox_max()` of a mesh, "the
mesh's object-space bbox", which come with the bytes the mesh was compiled
from. In this model the first byte `r` of the payload stands for the cube from
`-r` to `r`; an entry without payload has the box of the origin. -/
def Resource.bbox (r : Resource) : BBox :=
  match r.payload with
  | some (x :: _) => ⟨⟨-(x : Int), -(x : Int), -(x : Int)⟩, ⟨x, x, x⟩⟩
  | _ => ⟨⟨0, 0, 0⟩, ⟨0, 0, 0⟩⟩

/-- Embedding of `SceneManager::PostloadDrawable` without the blocks for the
members `material_override` and `anims` (lines 720 to 756), which act on the
materials and the skeleton of the mesh and not on `obj_bbox`. `files path` are
the bytes of the asset file at `path`, `uninit` is the indeterminate content of
the local `status`. The reference `dr->mesh` is kept in the payload under the
key `mesh`. A node without `mesh_file` fails `assert(false)`. -/
def PostloadDrawable (files : String → Data) (uninit : eMeshLoadStatus) :
    PostLoadFunc Engine := fun js_comp_obj dr obj_bbox e =>
  if JsObject.Has js_comp_obj "mesh_file" then
    match (JsObject.at_ js_comp_obj "mesh_file").bind JsElement.as_str with
    | none => .thrown "Wrong type!" (dr, obj_bbox, e)
    | some js_mesh_file_name =>
      let lookup : Option String :=
        if JsObject.Has js_comp_obj "mesh_name" then
          (JsObject.at_ js_comp_obj "mesh_name").bind JsElement.as_str
        else some js_mesh_file_name
      match lookup with
      | none => .thrown "Wrong type!" (dr, obj_bbox, e)
      | some js_mesh_lookup_name =>
        match PostloadDrawable_LoadMesh uninit e.ctx (c_str js_mesh_lookup_name)
            (files (c_str (MODELS_PATH ++ js_mesh_file_name))) with
        | (ref, _, ctx1) =>
          match ctx1.meshes_.GetOrNull ref with
          | none => .crash
          | some mesh =>
            .ok ({ dr with payload := JsObject.Push dr.payload "mesh" (.num ref) },
              obj_bbox.union mesh.bbox, { e with ctx := ctx1 })
  else .crash

/-- Embedding of `SceneManager::PostloadOccluder`: the mesh is looked up under the
name of its file, with the statements `PostloadDrawable` uses, and its box is
united into `obj_bbox`. -/
def PostloadOccluder (files : String → Data) (uninit : eMeshLoadStatus) :
    PostLoadFunc Engine := fun js_comp_obj occ obj_bbox e =>
  match (JsObject.at_ js_comp_obj "mesh_file").bind JsElement.as_str with
  | none => .thrown "Wrong type!" (occ, obj_bbox, e)
  | some js_mesh_file_name =>
    match PostloadDrawable_LoadMesh uninit e.ctx (c_str js_mesh_file_name)
        (files (c_str (MODELS_PATH ++ js_mesh_file_name))) with
    | (ref, _, ctx1) =>
      match ctx1.meshes_.GetOrNull ref with
      | none => .crash
      | some mesh =>
        .ok ({ occ with payload := JsObject.Push occ.payload "mesh" (.num ref) },
          obj_bbox.union mesh.bbox, { e with ctx := ctx1 })

/-- The hooks of Drawable and Occluder over the asset files `files`; the other
hooks of `engConfig` are stand-ins that leave everything as it is. -/
def meshHooks (files : String → Data) : Nat → PostLoadFunc Engine := fun i =>
  if i = CompDrawable then PostloadDrawable files eMeshLoadStatus.MeshSetToDefault
  else if i = CompOccluder then PostloadOccluder files eMeshLoadStatus.MeshSetToDefault
  else idleHooks i

/-- Two mesh files: `a` holds a mesh with the box from -1 to 1, `x` one with the
box from -7 to 7. -/
def exampleFiles : String → Data := fun path =>
  if path = "./assets_pc/models/a" then [1]
  else if path = "./assets_pc/models/x" then [7]
  else []

/-- The configuration over `Engine` with the mesh hooks on `exampleFiles`. -/
def engineMeshes : Config Engine :=
  engConfig (fun _ _ => 0) (meshHooks exampleFiles) (fun n e => .ok (some n, e))

/-- A Drawable member: the mesh of file `a`, looked up under the name `x`. -/
def drawableMember : String × JsElement :=
  ("Drawable", .obj [("mesh_file", .str "a"), ("mesh_name", .str "x")])

/-- An Occluder member: the mesh of file `x`. -/
def occluderMember : String × JsElement :=
  ("Occluder", .obj [("mesh_file", .str "x")])

/-- Local and world box of the Transform at index 0 after a load that returned. -/
def transformBoxes (o : Outcome (SceneManager Engine)) : Option (BBox × BBox) :=
  o.state?.bind fun s =>
    (CompAt s CompTransform 0).map fun tr =>
      (⟨tr.bbox_min, tr.bbox_max⟩, ⟨tr.bbox_min_ws, tr.bbox_max_ws⟩)

/-! # Theorems

All definitions are above this line. -/

/-! ## Facts about sparse arrays -/

namespace SparseArray

variable {T : Type}

theorem GetOrNull_nextIndex (a : SparseArray T) : a.GetOrNull a.nextIndex = none := by
  unfold GetOrNull nextIndex
  by_cases h : List.findIdx (fun s : Option T => s.isNone) a.slots < a.slots.length
  · have hp := @List.findIdx_getElem _ (fun s : Option T => s.isNone) a.slots h
    rw [List.getElem?_eq_getElem h]
    cases hx : a.slots[List.findIdx (fun s : Option T => s.isNone) a.slots] with
    | none => rfl
    | some v => simp [hx] at hp
  · rw [List.getElem?_eq_none (Nat.le_of_not_lt h)]
    rfl

theorem lt_length_of_GetOrNull {a : SparseArray T} {i : Nat} {c : T}
    (h : a.GetOrNull i = some c) : i < a.slots.length := by
  by_contra hn
  unfold GetOrNull at h
  rw [List.getElem?_eq_none (Nat.le_of_not_lt hn)] at h
  simp at h

theorem GetOrNull_emplace (a : SparseArray T) (v : T) (j : Nat) :
    (a.emplace v).1.GetOrNull j = if j = a.nextIndex then some v else a.GetOrNull j := by
  unfold emplace GetOrNull
  by_cases h : a.nextIndex < a.slots.length
  · simp only [h, if_true, List.getElem?_set]
    by_cases hj : a.nextIndex = j
    · subst hj
      simp
    · have hj2 : ¬ j = a.nextIndex := fun e => hj e.symm
      simp [hj, hj2]
  · simp only [h, if_false, List.getElem?_append]
    have hle : a.nextIndex ≤ a.slots.length := List.findIdx_le_length _
    have heq : a.nextIndex = a.slots.length := Nat.le_antisymm hle (Nat.le_of_not_lt h)
    by_cases hj : j < a.slots.length
    · have hj2 : ¬ j = a.nextIndex := by omega
      simp [hj, hj2]
    · by_cases hj3 : j = a.slots.length
      · subst hj3
        simp [heq]
      · have hj2 : ¬ j = a.nextIndex := by omega
        have h4 : j - a.slots.length ≠ 0 := by omega
        have h5 : a.slots.length ≤ j := by omega
        simp only [hj, hj2, if_false]
        rw [List.getElem?_eq_none (by simp; omega), List.getElem?_eq_none h5]

theorem GetOrNull_emplace_self (a : SparseArray T) (v : T) :
    (a.emplace v).1.GetOrNull (a.emplace v).2 = some v := by
  rw [GetOrNull_emplace]
  simp [emplace]

theorem GetOrNull_write (a : SparseArray T) (i : Nat) (v : T) (j : Nat) :
    (a.write i v).GetOrNull j =
      if j = i then (if i < a.slots.length then some v else none) else a.GetOrNull j := by
  unfold write GetOrNull
  simp only [List.getElem?_set]
  by_cases hj : i = j
  · subst hj
    by_cases hl : i < a.slots.length <;> simp [hl]
  · have hj2 : ¬ j = i := fun e => hj e.symm
    simp [hj, hj2]

theorem GetOrNull_write_live {a : SparseArray T} {i : Nat} {c : T}
    (h : a.GetOrNull i = some c) (v : T) (j : Nat) :
    (a.write i v).GetOrNull j = if j = i then some v else a.GetOrNull j := by
  rw [GetOrNull_write]
  simp [lt_length_of_GetOrNull h]

theorem emplace_of_map_some (es : List T) (v : T) :
    (SparseArray.mk (es.map some)).emplace v = (⟨(es ++ [v]).map some⟩, es.length) := by
  have hidx : (SparseArray.mk (es.map some)).nextIndex = es.length := by
    unfold nextIndex
    have := (@List.findIdx_eq_length _ (fun s : Option T => s.isNone)
      (es.map some)).2 (by
        intro x hx
        rcases List.mem_map.1 hx with ⟨y, _, rfl⟩
        rfl)
    rw [this, List.length_map]
  unfold emplace
  simp [hidx]

theorem size_of_map_some (es : List T) : (SparseArray.mk (es.map some)).size = es.length := by
  unfold size
  have := (@List.countP_eq_length _ (es.map some) (fun s : Option T => s.isSome)).2 (by
      intro x hx
      rcases List.mem_map.1 hx with ⟨y, _, rfl⟩
      rfl)
  rw [this, List.length_map]

theorem toList_of_map_some (es : List T) : (SparseArray.mk (es.map some)).toList = es := by
  unfold toList
  induction es with
  | nil => rfl
  | cons e es ih => simp [ih]

theorem GetOrNull_of_map_some (es : List T) (k : Nat) :
    (SparseArray.mk (es.map some)).GetOrNull k = es[k]? := by
  unfold GetOrNull
  simp only [List.getElem?_map]
  cases es[k]? <;> rfl

end SparseArray

/-! ## Sequencing -/

theorem Outcome.andThen_eq_ok {σ : Type} {o : Outcome σ} {f : σ → Outcome σ} {s : σ} :
    o.andThen f = .ok s ↔ ∃ s1, o = .ok s1 ∧ f s1 = .ok s := by
  cases o with
  | ok s1 => simp [Outcome.andThen]
  | thrown w s1 => simp [Outcome.andThen]
  | crash => simp [Outcome.andThen]

/-! ## The mask -/

theorem testBit_set_bit (m i j : Nat) :
    ((m ||| (1 <<< i)) % 4294967296).testBit j =
      (decide (j < 32) && (m.testBit j || decide (i = j))) := by
  have h : (4294967296 : Nat) = 2 ^ 32 := by norm_num
  rw [h, Nat.testBit_mod_two_pow, Nat.testBit_or, Nat.one_shiftLeft, Nat.testBit_two_pow]

theorem and_bit_ne_zero (m i : Nat) :
    ((m &&& (1 <<< i)) % 4294967296 ≠ 0) ↔ (m.testBit i = true ∧ i < 32) := by
  rw [Nat.one_shiftLeft, Nat.and_two_pow]
  cases hb : m.testBit i with
  | false => simp
  | true =>
    simp only [Bool.toNat_true, one_mul, ne_eq, true_and]
    constructor
    · intro h
      by_contra hi
      apply h
      have hd : (2 : Nat) ^ 32 ∣ 2 ^ i := Nat.pow_dvd_pow 2 (by omega)
      have h2 : (4294967296 : Nat) = 2 ^ 32 := by norm_num
      rw [h2]
      exact Nat.mod_eq_zero_of_dvd hd
    · intro hi h
      have hlt : 2 ^ i < 4294967296 := by
        have h2 : (4294967296 : Nat) = 2 ^ 32 := by norm_num
        rw [h2]
        exact Nat.pow_lt_pow_right (by norm_num) hi
      rw [Nat.mod_eq_of_lt hlt] at h
      exact (Nat.pos_pow_of_pos i (by norm_num)).ne' h

/-! ## The slot loop -/

section LoaderFacts

variable {Ext : Type}

theorem matchSlot_some {cfg : Config Ext} {key : String} :
    ∀ (fuel i j : Nat), matchSlot cfg key fuel i = some j →
      i ≤ j ∧ j < i + fuel ∧ (∃ st, cfg.comp_store j = some st ∧ key = st.name) ∧
      ∀ j2, i ≤ j2 → j2 < j → ∀ st, cfg.comp_store j2 = some st → key ≠ st.name := by
  intro fuel
  induction fuel with
  | zero => intro i j h; simp [matchSlot] at h
  | succ fuel ih =>
    intro i j h
    unfold matchSlot at h
    cases hs : cfg.comp_store i with
    | none =>
      rw [hs] at h
      obtain ⟨h1, h2, h3, h4⟩ := ih (i + 1) j h
      refine ⟨by omega, by omega, h3, ?_⟩
      intro j2 hj2 hj2j st hst
      by_cases he : j2 = i
      · subst he; rw [hs] at hst; cases hst
      · exact h4 j2 (by omega) hj2j st hst
    | some store =>
      rw [hs] at h
      simp only at h
      by_cases hk : key = store.name
      · rw [if_pos hk] at h
        cases h
        exact ⟨le_refl _, by omega, ⟨store, hs, hk⟩, fun j2 h1 h2 => by omega⟩
      · rw [if_neg hk] at h
        obtain ⟨h1, h2, h3, h4⟩ := ih (i + 1) j h
        refine ⟨by omega, by omega, h3, ?_⟩
        intro j2 hj2 hj2j st hst
        by_cases he : j2 = i
        · subst he; rw [hs] at hst; cases hst; exact hk
        · exact h4 j2 (by omega) hj2j st hst

theorem matchSlot_none {cfg : Config Ext} {key : String} :
    ∀ (fuel i : Nat), matchSlot cfg key fuel i = none →
      ∀ j, i ≤ j → j < i + fuel → ∀ st, cfg.comp_store j = some st → key ≠ st.name := by
  intro fuel
  induction fuel with
  | zero => intro i _ j h1 h2; omega
  | succ fuel ih =>
    intro i h j h1 h2 st hst
    unfold matchSlot at h
    cases hs : cfg.comp_store i with
    | none =>
      rw [hs] at h
      by_cases he : j = i
      · subst he; rw [hs] at hst; cases hst
      · exact ih (i + 1) h j (by omega) (by omega) st hst
    | some store =>
      rw [hs] at h
      simp only at h
      by_cases hk : key = store.name
      · rw [if_pos hk] at h; cases h
      · rw [if_neg hk] at h
        by_cases he : j = i
        · subst he; rw [hs] at hst; cases hst; exact hk
        · exact ih (i + 1) h j (by omega) (by omega) st hst

theorem matchSlot_of_first {cfg : Config Ext} {key : String} :
    ∀ (fuel i j : Nat) (st : CompStorage), i ≤ j → j < i + fuel →
      cfg.comp_store j = some st → key = st.name →
      (∀ j2, i ≤ j2 → j2 < j → ∀ st2, cfg.comp_store j2 = some st2 → key ≠ st2.name) →
      matchSlot cfg key fuel i = some j := by
  intro fuel
  induction fuel with
  | zero => intro i j st h1 h2; omega
  | succ fuel ih =>
    intro i j st h1 h2 hst hk hfirst
    unfold matchSlot
    by_cases he : j = i
    · subst he
      rw [hst]
      simp [hk]
    · have hrec := ih (i + 1) j st (by omega) (by omega) hst hk
        (fun j2 a b => hfirst j2 (by omega) b)
      cases hs : cfg.comp_store i with
      | none => simpa using hrec
      | some store =>
        have hne : key ≠ store.name := hfirst i (le_refl _) (by omega) store hs
        simp only [if_neg hne]
        exact hrec

/-- With pairwise distinct declared names the slot that handles a key is the
slot whose storage declares that name. -/
theorem matchSlot_iff_name {cfg : Config Ext} (hd : NamesDistinct cfg) (key : String) (j : Nat) :
    matchSlot cfg key MAX_COMPONENT_TYPES 0 = some j ↔
      j < MAX_COMPONENT_TYPES ∧ ∃ st, cfg.comp_store j = some st ∧ key = st.name := by
  constructor
  · intro h
    obtain ⟨_, h2, h3, _⟩ := matchSlot_some _ _ _ h
    exact ⟨by omega, h3⟩
  · rintro ⟨hj, st, hst, hk⟩
    refine matchSlot_of_first _ _ _ st (Nat.zero_le _) (by omega) hst hk ?_
    intro j2 _ hj2 st2 hst2 hk2
    have := hd j2 j st2 st (by omega) hj hst2 hst (by rw [← hk2, hk])
    omega

theorem LoadSlots_eq (cfg : Config Ext) (key : String) (o : JsObject) :
    ∀ (fuel i : Nat) (L : LoadState Ext),
      LoadSlots cfg key o fuel i L =
        match matchSlot cfg key fuel i with
        | none => .ok L
        | some j =>
          match cfg.comp_store j with
          | none => .ok L
          | some st => LoadComponent cfg o j st L := by
  intro fuel
  induction fuel with
  | zero => intro i L; rfl
  | succ fuel ih =>
    intro i L
    unfold LoadSlots matchSlot
    cases hs : cfg.comp_store i with
    | none => simp only []; exact ih (i + 1) L
    | some store =>
      simp only []
      by_cases hk : key = store.name
      · simp only [if_pos hk, hs]
      · simp only [if_neg hk]
        exact ih (i + 1) L

theorem CompAt_setStore (sm : SceneManager Ext) (i : Nat) (a : SparseArray Comp) (j idx : Nat) :
    CompAt (sm.setStore i a) j idx = if j = i then a.GetOrNull idx else CompAt sm j idx := by
  unfold CompAt SceneManager.setStore
  by_cases h : j = i <;> simp [h]

theorem CompAt_setExt (sm : SceneManager Ext) (e : Ext) (j idx : Nat) :
    CompAt (sm.setExt e) j idx = CompAt sm j idx := rfl

theorem GetOrNull_emplace_write (a : SparseArray Comp) (v c : Comp) (j : Nat) :
    ((a.emplace v).1.write a.nextIndex c).GetOrNull j =
      if j = a.nextIndex then some c else a.GetOrNull j := by
  have hlive : (a.emplace v).1.GetOrNull a.nextIndex = some v := by
    simpa [SparseArray.emplace] using SparseArray.GetOrNull_emplace_self a v
  rw [SparseArray.GetOrNull_write_live hlive, SparseArray.GetOrNull_emplace]
  by_cases h : j = a.nextIndex <;> simp [h]

/-- Effect of handling one matching key: exactly one component comes to life, in
slot `i` at the index the storage hands out, and the entity records it. -/
theorem LoadComponent_ok {cfg : Config Ext} {o : JsObject} {i : Nat} {st : CompStorage}
    {L L1 : LoadState Ext} (h : LoadComponent cfg o i st L = .ok L1) :
    L1.sm.scene_data_.objects = L.sm.scene_data_.objects ∧
    L1.sm.scene_data_.name_to_object = L.sm.scene_data_.name_to_object ∧
    L1.sm.scene_data_.name = L.sm.scene_data_.name ∧
    L1.sm.scene_data_.env = L.sm.scene_data_.env ∧
    L1.sm.scene_texture_load_counter_ = L.sm.scene_texture_load_counter_ ∧
    L1.obj.name = L.obj.name ∧
    L1.obj.comp_mask = (L.obj.comp_mask ||| (1 <<< i)) % 4294967296 ∧
    L1.obj.components =
      (fun j => if j = i then (L.sm.scene_data_.comp_store i).nextIndex
        else L.obj.components j) ∧
    (∃ c, ∀ j idx, CompAt L1.sm j idx =
      if j = i ∧ idx = (L.sm.scene_data_.comp_store i).nextIndex then some c
      else CompAt L.sm j idx) := by
  unfold LoadComponent at h
  simp only [SparseArray.emplace] at h
  split at h
  · cases h
  · rename_i c1 hc1
    split at h
    · cases h
      refine ⟨rfl, rfl, rfl, rfl, rfl, rfl, rfl, rfl, c1, ?_⟩
      intro j idx
      simp only [CompAt_setStore]
      by_cases hj : j = i
      · subst hj
        have := GetOrNull_emplace_write (L.sm.scene_data_.comp_store j) Comp.new c1 idx
        simp only [SparseArray.emplace] at this
        simp only [if_true, true_and, this]
        rfl
      · simp [hj]
    · rename_i post hpost
      split at h
      · rename_i c2 bb ext1 hres
        cases h
        refine ⟨rfl, rfl, rfl, rfl, rfl, rfl, rfl, rfl, c2, ?_⟩
        intro j idx
        simp only [CompAt_setExt, CompAt_setStore]
        by_cases hj : j = i
        · subst hj
          have := GetOrNull_emplace_write (L.sm.scene_data_.comp_store j) Comp.new c2 idx
          simp only [SparseArray.emplace] at this
          simp only [if_true, true_and, this]
          rfl
        · simp [hj]
      · cases h
      · cases h

theorem NodeInv_LoadComponent {cfg : Config Ext} {s0 : SceneManager Ext} {o : JsObject}
    {i : Nat} {st : CompStorage} {L L1 : LoadState Ext} (hi : i < MAX_COMPONENT_TYPES)
    (hst : cfg.comp_store i = some st) (hinv : NodeInv cfg s0 L)
    (h : LoadComponent cfg o i st L = .ok L1) : NodeInv cfg s0 L1 := by
  obtain ⟨h1, h2, h3, h4, h5, h6, h7, h8, c, h9⟩ := LoadComponent_ok h
  have hfree : CompAt L.sm i (L.sm.scene_data_.comp_store i).nextIndex = none :=
    SparseArray.GetOrNull_nextIndex _
  have hfree0 : CompAt s0 i (L.sm.scene_data_.comp_store i).nextIndex = none := by
    cases hx : CompAt s0 i (L.sm.scene_data_.comp_store i).nextIndex with
    | none => rfl
    | some c0 => rw [hinv.keep _ _ _ hx] at hfree; cases hfree
  have hbits : ∀ j, L1.obj.comp_mask.testBit j = true ↔
      (L.obj.comp_mask.testBit j = true ∨ j = i) := by
    intro j
    rw [h7, testBit_set_bit]
    constructor
    · intro hb
      simp only [Bool.and_eq_true, decide_eq_true_eq, Bool.or_eq_true] at hb
      rcases hb.2 with hb2 | hb2
      · exact Or.inl hb2
      · exact Or.inr hb2.symm
    · intro hb
      simp only [Bool.and_eq_true, decide_eq_true_eq, Bool.or_eq_true]
      rcases hb with hb | hb
      · exact ⟨(hinv.set_bit j hb).1, Or.inl hb⟩
      · exact ⟨hb ▸ hi, Or.inr hb.symm⟩
  refine ⟨h1.trans hinv.objects, h2.trans hinv.names, h3.trans hinv.name, h4.trans hinv.env,
    h5.trans hinv.counter, h6.trans hinv.obj_name, ?_, ?_, ?_⟩
  · intro j idx c0 hc0
    rw [h9]
    by_cases hji : j = i ∧ idx = (L.sm.scene_data_.comp_store i).nextIndex
    · obtain ⟨rfl, rfl⟩ := hji
      rw [hfree0] at hc0; cases hc0
    · rw [if_neg hji]; exact hinv.keep _ _ _ hc0
  · intro j hb
    rcases (hbits j).1 hb with hb | hb
    · by_cases hj : j = i
      · subst hj
        refine ⟨hi, by simp [Registered, hst], ?_, ?_⟩
        · rw [h8]; simpa using hfree0
        · rw [h8, h9]; simp
      · obtain ⟨a1, a2, a3, a4⟩ := hinv.set_bit j hb
        refine ⟨a1, a2, ?_, ?_⟩
        · rw [h8]; simpa [hj] using a3
        · rw [h8, h9]; simpa [hj] using a4
    · subst hb
      refine ⟨hi, by simp [Registered, hst], ?_, ?_⟩
      · rw [h8]; simpa using hfree0
      · rw [h8, h9]; simp
  · intro j hb
    have hnot : ¬ (L.obj.comp_mask.testBit j = true ∨ j = i) := by
      intro hx
      rw [(hbits j).2 hx] at hb; cases hb
    have hj : j ≠ i := fun e => hnot (Or.inr e)
    have hold : L.obj.comp_mask.testBit j = false := by
      cases hx : L.obj.comp_mask.testBit j with
      | false => rfl
      | true => exact absurd (Or.inl hx) hnot
    have a2 := hinv.clear_bit j hold
    intro idx
    rw [h9]
    simp only [hj, false_and, if_false]
    exact a2 idx

/-! ## The member loop -/

/-- A member is handled by slot `j`: it is an object node and the slot loop
stops at `j` for its key. -/
theorem LoadKey_cases (cfg : Config Ext) (kv : String × JsElement) (L L1 : LoadState Ext)
    (h : LoadKey cfg kv L = .ok L1) :
    (L1 = L ∧ ∀ o j, kv.2 = .obj o → matchSlot cfg kv.1 MAX_COMPONENT_TYPES 0 ≠ some j) ∨
    (∃ o j st, kv.2 = .obj o ∧ matchSlot cfg kv.1 MAX_COMPONENT_TYPES 0 = some j ∧
      j < MAX_COMPONENT_TYPES ∧ cfg.comp_store j = some st ∧ kv.1 = st.name ∧
      LoadComponent cfg o j st L = .ok L1) := by
  unfold LoadKey at h
  split at h
  · rename_i o ho
    rw [LoadSlots_eq] at h
    cases hm : matchSlot cfg kv.1 MAX_COMPONENT_TYPES 0 with
    | none =>
      rw [hm] at h
      cases h
      exact Or.inl ⟨rfl, fun _ _ _ hx => by cases hx⟩
    | some j =>
      rw [hm] at h
      obtain ⟨_, hj, ⟨st, hst, hk⟩, _⟩ := matchSlot_some _ _ _ hm
      simp only [hst] at h
      exact Or.inr ⟨o, j, st, ho, rfl, by omega, hst, hk, h⟩
  · rename_i hno
    cases h
    exact Or.inl ⟨rfl, fun o _ ho => absurd ho (hno o)⟩

theorem NodeInv_LoadKey {cfg : Config Ext} {s0 : SceneManager Ext} {kv : String × JsElement}
    {L L1 : LoadState Ext} (hinv : NodeInv cfg s0 L) (h : LoadKey cfg kv L = .ok L1) :
    NodeInv cfg s0 L1 := by
  rcases LoadKey_cases cfg kv L L1 h with ⟨rfl, _⟩ | ⟨o, j, st, _, _, hj, hst, _, hc⟩
  · exact hinv
  · exact NodeInv_LoadComponent hj hst hinv hc

theorem NodeInv_LoadKeys {cfg : Config Ext} {s0 : SceneManager Ext} :
    ∀ (ks : JsObject) (L L1 : LoadState Ext), NodeInv cfg s0 L →
      LoadKeys cfg ks L = .ok L1 → NodeInv cfg s0 L1 := by
  intro ks
  induction ks with
  | nil =>
    intro L L1 hinv h
    simp only [LoadKeys] at h
    cases h
    exact hinv
  | cons kv rest ih =>
    intro L L1 hinv h
    simp only [LoadKeys] at h
    obtain ⟨L2, h2, h3⟩ := Outcome.andThen_eq_ok.1 h
    exact ih L2 L1 (NodeInv_LoadKey hinv h2) h3

theorem NodeInv_start (cfg : Config Ext) (s0 : SceneManager Ext) :
    NodeInv cfg s0 (LoadState.start cfg s0) := by
  refine ⟨rfl, rfl, rfl, rfl, rfl, rfl, fun _ _ _ h => h, ?_, ?_⟩
  · intro i hb
    simp [LoadState.start, SceneObject.fresh] at hb
  · intro i _ _
    rfl

/-- The mask after the members of a node: a bit is set exactly when it was set
before or some object-valued member is handled by that slot. -/
theorem LoadKeys_mask {cfg : Config Ext} :
    ∀ (ks : JsObject) (L L1 : LoadState Ext),
      (∀ j, L.obj.comp_mask.testBit j = true → j < MAX_COMPONENT_TYPES) →
      LoadKeys cfg ks L = .ok L1 →
      ∀ j, L1.obj.comp_mask.testBit j = true ↔
        (L.obj.comp_mask.testBit j = true ∨
          ∃ kv ∈ ks, ∃ o, kv.2 = JsElement.obj o ∧
            matchSlot cfg kv.1 MAX_COMPONENT_TYPES 0 = some j) := by
  intro ks
  induction ks with
  | nil =>
    intro L L1 _ h j
    simp only [LoadKeys] at h
    cases h
    simp
  | cons kv rest ih =>
    intro L L1 hL h j
    simp only [LoadKeys] at h
    obtain ⟨L2, h2, h3⟩ := Outcome.andThen_eq_ok.1 h
    rcases LoadKey_cases cfg kv L L2 h2 with ⟨rfl, hno⟩ | ⟨o, j0, st, ho, hm, hj0, hst, _, hc⟩
    · rw [ih L2 L1 hL h3 j]
      constructor
      · rintro (hb | ⟨kv2, hkv2, o, ho, hm⟩)
        · exact Or.inl hb
        · exact Or.inr ⟨kv2, List.mem_cons_of_mem _ hkv2, o, ho, hm⟩
      · rintro (hb | ⟨kv2, hkv2, o, ho, hm⟩)
        · exact Or.inl hb
        · rcases List.mem_cons.1 hkv2 with rfl | hin
          · exact absurd hm (hno o j ho)
          · exact Or.inr ⟨kv2, hin, o, ho, hm⟩
    · obtain ⟨_, _, _, _, _, _, h7, _, _⟩ := LoadComponent_ok hc
      have hbits : ∀ j, L2.obj.comp_mask.testBit j = true ↔
          (L.obj.comp_mask.testBit j = true ∨ j = j0) := by
        intro j
        rw [h7, testBit_set_bit]
        simp only [Bool.and_eq_true, decide_eq_true_eq, Bool.or_eq_true]
        constructor
        · rintro ⟨_, hb | hb⟩
          · exact Or.inl hb
          · exact Or.inr hb.symm
        · rintro (hb | hb)
          · exact ⟨hL j hb, Or.inl hb⟩
          · exact ⟨hb ▸ hj0, Or.inr hb.symm⟩
      have hL2 : ∀ j, L2.obj.comp_mask.testBit j = true → j < MAX_COMPONENT_TYPES := by
        intro j hb
        rcases (hbits j).1 hb with hb | hb
        · exact hL j hb
        · exact hb ▸ hj0
      rw [ih L2 L1 hL2 h3 j, hbits j]
      constructor
      · rintro ((hb | hb) | ⟨kv2, hkv2, o2, ho2, hm2⟩)
        · exact Or.inl hb
        · exact Or.inr ⟨kv, List.mem_cons_self _ _, o, ho, hb ▸ hm⟩
        · exact Or.inr ⟨kv2, List.mem_cons_of_mem _ hkv2, o2, ho2, hm2⟩
      · rintro (hb | ⟨kv2, hkv2, o2, ho2, hm2⟩)
        · exact Or.inl (Or.inl hb)
        · rcases List.mem_cons.1 hkv2 with rfl | hin
          · rw [hm] at hm2
            cases hm2
            exact Or.inl (Or.inr rfl)
          · exact Or.inr ⟨kv2, hin, o2, ho2, hm2⟩

/-! ## Steps that leave the scene proper alone -/

theorem SameScene.refl (s : SceneManager Ext) : SameScene s s := ⟨rfl, rfl, rfl, rfl⟩

theorem SameScene.trans {s s1 s2 : SceneManager Ext} (h1 : SameScene s s1)
    (h2 : SameScene s1 s2) : SameScene s s2 :=
  ⟨h2.objects.trans h1.objects, h2.names.trans h1.names, h2.comp_store.trans h1.comp_store,
    h2.name.trans h1.name⟩

theorem SameScene_setEnv (s : SceneManager Ext) (e : Environment) : SameScene s (s.setEnv e) :=
  ⟨rfl, rfl, rfl, rfl⟩

theorem SameScene_setExt (s : SceneManager Ext) (e : Ext) : SameScene s (s.setExt e) :=
  ⟨rfl, rfl, rfl, rfl⟩

theorem OnLoadTexture_ok {cfg : Config Ext} {name : String} {flags : Nat}
    {s s1 : SceneManager Ext} {ret : TexRef} (h : OnLoadTexture cfg name flags s = .ok (ret, s1)) :
    SameScene s s1 ∧ s1.scene_data_.env = s.scene_data_.env := by
  unfold OnLoadTexture at h
  simp only at h
  split at h
  · cases h
  · split at h
    · cases h
      exact ⟨⟨rfl, rfl, rfl, rfl⟩, rfl⟩
    · cases h
      exact ⟨⟨rfl, rfl, rfl, rfl⟩, rfl⟩

theorem LoadLightmapSH_ok {cfg : Config Ext} {base : String} :
    ∀ (fuel sh_l : Nat) (s s1 : SceneManager Ext),
      LoadLightmapSH cfg base fuel sh_l s = .ok s1 → SameScene s s1 := by
  intro fuel
  induction fuel with
  | zero =>
    intro sh_l s s1 h
    simp only [LoadLightmapSH] at h
    cases h
    exact SameScene.refl _
  | succ fuel ih =>
    intro sh_l s s1 h
    simp only [LoadLightmapSH] at h
    split at h
    · rename_i ret s2 hres
      exact ((OnLoadTexture_ok hres).1.trans (SameScene_setEnv _ _)).trans (ih _ _ _ h)
    · cases h
    · cases h

theorem LoadLightmaps_ok {cfg : Config Ext} {s s1 : SceneManager Ext}
    (h : LoadLightmaps cfg s = .ok s1) : SameScene s s1 := by
  unfold LoadLightmaps at h
  simp only at h
  split at h
  · rename_i ret s2 hres
    exact ((OnLoadTexture_ok hres).1.trans (SameScene_setEnv _ _)).trans
      (LoadLightmapSH_ok _ _ _ _ h)
  · cases h
  · cases h

theorem LoadSunDir_ok {cfg : Config Ext} {js_env : JsObject} {s s1 : SceneManager Ext}
    (h : LoadSunDir cfg js_env s = .ok s1) : SameScene s s1 := by
  unfold LoadSunDir at h
  split at h
  · split at h
    · cases h
    · cases h; exact SameScene_setEnv _ _
  · cases h; exact SameScene.refl _

theorem LoadSunCol_ok {js_env : JsObject} {s s1 : SceneManager Ext}
    (h : LoadSunCol js_env s = .ok s1) : SameScene s s1 := by
  unfold LoadSunCol at h
  split at h
  · split at h
    · cases h
    · cases h; exact SameScene_setEnv _ _
  · cases h; exact SameScene.refl _

theorem LoadSunSoftness_ok {js_env : JsObject} {s s1 : SceneManager Ext}
    (h : LoadSunSoftness js_env s = .ok s1) : SameScene s s1 := by
  unfold LoadSunSoftness at h
  split at h
  · split at h
    · cases h
    · cases h; exact SameScene_setEnv _ _
  · cases h; exact SameScene.refl _

theorem LoadEnvMapBlock_ok {cfg : Config Ext} {js_env : JsObject} {s s1 : SceneManager Ext}
    (h : LoadEnvMapBlock cfg js_env s = .ok s1) : SameScene s s1 := by
  unfold LoadEnvMapBlock at h
  split at h
  · split at h
    · cases h
    · simp only at h
      split at h
      · cases h; exact ⟨rfl, rfl, rfl, rfl⟩
      · cases h
      · cases h
  · cases h; exact SameScene.refl _

theorem LoadEnvMapPt_ok {js_env : JsObject} {s s1 : SceneManager Ext}
    (h : LoadEnvMapPt js_env s = .ok s1) : SameScene s s1 := by
  unfold LoadEnvMapPt at h
  split at h
  · split at h
    · cases h
    · cases h; exact SameScene_setEnv _ _
  · cases h; exact SameScene.refl _

theorem LoadEnvironment_ok {cfg : Config Ext} {js_scene : JsObject} {s s1 : SceneManager Ext}
    (h : LoadEnvironment cfg js_scene s = .ok s1) : SameScene s s1 := by
  unfold LoadEnvironment at h
  split at h
  · split at h
    · cases h
    · obtain ⟨a4, h4, h5⟩ := Outcome.andThen_eq_ok.1 h
      obtain ⟨a3, h3, h4⟩ := Outcome.andThen_eq_ok.1 h4
      obtain ⟨a2, h2, h3⟩ := Outcome.andThen_eq_ok.1 h3
      obtain ⟨a1, h1, h2⟩ := Outcome.andThen_eq_ok.1 h2
      exact ((((LoadSunDir_ok h1).trans (LoadSunCol_ok h2)).trans (LoadSunSoftness_ok h3)).trans
        (LoadEnvMapBlock_ok h4)).trans (LoadEnvMapPt_ok h5)
  · cases h; exact SameScene_setEnv _ _

theorem LoadFinish_ok {cfg : Config Ext} {s s1 : SceneManager Ext}
    (h : LoadFinish cfg s = .ok s1) :
    SameScene s s1 ∧ s1.scene_data_.env = s.scene_data_.env := by
  unfold LoadFinish at h
  obtain ⟨a, h1, h2⟩ := Outcome.andThen_eq_ok.1 h
  unfold LoadProbeCache at h1
  simp only at h1
  split at h1
  · cases h1
  · cases h1
    cases h2
    exact ⟨⟨rfl, rfl, rfl, rfl⟩, rfl⟩

theorem LoadHeader_ok {cfg : Config Ext} {sm s1 : SceneManager Ext} {js_scene : JsObject}
    (h : LoadHeader cfg sm js_scene = .ok s1) :
    s1.scene_data_.objects = SparseArray.clear ∧
    s1.scene_data_.name_to_object = (fun _ => none) ∧
    s1.scene_data_.comp_store = sm.scene_data_.comp_store ∧
    s1.scene_data_.env = sm.scene_data_.env ∧
    JsObject.Has js_scene "name" = true ∧
    ((JsObject.at_ js_scene "name").bind JsElement.as_str).map c_str =
      some s1.scene_data_.name := by
  unfold LoadHeader at h
  simp only at h
  split at h
  · rename_i hhas
    split at h
    · cases h
    · rename_i n hn
      cases h
      exact ⟨rfl, rfl, rfl, rfl, hhas, by rw [hn]; rfl⟩
  · cases h

/-! ## One iteration of the object loop -/

theorem declaredName_of_not_has {js_obj : JsObject} (h : ¬ JsObject.Has js_obj "name" = true) :
    declaredName js_obj = none := by
  simp [declaredName, h]

theorem declaredName_of_has {js_obj : JsObject} (h : JsObject.Has js_obj "name" = true) :
    declaredName js_obj = (JsObject.at_ js_obj "name").bind JsElement.as_str := by
  simp [declaredName, h]

/-- What a completed iteration of the object loop did: the members were
processed, the Transform lookup hit a live component, which received the
accumulated box, and the entity was appended and indexed. -/
theorem LoadObject_ok {cfg : Config Ext} {js_elem : JsElement} {s s1 : SceneManager Ext}
    (h : LoadObject cfg js_elem s = .ok s1) :
    ∃ js_obj L tr, js_elem = JsElement.obj js_obj ∧
      LoadKeys cfg js_obj
        (LoadState.start cfg s) = .ok L ∧
      Registered cfg CompTransform ∧
      CompAt L.sm CompTransform (L.obj.components CompTransform) = some tr ∧
      (∀ j idx, CompAt s1 j idx =
        if j = CompTransform ∧ idx = L.obj.components CompTransform then
          some (Comp.UpdateBBox
            { tr with bbox_min := L.obj_bbox.bmin, bbox_max := L.obj_bbox.bmax })
        else CompAt L.sm j idx) ∧
      s1.scene_data_.objects =
        (s.scene_data_.objects.emplace
          { L.obj with name := (entityName js_obj).getD "" }).1 ∧
      s1.scene_data_.name_to_object =
        (fun k => if entityName js_obj = some k
          then some (s.scene_data_.objects.size % 4294967296)
          else s.scene_data_.name_to_object k) ∧
      s1.scene_data_.name = s.scene_data_.name ∧
      s1.scene_data_.env = s.scene_data_.env ∧
      s1.scene_texture_load_counter_ = s.scene_texture_load_counter_ := by
  unfold LoadObject at h
  split at h
  · cases h
  · rename_i js_obj hobj
    have hnode : js_elem = JsElement.obj js_obj := by
      cases js_elem <;> simp [JsElement.as_obj] at hobj
      rw [hobj]
    split at h
    · rename_i L hL
      have hinv := NodeInv_LoadKeys js_obj _ L (NodeInv_start cfg s) hL
      unfold FinishObject at h
      split at h
      · cases h
      · rename_i stT hT
        split at h
        · cases h
        · rename_i tr htr
          have hlive : (L.sm.scene_data_.comp_store CompTransform).GetOrNull
              (L.obj.components CompTransform) = some tr := htr
          have hcomp : ∀ (s2 : SceneManager Ext),
              s2.scene_data_.comp_store = (L.sm.setStore CompTransform
                ((L.sm.scene_data_.comp_store CompTransform).write
                  (L.obj.components CompTransform)
                  (Comp.UpdateBBox { tr with bbox_min := L.obj_bbox.bmin,
                                             bbox_max := L.obj_bbox.bmax }))).scene_data_.comp_store →
              ∀ j idx, CompAt s2 j idx =
                if j = CompTransform ∧ idx = L.obj.components CompTransform then
                  some (Comp.UpdateBBox
                    { tr with bbox_min := L.obj_bbox.bmin, bbox_max := L.obj_bbox.bmax })
                else CompAt L.sm j idx := by
            intro s2 hs2 j idx
            have : CompAt s2 j idx = CompAt (L.sm.setStore CompTransform
                ((L.sm.scene_data_.comp_store CompTransform).write
                  (L.obj.components CompTransform)
                  (Comp.UpdateBBox { tr with bbox_min := L.obj_bbox.bmin,
                                             bbox_max := L.obj_bbox.bmax }))) j idx := by
              unfold CompAt; rw [hs2]
            rw [this, CompAt_setStore]
            by_cases hj : j = CompTransform
            · subst hj
              rw [SparseArray.GetOrNull_write_live hlive]
              by_cases hi : idx = L.obj.components CompTransform
              · simp [hi]
              · simp only [hi, and_false, if_false]; rfl
            · simp [hj]
          simp only at h
          split at h
          · rename_i hhas
            split at h
            · cases h
            · rename_i n hn
              cases h
              have hdn : entityName js_obj = some (c_str n) := by
                unfold entityName
                rw [declaredName_of_has hhas, hn]; rfl
              refine ⟨js_obj, L, tr, hnode, hL, by simp [Registered, hT], htr,
                hcomp _ rfl, ?_, ?_, hinv.name, hinv.env, hinv.counter⟩
              · simp only [hdn, Option.getD_some]
                show (SparseArray.emplace L.sm.scene_data_.objects _).1 = _
                rw [hinv.objects]
              · funext k
                show (if k = c_str n then some (L.sm.scene_data_.objects.size % 4294967296)
                  else L.sm.scene_data_.name_to_object k) = _
                rw [hinv.objects, hinv.names, hdn]
                by_cases hk : k = c_str n
                · simp [hk]
                · have : ¬ (some (c_str n) = some k) := fun e => hk (Option.some.inj e).symm
                  simp [hk, this]
          · rename_i hhas
            cases h
            have hdn : entityName js_obj = none := by
              unfold entityName
              rw [declaredName_of_not_has hhas]; rfl
            refine ⟨js_obj, L, tr, hnode, hL, by simp [Registered, hT], htr,
              hcomp _ rfl, ?_, ?_, hinv.name, hinv.env, hinv.counter⟩
            · simp only [hdn, Option.getD_none]
              show (SparseArray.emplace L.sm.scene_data_.objects L.obj).1 = _
              rw [hinv.objects, ← hinv.obj_name]
            · funext k
              show L.sm.scene_data_.name_to_object k = _
              rw [hinv.names, hdn]
              simp
    · cases h
    · cases h

/-! ## The object loop -/

theorem LoadObjects_append (cfg : Config Ext) :
    ∀ (xs ys : JsArray) (s : SceneManager Ext),
      LoadObjects cfg (xs ++ ys) s = (LoadObjects cfg xs s).andThen (LoadObjects cfg ys) := by
  intro xs
  induction xs with
  | nil => intro ys s; rfl
  | cons x xs ih =>
    intro ys s
    simp only [List.cons_append, LoadObjects]
    cases hx : LoadObject cfg x s with
    | ok s1 => simp only [Outcome.andThen]; exact ih ys s1
    | thrown w s1 => rfl
    | crash => rfl

theorem LoadObject_objects {cfg : Config Ext} {js_elem : JsElement} {s s1 : SceneManager Ext}
    {es : List SceneObject} (hs : s.scene_data_.objects.slots = es.map some)
    (h : LoadObject cfg js_elem s = .ok s1) :
    ∃ e, s1.scene_data_.objects.slots = (es ++ [e]).map some := by
  obtain ⟨js_obj, L, tr, _, _, _, _, _, hobj, _⟩ := LoadObject_ok h
  refine ⟨{ L.obj with name := (entityName js_obj).getD "" }, ?_⟩
  have hs2 : s.scene_data_.objects = ⟨es.map some⟩ := by
    cases hso : s.scene_data_.objects
    rw [hso] at hs
    simp only at hs
    rw [hs]
  rw [hobj, hs2, SparseArray.emplace_of_map_some]

theorem LoadObject_keep {cfg : Config Ext} {js_elem : JsElement} {s s1 : SceneManager Ext}
    (h : LoadObject cfg js_elem s = .ok s1) (i idx : Nat)
    (hlive : (CompAt s i idx).isSome = true) : (CompAt s1 i idx).isSome = true := by
  obtain ⟨js_obj, L, tr, _, hL, _, _, hcomp, _⟩ := LoadObject_ok h
  have hinv := NodeInv_LoadKeys js_obj _ L (NodeInv_start cfg s) hL
  rw [hcomp]
  split
  · rfl
  · obtain ⟨c, hc⟩ := Option.isSome_iff_exists.1 hlive
    rw [hinv.keep i idx c hc]
    rfl

theorem LoadObjects_frame {cfg : Config Ext} :
    ∀ (nodes : JsArray) (s s1 : SceneManager Ext) (es : List SceneObject),
      s.scene_data_.objects.slots = es.map some → LoadObjects cfg nodes s = .ok s1 →
      (∃ es1, es1.length = nodes.length ∧
        s1.scene_data_.objects.slots = (es ++ es1).map some) ∧
      s1.scene_data_.name = s.scene_data_.name ∧
      s1.scene_data_.env = s.scene_data_.env ∧
      s1.scene_texture_load_counter_ = s.scene_texture_load_counter_ ∧
      ∀ i idx, (CompAt s i idx).isSome = true → (CompAt s1 i idx).isSome = true := by
  intro nodes
  induction nodes with
  | nil =>
    intro s s1 es hs h
    simp only [LoadObjects] at h
    cases h
    exact ⟨⟨[], rfl, by simpa using hs⟩, rfl, rfl, rfl, fun _ _ hl => hl⟩
  | cons node rest ih =>
    intro s s1 es hs h
    simp only [LoadObjects] at h
    obtain ⟨s2, h2, h3⟩ := Outcome.andThen_eq_ok.1 h
    obtain ⟨e, he⟩ := LoadObject_objects hs h2
    obtain ⟨⟨es1, hlen, hes1⟩, hn, henv, hcnt, hkeep⟩ := ih s2 s1 (es ++ [e]) he h3
    obtain ⟨_, _, _, _, _, _, _, _, _, _, hn2, henv2, hcnt2⟩ := LoadObject_ok h2
    refine ⟨⟨e :: es1, by simp [hlen], by simpa using hes1⟩, hn.trans hn2, henv.trans henv2,
      hcnt.trans hcnt2, ?_⟩
    intro i idx hl
    exact hkeep i idx (LoadObject_keep h2 i idx hl)

/-- The run of the object loop seen from node `k`: the loop reaches its
iteration in some state `sk`, the iteration completes in `sk1`, the rest of the
loop leads to the final state, and the entity the iteration appends is found at
position `k` of the final store. -/
theorem LoadObjects_at {cfg : Config Ext} {nodes : JsArray} {s s1 : SceneManager Ext}
    (hs : s.scene_data_.objects.slots = [])
    (h : LoadObjects cfg nodes s = .ok s1) (k : Nat) (hk : k < nodes.length) :
    ∃ sk sk1 js_obj L,
      LoadObjects cfg (nodes.take k) s = .ok sk ∧
      LoadObject cfg (nodes.get ⟨k, hk⟩) sk = .ok sk1 ∧
      LoadObjects cfg (nodes.drop (k + 1)) sk1 = .ok s1 ∧
      nodes.get ⟨k, hk⟩ = JsElement.obj js_obj ∧
      LoadKeys cfg js_obj
        (LoadState.start cfg sk) = .ok L ∧
      sk.scene_data_.objects.size = k ∧
      s1.scene_data_.objects.GetOrNull k =
        some { L.obj with name := (entityName js_obj).getD "" } ∧
      s1.scene_data_.objects.toList[k]? =
        some { L.obj with name := (entityName js_obj).getD "" } := by
  have hsplit : nodes = nodes.take k ++ (nodes.get ⟨k, hk⟩ :: nodes.drop (k + 1)) := by
    show nodes = nodes.take k ++ (nodes[k] :: nodes.drop (k + 1))
    rw [List.getElem_cons_drop, List.take_append_drop]
  have h0 := h
  rw [hsplit, LoadObjects_append] at h0
  obtain ⟨sk, hsk, hrest⟩ := Outcome.andThen_eq_ok.1 h0
  simp only [LoadObjects] at hrest
  obtain ⟨sk1, hsk1, hfin⟩ := Outcome.andThen_eq_ok.1 hrest
  obtain ⟨js_obj, L, tr, hnode, hL, _, _, _, hobj, _⟩ := LoadObject_ok hsk1
  have hs0 : s.scene_data_.objects.slots = ([] : List SceneObject).map some := by simpa using hs
  obtain ⟨⟨ek, hlen, hek⟩, _⟩ := LoadObjects_frame _ s sk [] hs0 hsk
  simp only [List.nil_append] at hek
  have hlenk : ek.length = k := by
    rw [hlen, List.length_take]; omega
  have hsk2 : sk.scene_data_.objects = ⟨ek.map some⟩ := by
    cases hso : sk.scene_data_.objects
    rw [hso] at hek
    simp only at hek
    rw [hek]
  have hsk1o : sk1.scene_data_.objects.slots =
      (ek ++ [{ L.obj with name := (entityName js_obj).getD "" }]).map some := by
    rw [hobj, hsk2, SparseArray.emplace_of_map_some]
  obtain ⟨⟨er, _, her⟩, _⟩ := LoadObjects_frame _ sk1 s1 _ hsk1o hfin
  have hs1 : s1.scene_data_.objects =
      ⟨((ek ++ [{ L.obj with name := (entityName js_obj).getD "" }]) ++ er).map some⟩ := by
    cases hso : s1.scene_data_.objects
    rw [hso] at her
    simp only at her
    rw [her]
  have hget : ((ek ++ [{ L.obj with name := (entityName js_obj).getD "" }]) ++ er)[k]? =
      some { L.obj with name := (entityName js_obj).getD "" } := by
    rw [List.getElem?_append_left (by simp [hlenk]),
      List.getElem?_append_right (by omega)]
    simp [hlenk]
  refine ⟨sk, sk1, js_obj, L, hsk, hsk1, hfin, hnode, hL, ?_, ?_, ?_⟩
  · rw [hsk2, SparseArray.size_of_map_some, hlenk]
  · rw [hs1, SparseArray.GetOrNull_of_map_some]
    exact hget
  · rw [hs1, SparseArray.toList_of_map_some]
    exact hget

theorem LoadObjects_dense {cfg : Config Ext} {nodes : JsArray} {s s1 : SceneManager Ext}
    (hs : s.scene_data_.objects.slots = [])
    (h : LoadObjects cfg nodes s = .ok s1) :
    s1.scene_data_.objects.size = nodes.length ∧
    s1.scene_data_.objects.toList.length = nodes.length := by
  have hs0 : s.scene_data_.objects.slots = ([] : List SceneObject).map some := by simpa using hs
  obtain ⟨⟨es, hlen, hes⟩, _⟩ := LoadObjects_frame _ s s1 [] hs0 h
  simp only [List.nil_append] at hes
  have hs1 : s1.scene_data_.objects = ⟨es.map some⟩ := by
    cases hso : s1.scene_data_.objects
    rw [hso] at hes
    simp only at hes
    rw [hes]
  rw [hs1, SparseArray.size_of_map_some, SparseArray.toList_of_map_some]
  exact ⟨hlen, hlen⟩

/-- The name index after the object loop: a name declared by some node is
mapped to the position of the last node declaring it, any other name is mapped
as before the loop. -/
theorem LoadObjects_names {cfg : Config Ext} :
    ∀ (nodes : JsArray) (s s1 : SceneManager Ext) (es : List SceneObject),
      s.scene_data_.objects.slots = es.map some → LoadObjects cfg nodes s = .ok s1 →
      ∀ key : String,
        (∀ (k : Nat) (node : JsElement), nodes[k]? = some node → Declares node key →
          (∀ (k2 : Nat) (node2 : JsElement), k < k2 → nodes[k2]? = some node2 →
            ¬ Declares node2 key) →
          s1.scene_data_.name_to_object key = some ((es.length + k) % 4294967296)) ∧
        ((∀ (k : Nat) (node : JsElement), nodes[k]? = some node → ¬ Declares node key) →
          s1.scene_data_.name_to_object key = s.scene_data_.name_to_object key) := by
  intro nodes
  induction nodes with
  | nil =>
    intro s s1 es _ h key
    simp only [LoadObjects] at h
    cases h
    refine ⟨?_, fun _ => rfl⟩
    intro k node hk
    simp at hk
  | cons node rest ih =>
    intro s s1 es hs h key
    simp only [LoadObjects] at h
    obtain ⟨s2, h2, h3⟩ := Outcome.andThen_eq_ok.1 h
    obtain ⟨e, he⟩ := LoadObject_objects hs h2
    obtain ⟨js_obj, L, tr, hnode, _, _, _, _, _, hnames, _⟩ := LoadObject_ok h2
    have hsize : s.scene_data_.objects.size = es.length := by
      have hs2 : s.scene_data_.objects = ⟨es.map some⟩ := by
        cases hso : s.scene_data_.objects
        rw [hso] at hs
        simp only at hs
        rw [hs]
      rw [hs2, SparseArray.size_of_map_some]
    obtain ⟨iha, ihb⟩ := ih s2 s1 (es ++ [e]) he h3 key
    have hstep : s2.scene_data_.name_to_object key =
        if entityName js_obj = some key then some (es.length % 4294967296)
        else s.scene_data_.name_to_object key := by
      rw [hnames, hsize]
    constructor
    · intro k nd hk hdecl hlast
      cases k with
      | zero =>
        simp only [List.getElem?_cons_zero, Option.some.injEq] at hk
        subst hk
        have hrest : ∀ (k : Nat) (node : JsElement), rest[k]? = some node →
            ¬ Declares node key := by
          intro k2 node2 hk2
          exact hlast (k2 + 1) node2 (Nat.succ_pos _) (by simpa using hk2)
        rw [ihb hrest, hstep]
        obtain ⟨o, ho, hdn⟩ := hdecl
        rw [hnode] at ho
        cases ho
        simp [hdn]
      | succ k =>
        simp only [List.getElem?_cons_succ] at hk
        have := iha k nd hk hdecl (by
          intro k2 node2 hlt hk2
          exact hlast (k2 + 1) node2 (by omega) (by simpa using hk2))
        rw [this]
        simp only [List.length_append, List.length_singleton]
        congr 2
        omega
    · intro hnone
      have hrest : ∀ (k : Nat) (node : JsElement), rest[k]? = some node →
            ¬ Declares node key := by
        intro k2 node2 hk2
        exact hnone (k2 + 1) node2 (by simpa using hk2)
      rw [ihb hrest, hstep]
      have h0 : ¬ Declares node key := hnone 0 node (by simp)
      have : ¬ entityName js_obj = some key := fun hx => h0 ⟨js_obj, hnode, hx⟩
      simp [this]

/-! ## The whole load -/

/-- A successful load went through its five stages. -/
theorem LoadScene_ok {cfg : Config Ext} {sm sm1 : SceneManager Ext} {js_scene : JsObject}
    (h : LoadScene cfg sm js_scene = .ok sm1) :
    ∃ s2 s3 nodes s5,
      LoadHeader cfg sm js_scene = .ok s2 ∧
      LoadLightmaps cfg s2 = .ok s3 ∧
      (JsObject.at_ js_scene "objects").bind JsElement.as_arr = some nodes ∧
      LoadObjects cfg nodes s3 = .ok s5 ∧
      s3.scene_data_.objects.slots = [] ∧
      s3.scene_data_.name_to_object = (fun _ => none) ∧
      s3.scene_data_.comp_store = sm.scene_data_.comp_store ∧
      SameScene s5 sm1 := by
  unfold LoadScene at h
  obtain ⟨s6, h6, h7⟩ := Outcome.andThen_eq_ok.1 h
  obtain ⟨s5, h5, h6⟩ := Outcome.andThen_eq_ok.1 h6
  obtain ⟨s3, h3, h5⟩ := Outcome.andThen_eq_ok.1 h5
  obtain ⟨s2, h2, h3⟩ := Outcome.andThen_eq_ok.1 h3
  unfold LoadObjectsBlock at h5
  split at h5
  · cases h5
  · rename_i nodes hnodes
    obtain ⟨a1, a2, a3, _⟩ := LoadHeader_ok h2
    have hss := LoadLightmaps_ok h3
    refine ⟨s2, s3, nodes, s5, h2, h3, hnodes, h5, ?_, ?_, ?_,
      (LoadEnvironment_ok h6).trans (LoadFinish_ok h7).1⟩
    · rw [hss.objects, a1]; rfl
    · rw [hss.names, a2]
    · rw [hss.comp_store, a3]

theorem LoadPrefix_eq {cfg : Config Ext} {sm s2 s3 : SceneManager Ext} {js_scene : JsObject}
    {nodes : JsArray} (h2 : LoadHeader cfg sm js_scene = .ok s2)
    (h3 : LoadLightmaps cfg s2 = .ok s3)
    (hn : (JsObject.at_ js_scene "objects").bind JsElement.as_arr = some nodes) (k : Nat) :
    LoadPrefix cfg sm js_scene k = LoadObjects cfg (nodes.take k) s3 := by
  unfold LoadPrefix
  rw [h2]
  simp only [Outcome.andThen, h3, hn]

theorem sceneObjects_eq {js_scene : JsObject} {nodes : JsArray}
    (hn : (JsObject.at_ js_scene "objects").bind JsElement.as_arr = some nodes) :
    sceneObjects js_scene = nodes := by
  simp [sceneObjects, hn]

theorem LoadObjects_take_succ {cfg : Config Ext} {nodes : JsArray} {s sk sk1 : SceneManager Ext}
    {k : Nat} (hk : k < nodes.length) (h1 : LoadObjects cfg (nodes.take k) s = .ok sk)
    (h2 : LoadObject cfg (nodes.get ⟨k, hk⟩) sk = .ok sk1) :
    LoadObjects cfg (nodes.take (k + 1)) s = .ok sk1 := by
  have : nodes.take (k + 1) = nodes.take k ++ [nodes.get ⟨k, hk⟩] := by
    rw [List.take_succ, List.getElem?_eq_getElem hk]
    rfl
  rw [this, LoadObjects_append, h1]
  simp only [Outcome.andThen, LoadObjects, h2]

theorem LoadObjects_keep_live {cfg : Config Ext} :
    ∀ {nodes : JsArray} {s s1 : SceneManager Ext}, LoadObjects cfg nodes s = .ok s1 →
      ∀ i idx, (CompAt s i idx).isSome = true → (CompAt s1 i idx).isSome = true := by
  intro nodes
  induction nodes with
  | nil =>
    intro s s1 h i idx hl
    simp only [LoadObjects] at h
    cases h
    exact hl
  | cons node rest ih =>
    intro s s1 h i idx hl
    simp only [LoadObjects] at h
    obtain ⟨s2, h2, h3⟩ := Outcome.andThen_eq_ok.1 h
    exact ih h3 i idx (LoadObject_keep h2 i idx hl)

end LoaderFacts

/-! ## Results on the loaded scene -/

section Claims

variable {Ext : Type}

/-- Facts shared by the results on entity `k` of a loaded scene: the states
before and after the iteration for its node, the locals of that iteration, and
where the entity ends up. -/
theorem LoadScene_entity {cfg : Config Ext} {sm sm1 : SceneManager Ext} {js_scene : JsObject}
    (h : LoadScene cfg sm js_scene = .ok sm1) (k : Nat)
    (hk : k < (sceneObjects js_scene).length) :
    ∃ sk sk1 js_obj L,
      LoadPrefix cfg sm js_scene k = .ok sk ∧
      LoadPrefix cfg sm js_scene (k + 1) = .ok sk1 ∧
      LoadObject cfg (JsElement.obj js_obj) sk = .ok sk1 ∧
      (sceneObjects js_scene).get ⟨k, hk⟩ = JsElement.obj js_obj ∧
      LoadKeys cfg js_obj
        (LoadState.start cfg sk) = .ok L ∧
      sk.scene_data_.objects.size = k ∧
      sm1.scene_data_.objects.toList[k]? =
        some { L.obj with name := (entityName js_obj).getD "" } ∧
      (∀ i idx, (CompAt sk1 i idx).isSome = true → (CompAt sm1 i idx).isSome = true) := by
  obtain ⟨s2, s3, nodes, s5, h2, h3, hn, h5, hs3, _, _, hss⟩ := LoadScene_ok h
  have hso := sceneObjects_eq hn
  subst hso
  obtain ⟨sk, sk1, js_obj, L, a1, a2, a3, a4, a5, a6, _, a8⟩ := LoadObjects_at hs3 h5 k hk
  refine ⟨sk, sk1, js_obj, L, ?_, ?_, ?_, a4, a5, a6, ?_, ?_⟩
  · rw [LoadPrefix_eq h2 h3 hn]; exact a1
  · rw [LoadPrefix_eq h2 h3 hn]; exact LoadObjects_take_succ hk a1 a2
  · rw [← a4]; exact a2
  · rw [hss.objects]; exact a8
  · intro i idx hl
    have := LoadObjects_keep_live a3 i idx hl
    unfold CompAt at this ⊢
    rw [hss.comp_store]
    exact this

theorem LoadScene_entity_count {cfg : Config Ext} {sm sm1 : SceneManager Ext}
    {js_scene : JsObject} (h : LoadScene cfg sm js_scene = .ok sm1) :
    sm1.scene_data_.objects.size = (sceneObjects js_scene).length ∧
    sm1.scene_data_.objects.toList.length = (sceneObjects js_scene).length := by
  obtain ⟨s2, s3, nodes, s5, h2, h3, hn, h5, hs3, _, _, hss⟩ := LoadScene_ok h
  rw [sceneObjects_eq hn, hss.objects]
  exact LoadObjects_dense hs3 h5

theorem lt_of_getElem?_eq_some {α : Type} {l : List α} {k : Nat} {a : α}
    (h : l[k]? = some a) : k < l.length := by
  by_contra hn
  rw [List.getElem?_eq_none (Nat.le_of_not_lt hn)] at h
  cases h

/-- A mask bit of a loaded entity is set exactly when the slot is registered and
the recorded index was free before the entity's iteration, is live after it and
is live at the end of the load. -/
theorem LoadScene_entity_bit_iff {cfg : Config Ext} {sm sm1 : SceneManager Ext}
    {js_scene : JsObject} (h : LoadScene cfg sm js_scene = .ok sm1) (k : Nat) (e : SceneObject)
    (he : sm1.scene_data_.objects.toList[k]? = some e) :
    ∃ sk sk1, LoadPrefix cfg sm js_scene k = .ok sk ∧
      LoadPrefix cfg sm js_scene (k + 1) = .ok sk1 ∧
      ∀ i, i < MAX_COMPONENT_TYPES →
        (e.comp_mask.testBit i = true ↔
          (Registered cfg i ∧ CompAt sk i (e.components i) = none ∧
            (CompAt sk1 i (e.components i)).isSome = true ∧
            (CompAt sm1 i (e.components i)).isSome = true)) := by
  have hk : k < (sceneObjects js_scene).length := by
    rw [← (LoadScene_entity_count h).2]
    exact lt_of_getElem?_eq_some he
  obtain ⟨sk, sk1, js_obj, L, a1, a2, a3, _, a5, _, a7, a8⟩ := LoadScene_entity h k hk
  rw [a7] at he
  cases he
  have hinv := NodeInv_LoadKeys js_obj _ L (NodeInv_start cfg sk) a5
  obtain ⟨js_obj2, L2, tr, hnode, hL2, _, htr, hcomp, _⟩ := LoadObject_ok a3
  cases hnode
  rw [a5] at hL2
  cases hL2
  refine ⟨sk, sk1, a1, a2, ?_⟩
  intro i _
  show L.obj.comp_mask.testBit i = true ↔
    (Registered cfg i ∧ CompAt sk i (L.obj.components i) = none ∧
      (CompAt sk1 i (L.obj.components i)).isSome = true ∧
      (CompAt sm1 i (L.obj.components i)).isSome = true)
  constructor
  · intro hb
    obtain ⟨_, b2, b3, b4⟩ := hinv.set_bit i hb
    have hlive1 : (CompAt sk1 i (L.obj.components i)).isSome = true := by
      rw [hcomp]
      split
      · rfl
      · exact b4
    exact ⟨b2, b3, hlive1, a8 _ _ hlive1⟩
  · rintro ⟨_, b3, b4, _⟩
    cases hb : L.obj.comp_mask.testBit i with
    | true => rfl
    | false =>
      exfalso
      have c2 := hinv.clear_bit i hb
      rw [hcomp] at b4
      split at b4
      · rename_i hji
        obtain ⟨rfl, _⟩ := hji
        rw [c2, b3] at htr
        cases htr
      · rw [c2, b3] at b4
        cases b4

/-- C1. After a successful `LoadScene`, for every entity `e` (the `k`-th in
store order) and every slot `i < MAX_COMPONENT_TYPES`: bit `i` of `e.comp_mask` is
set if and only if slot `i` holds a registered storage and `Get(e.components[i])`
returns a live component that was created for this entity during the load, that
is, the index was free when the iteration for the entity's node began, is live
when that iteration ends, and is live in the final state. -/
theorem loadScene_mask_bit_iff_own_live_component (cfg : Config Ext)
    (sm sm1 : SceneManager Ext) (js_scene : JsObject)
    (h : LoadScene cfg sm js_scene = .ok sm1) (k : Nat) (e : SceneObject)
    (he : sm1.scene_data_.objects.toList[k]? = some e) :
    ∃ sk sk1, LoadPrefix cfg sm js_scene k = .ok sk ∧
      LoadPrefix cfg sm js_scene (k + 1) = .ok sk1 ∧
      ∀ i, i < MAX_COMPONENT_TYPES →
        (e.comp_mask.testBit i = true ↔
          (Registered cfg i ∧ CompAt sk i (e.components i) = none ∧
            (CompAt sk1 i (e.components i)).isSome = true ∧
            (CompAt sm1 i (e.components i)).isSome = true)) :=
  LoadScene_entity_bit_iff h k e he

/-- Every entity of a loaded scene has a registered storage and a live
component behind each set mask bit. -/
theorem LoadScene_entityOk {cfg : Config Ext} {sm sm1 : SceneManager Ext}
    {js_scene : JsObject} (h : LoadScene cfg sm js_scene = .ok sm1) :
    ∀ e ∈ sm1.scene_data_.objects.toList, EntityOk cfg sm1.scene_data_ e := by
  intro e he i hi hb
  obtain ⟨k, hk, hke⟩ := List.getElem_of_mem he
  have hk2 : sm1.scene_data_.objects.toList[k]? = some e := by
    rw [List.getElem?_eq_getElem hk, hke]
  obtain ⟨sk, sk1, _, _, hiff⟩ := LoadScene_entity_bit_iff h k e hk2
  obtain ⟨hreg, _, _, hlive⟩ := (hiff i hi).1 hb
  obtain ⟨st, hst⟩ := Option.isSome_iff_exists.1 hreg
  obtain ⟨c, hc⟩ := Option.isSome_iff_exists.1 hlive
  exact ⟨st, c, hst, hc⟩

/-- C2. With pairwise distinct declared names, for every object node whose
members `LoadScene` has processed, the resulting mask has bit `i` set exactly
when slot `i` is registered and the node has an object-valued member whose key
equals the declared name of that storage; this is the mask of the entity the
node becomes in a successful load; and a member whose key equals no registered
declared name leaves the manager, the entity under construction and its mask
as they were. -/
theorem loadScene_mask_bit_iff_named_member (cfg : Config Ext) (hd : NamesDistinct cfg) :
    (∀ (s : SceneManager Ext) (js_obj : JsObject) (L : LoadState Ext),
      LoadKeys cfg js_obj (LoadState.start cfg s) = .ok L →
      ∀ i, i < MAX_COMPONENT_TYPES →
        (L.obj.comp_mask.testBit i = true ↔
          ∃ st, cfg.comp_store i = some st ∧ HasObjectKey js_obj st.name)) ∧
    (∀ (sm sm1 : SceneManager Ext) (js_scene : JsObject),
      LoadScene cfg sm js_scene = .ok sm1 →
      ∀ (k : Nat) (e : SceneObject), sm1.scene_data_.objects.toList[k]? = some e →
        ∃ js_obj, (sceneObjects js_scene)[k]? = some (JsElement.obj js_obj) ∧
          ∀ i, i < MAX_COMPONENT_TYPES →
            (e.comp_mask.testBit i = true ↔
              ∃ st, cfg.comp_store i = some st ∧ HasObjectKey js_obj st.name)) ∧
    (∀ (key : String) (v : JsElement) (L : LoadState Ext),
      (∀ i st, i < MAX_COMPONENT_TYPES → cfg.comp_store i = some st → st.name ≠ key) →
      LoadKey cfg (key, v) L = .ok L) := by
  have hkeys : ∀ (s : SceneManager Ext) (js_obj : JsObject) (L : LoadState Ext),
      LoadKeys cfg js_obj (LoadState.start cfg s) = .ok L →
      ∀ i, i < MAX_COMPONENT_TYPES →
        (L.obj.comp_mask.testBit i = true ↔
          ∃ st, cfg.comp_store i = some st ∧ HasObjectKey js_obj st.name) := by
    intro s js_obj L a5 i hi
    have hmask := LoadKeys_mask js_obj _ L (by
      intro j hj
      simp [LoadState.start, SceneObject.fresh] at hj) a5 i
    rw [hmask]
    constructor
    · rintro (hb | ⟨kv, hkv, o, ho, hm⟩)
      · simp [LoadState.start, SceneObject.fresh] at hb
      · obtain ⟨_, st, hst, hname⟩ := (matchSlot_iff_name hd kv.1 i).1 hm
        refine ⟨st, hst, o, ?_⟩
        rw [← hname, ← ho]
        exact hkv
    · rintro ⟨st, hst, o, ho⟩
      exact Or.inr ⟨(st.name, JsElement.obj o), ho, o, rfl,
        (matchSlot_iff_name hd st.name i).2 ⟨hi, st, hst, rfl⟩⟩
  refine ⟨hkeys, ?_, ?_⟩
  · intro sm sm1 js_scene h k e he
    have hk : k < (sceneObjects js_scene).length := by
      rw [← (LoadScene_entity_count h).2]
      exact lt_of_getElem?_eq_some he
    obtain ⟨sk, sk1, js_obj, L, _, _, _, a4, a5, _, a7, _⟩ := LoadScene_entity h k hk
    rw [a7] at he
    cases he
    refine ⟨js_obj, ?_, ?_⟩
    · rw [List.getElem?_eq_getElem hk]
      exact congrArg some a4
    · exact hkeys sk js_obj L a5
  · intro key v L hno
    unfold LoadKey
    cases v with
    | obj o =>
      simp only
      rw [LoadSlots_eq]
      have : matchSlot cfg key MAX_COMPONENT_TYPES 0 = none := by
        cases hm : matchSlot cfg key MAX_COMPONENT_TYPES 0 with
        | none => rfl
        | some j =>
          obtain ⟨_, hj, ⟨st, hst, hname⟩, _⟩ := matchSlot_some _ _ _ hm
          exact absurd hname.symm (hno j st (by omega) hst)
      rw [this]
    | num _ => rfl
    | str _ => rfl
    | lit _ => rfl
    | arr _ => rfl

/-- C3. `LoadScene` on a document without a top-level `name` member throws, and
whatever the prior state of the manager, the state left behind has no entities,
an empty name index and an empty scene name. -/
theorem loadScene_without_name_throws (cfg : Config Ext) (sm : SceneManager Ext)
    (js_scene : JsObject) (hno : JsObject.Has js_scene "name" = false) :
    ∃ s, LoadScene cfg sm js_scene = .thrown "Level has no name!" s ∧
      s.scene_data_.objects.size = 0 ∧
      s.scene_data_.objects.toList = [] ∧
      (∀ key, s.scene_data_.name_to_object key = none) ∧
      s.scene_data_.name = "" := by
  refine ⟨ClearScene cfg sm, ?_, rfl, rfl, fun _ => rfl, rfl⟩
  unfold LoadScene LoadHeader
  simp [hno, Outcome.andThen]

/-- C4. After a successful `LoadScene` of a document whose `objects` array has
`n` nodes, the entity store holds exactly `n` entities, and the `k`-th entity
in store order is the one built from the `k`-th node: its mask and indices are
those left by the member loop run on that node in the state the object loop
had reached, and its name is the C string of the name the node declares (the
declared text up to its first NUL character), empty when it declares none. -/
theorem loadScene_entities_in_document_order (cfg : Config Ext)
    (sm sm1 : SceneManager Ext) (js_scene : JsObject)
    (h : LoadScene cfg sm js_scene = .ok sm1) :
    sm1.scene_data_.objects.size = (sceneObjects js_scene).length ∧
    sm1.scene_data_.objects.toList.length = (sceneObjects js_scene).length ∧
    ∀ k, k < (sceneObjects js_scene).length →
      ∃ sk js_obj L,
        (sceneObjects js_scene)[k]? = some (JsElement.obj js_obj) ∧
        LoadPrefix cfg sm js_scene k = .ok sk ∧
        LoadKeys cfg js_obj
          (LoadState.start cfg sk) = .ok L ∧
        sm1.scene_data_.objects.toList[k]? =
          some { L.obj with name := (entityName js_obj).getD "" } := by
  refine ⟨(LoadScene_entity_count h).1, (LoadScene_entity_count h).2, ?_⟩
  intro k hk
  obtain ⟨sk, sk1, js_obj, L, a1, _, _, a4, a5, _, a7, _⟩ := LoadScene_entity h k hk
  refine ⟨sk, js_obj, L, ?_, a1, a5, a7⟩
  rw [List.getElem?_eq_getElem hk]
  exact congrArg some a4

/-- C5 (amended). After a successful `LoadScene` of at most `2 ^ 32` nodes, for
every string `s`: if some object node declares a name whose C string (the
declared text up to its first NUL character) is `s`, the name index maps `s` to
the store index of the last such node in document order, and the entity at
that index has the name `s`; if no node declares a name whose C string is `s`,
then `s` is absent from the index, whatever the manager held before. -/
theorem loadScene_name_index_last_wins (cfg : Config Ext)
    (sm sm1 : SceneManager Ext) (js_scene : JsObject)
    (h : LoadScene cfg sm js_scene = .ok sm1)
    (hsmall : (sceneObjects js_scene).length ≤ 4294967296) (s : String) :
    (∀ (k : Nat) (node : JsElement), (sceneObjects js_scene)[k]? = some node →
      Declares node s →
      (∀ (k2 : Nat) (node2 : JsElement), k < k2 →
        (sceneObjects js_scene)[k2]? = some node2 → ¬ Declares node2 s) →
      sm1.scene_data_.name_to_object s = some k ∧
      ∃ e, sm1.scene_data_.objects.toList[k]? = some e ∧ e.name = s) ∧
    ((∀ (k : Nat) (node : JsElement), (sceneObjects js_scene)[k]? = some node →
      ¬ Declares node s) →
      sm1.scene_data_.name_to_object s = none) := by
  obtain ⟨s2, s3, nodes, s5, h2, h3, hn, h5, hs3, hnames3, _, hss⟩ := LoadScene_ok h
  have hso := sceneObjects_eq hn
  have hs0 : s3.scene_data_.objects.slots = ([] : List SceneObject).map some := by
    simpa using hs3
  obtain ⟨ha, hb⟩ := LoadObjects_names nodes s3 s5 [] hs0 h5 s
  rw [hso] at hsmall ⊢
  constructor
  · intro k node hk hdecl hlast
    have hklt : k < nodes.length := lt_of_getElem?_eq_some hk
    have hidx := ha k node hk hdecl hlast
    simp only [List.length_nil, Nat.zero_add] at hidx
    rw [Nat.mod_eq_of_lt (by omega)] at hidx
    refine ⟨by rw [hss.names]; exact hidx, ?_⟩
    obtain ⟨sk, sk1, js_obj, L, _, _, _, a4, _, _, _, a8⟩ := LoadObjects_at hs3 h5 k hklt
    refine ⟨_, by rw [hss.objects]; exact a8, ?_⟩
    obtain ⟨o, ho, hdn⟩ := hdecl
    rw [List.getElem?_eq_getElem hklt] at hk
    have : nodes.get ⟨k, hklt⟩ = node := Option.some.inj hk
    rw [this, ho] at a4
    cases a4
    simp [hdn]
  · intro hnone
    rw [hss.names, hb hnone, hnames3]

end Claims

/-! ## Bounding boxes -/

section Boxes

variable {Ext : Type}

theorem LoadComponent_bbox {cfg : Config Ext} {o : JsObject} {i : Nat} {st : CompStorage}
    {L L1 : LoadState Ext} (h : LoadComponent cfg o i st L = .ok L1) :
    ∃ c1, st.ReadFromJs o Comp.new = .ok c1 ∧
      ((cfg.component_post_load_ i = none ∧ L1.obj_bbox = L.obj_bbox) ∨
        ∃ post c2 ext1, cfg.component_post_load_ i = some post ∧
          post o c1 L.obj_bbox L.sm.ext = .ok (c2, L1.obj_bbox, ext1)) := by
  unfold LoadComponent at h
  simp only [SparseArray.emplace] at h
  split at h
  · cases h
  · rename_i c1 hc1
    refine ⟨c1, hc1, ?_⟩
    split at h
    · rename_i hnone
      cases h
      exact Or.inl ⟨hnone, rfl⟩
    · rename_i post hpost
      split at h
      · rename_i c2 bb ext1 hres
        cases h
        exact Or.inr ⟨post, c2, ext1, hpost, hres⟩
      · cases h
      · cases h

theorem LoadKey_bbox {cfg : Config Ext} {contrib : Nat → JsObject → Comp → Ext → Option BBox}
    (hu : HooksUnite cfg contrib) {kv : String × JsElement} {L L1 : LoadState Ext}
    (h : LoadKey cfg kv L = .ok L1) :
    L1.obj_bbox = L.obj_bbox.unionOpt (keyBox cfg contrib kv L) := by
  rcases LoadKey_cases cfg kv L L1 h with ⟨rfl, hno⟩ | ⟨o, j, st, ho, hm, _, hst, _, hc⟩
  · have : keyBox cfg contrib kv L1 = none := by
      unfold keyBox
      split
      · rename_i o ho
        cases hm : matchSlot cfg kv.1 MAX_COMPONENT_TYPES 0 with
        | none => rfl
        | some j => exact absurd hm (hno o j ho)
      · rfl
    rw [this]
    rfl
  · obtain ⟨c1, hc1, hcase⟩ := LoadComponent_bbox hc
    rcases hcase with ⟨hnone, hbb⟩ | ⟨post, c2, ext1, hpost, hres⟩
    · have : keyBox cfg contrib kv L = none := by
        unfold keyBox
        simp only [ho, hm, hst, hnone]
      rw [this, hbb]
      rfl
    · have : keyBox cfg contrib kv L = contrib j o c1 L.sm.ext := by
        unfold keyBox
        simp only [ho, hm, hst, hpost, hc1]
      rw [this]
      exact hu j post o c1 L.obj_bbox L.sm.ext c2 L1.obj_bbox ext1 hpost hres

theorem foldl_union_toList (a : BBox) (ob : Option BBox) :
    ob.toList.foldl BBox.union a = a.unionOpt ob := by
  cases ob <;> rfl

/-- The accumulator after the members of a node: the union of its initial value
with the boxes the hooks contributed. -/
theorem LoadKeys_bbox {cfg : Config Ext} {contrib : Nat → JsObject → Comp → Ext → Option BBox}
    (hu : HooksUnite cfg contrib) :
    ∀ (ks : JsObject) (L L1 : LoadState Ext), LoadKeys cfg ks L = .ok L1 →
      L1.obj_bbox = (hookBoxes cfg contrib ks L).foldl BBox.union L.obj_bbox := by
  intro ks
  induction ks with
  | nil =>
    intro L L1 h
    simp only [LoadKeys] at h
    cases h
    rfl
  | cons kv rest ih =>
    intro L L1 h
    simp only [LoadKeys] at h
    obtain ⟨L2, h2, h3⟩ := Outcome.andThen_eq_ok.1 h
    rw [ih L2 L1 h3, LoadKey_bbox hu h2]
    simp only [hookBoxes, h2, List.foldl_append, foldl_union_toList]

/-- Later iterations of the object loop leave the components that are live
alone, provided every entity they append has the Transform bit set. -/
theorem LoadObjects_keep_content {cfg : Config Ext} :
    ∀ (nodes : JsArray) (s s1 : SceneManager Ext) (es : List SceneObject),
      s.scene_data_.objects.slots = es.map some → LoadObjects cfg nodes s = .ok s1 →
      (∀ (k : Nat) (e : SceneObject), s1.scene_data_.objects.toList[k]? = some e →
        es.length ≤ k → e.comp_mask.testBit CompTransform = true) →
      ∀ i idx c, CompAt s i idx = some c → CompAt s1 i idx = some c := by
  intro nodes
  induction nodes with
  | nil =>
    intro s s1 es _ h _ i idx c hc
    simp only [LoadObjects] at h
    cases h
    exact hc
  | cons node rest ih =>
    intro s s1 es hs h hT i idx c hc
    simp only [LoadObjects] at h
    obtain ⟨s2, h2, h3⟩ := Outcome.andThen_eq_ok.1 h
    obtain ⟨js_obj, L, tr, _, hL, _, _, hcomp, hobj, _⟩ := LoadObject_ok h2
    have hinv := NodeInv_LoadKeys js_obj _ L (NodeInv_start cfg s) hL
    have hs2 : s.scene_data_.objects = ⟨es.map some⟩ := by
      cases hso : s.scene_data_.objects
      rw [hso] at hs
      simp only at hs
      rw [hs]
    have he : s2.scene_data_.objects.slots =
        (es ++ [{ L.obj with name := (entityName js_obj).getD "" }]).map some := by
      rw [hobj, hs2, SparseArray.emplace_of_map_some]
    obtain ⟨⟨es1, _, hes1⟩, _⟩ := LoadObjects_frame rest s2 s1 _ he h3
    have hs1 : s1.scene_data_.objects =
        ⟨((es ++ [{ L.obj with name := (entityName js_obj).getD "" }]) ++ es1).map some⟩ := by
      cases hso : s1.scene_data_.objects
      rw [hso] at hes1
      simp only at hes1
      rw [hes1]
    have hbit : L.obj.comp_mask.testBit CompTransform = true := by
      have := hT es.length { L.obj with name := (entityName js_obj).getD "" } (by
        rw [hs1, SparseArray.toList_of_map_some]
        rw [List.getElem?_append_left (by simp), List.getElem?_append_right (le_refl _)]
        simp) (le_refl _)
      exact this
    obtain ⟨_, _, hfree, _⟩ := hinv.set_bit CompTransform hbit
    have hc2 : CompAt s2 i idx = some c := by
      rw [hcomp]
      split
      · rename_i hji
        obtain ⟨rfl, rfl⟩ := hji
        rw [hfree] at hc
        cases hc
      · exact hinv.keep i idx c hc
    refine ih s2 s1 _ he h3 ?_ i idx c hc2
    intro k e hk hle
    exact hT k e hk (by simp at hle; omega)

end Boxes

/-! ## SaveScene -/

section Saving

variable {Ext : Type}

theorem Push_of_not_mem (key : String) (v : JsElement) :
    ∀ (o : JsObject), key ∉ JsObject.keys o → JsObject.Push o key v = o ++ [(key, v)] := by
  intro o
  induction o with
  | nil => intro _; rfl
  | cons kx rest ih =>
    intro hnot
    obtain ⟨k, x⟩ := kx
    have hk : ¬ k = key := by
      intro e
      apply hnot
      simp [JsObject.keys, e]
    have hrest : key ∉ JsObject.keys rest := by
      intro hin
      apply hnot
      simp only [JsObject.keys, List.map_cons, List.mem_cons]
      exact Or.inr hin
    simp only [JsObject.Push, if_neg hk, ih hrest, List.cons_append]

theorem at_Push (key : String) (v : JsElement) (k2 : String) :
    ∀ (o : JsObject),
      JsObject.at_ (JsObject.Push o key v) k2 = if k2 = key then some v else JsObject.at_ o k2 := by
  intro o
  induction o with
  | nil =>
    by_cases h : k2 = key
    · simp [JsObject.Push, JsObject.at_, h]
    · have h2 : ¬ key = k2 := fun e => h e.symm
      simp [JsObject.Push, JsObject.at_, h, h2]
  | cons kx rest ih =>
    obtain ⟨k, x⟩ := kx
    unfold JsObject.at_ at ih ⊢
    by_cases hk : k = key
    · subst hk
      simp only [JsObject.Push, if_true]
      by_cases h : k2 = k
      · simp [h]
      · have h2 : ¬ k = k2 := fun e => h e.symm
        simp [List.find?_cons, h, h2]
    · simp only [JsObject.Push, if_neg hk]
      by_cases h : k = k2
      · subst h
        simp [List.find?_cons, hk]
      · have hb : (k == k2) = false := by simpa using h
        simp only [List.find?_cons, hb]
        exact ih

/-- The slot loop of `SaveScene` on an entity whose set bits all have a live
component, in a registry with pairwise distinct declared names: it returns, and
it adds one member per set bit, keyed by the declared name of the slot, in
ascending slot order. -/
theorem SaveSlots_ok {cfg : Config Ext} {sd : SceneData} {obj : SceneObject}
    (hd : NamesDistinct cfg) (hwf : EntityOk cfg sd obj) :
    ∀ (fuel i : Nat) (js_obj : JsObject), i + fuel ≤ MAX_COMPONENT_TYPES →
      (∀ key ∈ JsObject.keys js_obj, ∃ j st, j < i ∧ cfg.comp_store j = some st ∧
        st.name = key) →
      ∃ out, SaveSlots cfg sd obj fuel i js_obj = some out ∧
        JsObject.keys out = JsObject.keys js_obj ++
          ((List.range' i fuel).filter fun j => obj.comp_mask.testBit j).map (slotName cfg) := by
  intro fuel
  induction fuel with
  | zero =>
    intro i js_obj _ _
    exact ⟨js_obj, rfl, by simp⟩
  | succ fuel ih =>
    intro i js_obj hi hkeys0
    unfold SaveSlots
    have hi32 : i < 32 := by unfold MAX_COMPONENT_TYPES at hi; omega
    have hiM : i < MAX_COMPONENT_TYPES := by unfold MAX_COMPONENT_TYPES; omega
    by_cases hb : obj.comp_mask.testBit i = true
    · have hne : (obj.comp_mask &&& (1 <<< i)) % 4294967296 ≠ 0 :=
        (and_bit_ne_zero _ _).2 ⟨hb, hi32⟩
      obtain ⟨st, c, hst, hc⟩ := hwf i hiM hb
      rw [if_pos hne]
      simp only [hst, hc]
      have hfresh : st.name ∉ JsObject.keys js_obj := by
        intro hin
        obtain ⟨j, stj, hj, hstj, hname⟩ := hkeys0 _ hin
        have := hd j i stj st (by omega) hiM hstj hst hname
        omega
      have hpush := Push_of_not_mem st.name (.obj (st.WriteToJs c)) js_obj hfresh
      obtain ⟨out, hout, hkeys⟩ := ih (i + 1)
        (JsObject.Push js_obj st.name (.obj (st.WriteToJs c))) (by omega) (by
          intro key hkey
          rw [hpush] at hkey
          simp only [JsObject.keys, List.map_append, List.map_cons, List.map_nil,
            List.mem_append, List.mem_singleton] at hkey
          rcases hkey with hkey | hkey
          · obtain ⟨j, stj, hj, hstj, hname⟩ := hkeys0 key hkey
            exact ⟨j, stj, by omega, hstj, hname⟩
          · exact ⟨i, st, by omega, hst, hkey.symm⟩)
      refine ⟨out, hout, ?_⟩
      rw [hkeys, hpush, List.range'_succ, List.filter_cons_of_pos (by simpa using hb)]
      simp [JsObject.keys, slotName, hst]
    · have hne : ¬ (obj.comp_mask &&& (1 <<< i)) % 4294967296 ≠ 0 := by
        intro hx
        exact hb ((and_bit_ne_zero _ _).1 hx).1
      rw [if_neg hne]
      obtain ⟨out, hout, hkeys⟩ := ih (i + 1) js_obj (by omega) (by
        intro key hkey
        obtain ⟨j, stj, hj, hstj, hname⟩ := hkeys0 key hkey
        exact ⟨j, stj, by omega, hstj, hname⟩)
      refine ⟨out, hout, ?_⟩
      rw [hkeys, List.range'_succ, List.filter_cons_of_neg (by simpa using hb)]

theorem SaveObjects_ok {cfg : Config Ext} {sd : SceneData} (hd : NamesDistinct cfg) :
    ∀ (objs : List SceneObject) (acc : JsArray), (∀ e ∈ objs, EntityOk cfg sd e) →
      ∃ out, SaveObjects cfg sd objs acc = some (acc ++ out) ∧ out.length = objs.length ∧
        ∀ (k : Nat) (e : SceneObject), objs[k]? = some e →
          ∃ js_obj, out[k]? = some (JsElement.obj js_obj) ∧
            JsObject.keys js_obj = maskKeys cfg e := by
  intro objs
  induction objs with
  | nil =>
    intro acc _
    exact ⟨[], by simp [SaveObjects], rfl, by intro k e hk; simp at hk⟩
  | cons obj rest ih =>
    intro acc hwf
    obtain ⟨js_obj, hjs, hkeys⟩ := SaveSlots_ok hd (hwf obj (List.mem_cons_self _ _))
      MAX_COMPONENT_TYPES 0 [] (by omega) (by intro key hkey; simp [JsObject.keys] at hkey)
    obtain ⟨out, hout, hlen, hall⟩ := ih (acc ++ [JsElement.obj js_obj])
      (fun e he => hwf e (List.mem_cons_of_mem _ he))
    refine ⟨JsElement.obj js_obj :: out, ?_, by simp [hlen], ?_⟩
    · simp only [SaveObjects, hjs, hout]
      simp
    · intro k e hk
      cases k with
      | zero =>
        simp only [List.getElem?_cons_zero, Option.some.injEq] at hk
        subst hk
        refine ⟨js_obj, by simp, ?_⟩
        rw [hkeys]
        simp [maskKeys, JsObject.keys, List.range_eq_range']
      | succ k =>
        simp only [List.getElem?_cons_succ] at hk ⊢
        exact hall k e hk

end Saving

section Claims

variable {Ext : Type}

/-- C8. In a registry with pairwise distinct declared names, on a manager in
which every set mask bit has a registered storage and a live component,
`SaveScene` returns a document whose member `objects` is an array with exactly
one node per entity, in store order, and the keys of the node of an entity are
exactly the declared names of the storages of the set bits of its mask, one
per set bit, in ascending slot order. -/
theorem saveScene_writes_mask_keys_in_slot_order (cfg : Config Ext) (hd : NamesDistinct cfg)
    (sm : SceneManager Ext) (js_scene : JsObject)
    (hwf : ∀ e ∈ sm.scene_data_.objects.toList, EntityOk cfg sm.scene_data_ e) :
    ∃ out js_objects,
      SaveScene cfg sm js_scene = some out ∧
      JsObject.at_ out "objects" = some (JsElement.arr js_objects) ∧
      js_objects.length = sm.scene_data_.objects.toList.length ∧
      ∀ (k : Nat) (e : SceneObject), sm.scene_data_.objects.toList[k]? = some e →
        ∃ js_obj, js_objects[k]? = some (JsElement.obj js_obj) ∧
          JsObject.keys js_obj =
            ((List.range MAX_COMPONENT_TYPES).filter fun i => e.comp_mask.testBit i).map
              (slotName cfg) := by
  obtain ⟨js_objects, hout, hlen, hall⟩ :=
    SaveObjects_ok hd sm.scene_data_.objects.toList [] hwf
  refine ⟨JsObject.Push
      (JsObject.Push (JsObject.Push js_scene "name" (.str sm.scene_data_.name))
        "environment" (.obj (SaveEnvironment sm.scene_data_.env)))
      "objects" (.arr js_objects), js_objects, ?_, ?_, hlen, hall⟩
  · unfold SaveScene
    simp only [hout, List.nil_append]
  · rw [at_Push]
    simp

end Claims

section Claims

variable {Ext : Type}

/-- C7, amended. After a successful `LoadScene` in which every entity has the
Transform bit set, for every entity the local box of its Transform
(`bbox_min`, `bbox_max`) is the union, componentwise minimum and maximum, of
the initial inverted box (`+FLT_MAX`, `-FLT_MAX`) and the boxes contributed by
the post-load hooks of the members of its node, each hook run in the order of
the keys of the node and in the state the hooks before it have left; the world
box (`bbox_min_ws`, `bbox_max_ws`) is what `UpdateBBox` derives from that local
box and the matrix of the Transform. -/
theorem loadScene_transform_local_bbox_is_union (cfg : Config Ext)
    (contrib : Nat → JsObject → Comp → Ext → Option BBox) (hu : HooksUnite cfg contrib)
    (sm sm1 : SceneManager Ext) (js_scene : JsObject)
    (h : LoadScene cfg sm js_scene = .ok sm1)
    (hT : ∀ e ∈ sm1.scene_data_.objects.toList, e.comp_mask.testBit CompTransform = true)
    (k : Nat) (e : SceneObject) (he : sm1.scene_data_.objects.toList[k]? = some e) :
    ∃ sk js_obj tr,
      LoadPrefix cfg sm js_scene k = .ok sk ∧
      (sceneObjects js_scene)[k]? = some (JsElement.obj js_obj) ∧
      CompAt sm1 CompTransform (e.components CompTransform) = some tr ∧
      BBox.mk tr.bbox_min tr.bbox_max =
        (hookBoxes cfg contrib js_obj
          (LoadState.start cfg sk)).foldl
          BBox.union BBox.initial ∧
      tr.bbox_min_ws = (Comp.UpdateBBox tr).bbox_min_ws ∧
      tr.bbox_max_ws = (Comp.UpdateBBox tr).bbox_max_ws := by
  obtain ⟨s2, s3, nodes, s5, h2, h3, hn, h5, hs3, _, _, hss⟩ := LoadScene_ok h
  have hso := sceneObjects_eq hn
  have hk : k < nodes.length := by
    rw [← hso, ← (LoadScene_entity_count h).2]
    exact lt_of_getElem?_eq_some he
  obtain ⟨sk, sk1, js_obj, L, a1, a2, a3, a4, a5, _, _, a8⟩ := LoadObjects_at hs3 h5 k hk
  rw [hss.objects, a8] at he
  cases he
  obtain ⟨js_obj2, L2, tr, hnode, hL2, _, htr, hcomp, _⟩ := LoadObject_ok a2
  rw [a4] at hnode
  cases hnode
  rw [a5] at hL2
  cases hL2
  have hs0 : s3.scene_data_.objects.slots = ([] : List SceneObject).map some := by
    simpa using hs3
  obtain ⟨⟨ek, hlen, hek⟩, _⟩ := LoadObjects_frame _ s3 sk [] hs0 a1
  simp only [List.nil_append] at hek
  have hlenk : ek.length = k := by
    rw [hlen, List.length_take]; omega
  obtain ⟨e0, he0⟩ := LoadObject_objects hek a2
  have hlive1 : CompAt sk1 CompTransform (L.obj.components CompTransform) =
      some (Comp.UpdateBBox
        { tr with bbox_min := L.obj_bbox.bmin, bbox_max := L.obj_bbox.bmax }) := by
    rw [hcomp]
    simp
  have hfinal := LoadObjects_keep_content _ sk1 s5 _ he0 a3 (by
    intro k2 e2 hk2 _
    exact hT e2 (by
      rw [hss.objects]
      exact List.getElem?_mem hk2)) _ _ _ hlive1
  have hbox : L.obj_bbox =
      (hookBoxes cfg contrib js_obj (LoadState.start cfg sk)).foldl BBox.union BBox.initial :=
    LoadKeys_bbox hu js_obj _ L a5
  refine ⟨sk, js_obj, Comp.UpdateBBox
    { tr with bbox_min := L.obj_bbox.bmin, bbox_max := L.obj_bbox.bmax }, ?_, ?_, ?_, ?_,
    rfl, rfl⟩
  · rw [LoadPrefix_eq h2 h3 hn]; exact a1
  · rw [hso, List.getElem?_eq_getElem hk]
    exact congrArg some a4
  · show CompAt sm1 CompTransform (L.obj.components CompTransform) = _
    unfold CompAt at hfinal ⊢
    rw [hss.comp_store]
    exact hfinal
  · show BBox.mk L.obj_bbox.bmin L.obj_bbox.bmax = _
    rw [← hbox]

end Claims

/-! ## The concrete manager -/

/-- The nine declared names of the concrete manager are pairwise distinct. -/
theorem stdConfig_namesDistinct (g : Nat → Nat → Nat) : NamesDistinct (stdConfig g) := by
  intro i j si sj _ _ h1 h2 h3
  simp only [stdConfig, stdStore, stdName, Option.map_eq_some'] at h1 h2
  obtain ⟨n1, hn1, rfl⟩ := h1
  obtain ⟨n2, hn2, rfl⟩ := h2
  simp only at h3
  subst h3
  have hnd : stdNames.Nodup := by decide
  have hi := lt_of_getElem?_eq_some hn1
  have hj := lt_of_getElem?_eq_some hn2
  rw [List.getElem?_eq_getElem hi] at hn1
  rw [List.getElem?_eq_getElem hj] at hn2
  exact (List.Nodup.getElem_inj_iff hnd).1 (by rw [Option.some.inj hn1, Option.some.inj hn2])

/-- Instance of C1: the example scene loaded into a new manager, first entity. -/
theorem loadScene_mask_bit_iff_own_live_component_witness :
    LoadScene (stdConfig fun _ _ => 0) freshManager exampleScene = .ok exampleLoaded ∧
    exampleLoaded.scene_data_.objects.toList[0]? = some exampleEntity ∧
    ∃ sk sk1, LoadPrefix (stdConfig fun _ _ => 0) freshManager exampleScene 0 = .ok sk ∧
      LoadPrefix (stdConfig fun _ _ => 0) freshManager exampleScene (0 + 1) = .ok sk1 ∧
      ∀ i, i < MAX_COMPONENT_TYPES →
        (exampleEntity.comp_mask.testBit i = true ↔
          (Registered (stdConfig fun _ _ => 0) i ∧
            CompAt sk i (exampleEntity.components i) = none ∧
            (CompAt sk1 i (exampleEntity.components i)).isSome = true ∧
            (CompAt exampleLoaded i (exampleEntity.components i)).isSome = true)) :=
  ⟨rfl, rfl,
    loadScene_mask_bit_iff_own_live_component (stdConfig fun _ _ => 0) freshManager exampleLoaded
      exampleScene rfl 0 exampleEntity rfl⟩

/-- Instance of C2: the node with a name, a Transform and a Drawable of the
example scene yields the mask with exactly the Transform and Drawable bits. -/
theorem loadScene_mask_bit_iff_named_member_witness :
    NamesDistinct (stdConfig fun _ _ => 0) ∧
    LoadScene (stdConfig fun _ _ => 0) freshManager exampleScene = .ok exampleLoaded ∧
    exampleLoaded.scene_data_.objects.toList[0]? = some exampleEntity ∧
    (∃ js_obj, (sceneObjects exampleScene)[0]? = some (JsElement.obj js_obj) ∧
      ∀ i, i < MAX_COMPONENT_TYPES →
        (exampleEntity.comp_mask.testBit i = true ↔
          ∃ st, (stdConfig fun _ _ => 0).comp_store i = some st ∧ HasObjectKey js_obj st.name)) ∧
    exampleEntity.comp_mask = 2 ^ CompTransform + 2 ^ CompDrawable :=
  ⟨stdConfig_namesDistinct _, rfl, rfl,
    (loadScene_mask_bit_iff_named_member (stdConfig fun _ _ => 0)
      (stdConfig_namesDistinct _)).2.1 freshManager exampleLoaded exampleScene rfl 0
      exampleEntity rfl,
    rfl⟩

/-- Instance of C3: a document without a name loaded into the manager that holds
the example scene. -/
theorem loadScene_without_name_throws_witness :
    JsObject.Has [("objects", JsElement.arr [])] "name" = false ∧
    exampleLoaded.scene_data_.objects.size = 1 ∧
    ∃ s, LoadScene (stdConfig fun _ _ => 0) exampleLoaded [("objects", JsElement.arr [])] =
        .thrown "Level has no name!" s ∧
      s.scene_data_.objects.size = 0 ∧
      s.scene_data_.objects.toList = [] ∧
      (∀ key, s.scene_data_.name_to_object key = none) ∧
      s.scene_data_.name = "" :=
  ⟨rfl, rfl,
    loadScene_without_name_throws (stdConfig fun _ _ => 0) exampleLoaded
      [("objects", JsElement.arr [])] rfl⟩

/-- Instance of C4: the example scene loaded into a new manager. -/
theorem loadScene_entities_in_document_order_witness :
    LoadScene (stdConfig fun _ _ => 0) freshManager exampleScene = .ok exampleLoaded ∧
    exampleLoaded.scene_data_.objects.size = (sceneObjects exampleScene).length ∧
    exampleLoaded.scene_data_.objects.toList.length = (sceneObjects exampleScene).length ∧
    ∀ k, k < (sceneObjects exampleScene).length →
      ∃ sk js_obj L,
        (sceneObjects exampleScene)[k]? = some (JsElement.obj js_obj) ∧
        LoadPrefix (stdConfig fun _ _ => 0) freshManager exampleScene k = .ok sk ∧
        LoadKeys (stdConfig fun _ _ => 0) js_obj
          (LoadState.start (stdConfig fun _ _ => 0) sk) = .ok L ∧
        exampleLoaded.scene_data_.objects.toList[k]? =
          some { L.obj with name := (entityName js_obj).getD "" } :=
  ⟨rfl,
    loadScene_entities_in_document_order (stdConfig fun _ _ => 0) freshManager exampleLoaded
      exampleScene rfl⟩

/-- Instance of C5: the name `a` in the example scene. -/
theorem loadScene_name_index_last_wins_witness :
    LoadScene (stdConfig fun _ _ => 0) freshManager exampleScene = .ok exampleLoaded ∧
    (sceneObjects exampleScene).length ≤ 4294967296 ∧
    (∀ (k : Nat) (node : JsElement), (sceneObjects exampleScene)[k]? = some node →
      Declares node "a" →
      (∀ (k2 : Nat) (node2 : JsElement), k < k2 →
        (sceneObjects exampleScene)[k2]? = some node2 → ¬ Declares node2 "a") →
      exampleLoaded.scene_data_.name_to_object "a" = some k ∧
      ∃ e, exampleLoaded.scene_data_.objects.toList[k]? = some e ∧ e.name = "a") ∧
    ((∀ (k : Nat) (node : JsElement), (sceneObjects exampleScene)[k]? = some node →
      ¬ Declares node "a") →
      exampleLoaded.scene_data_.name_to_object "a" = none) :=
  ⟨rfl, by decide,
    loadScene_name_index_last_wins (stdConfig fun _ _ => 0) freshManager exampleLoaded
      exampleScene rfl (by decide) "a"⟩

/-- Instance of C8: the loaded example scene is saved into an empty document. -/
theorem saveScene_writes_mask_keys_in_slot_order_witness :
    NamesDistinct (stdConfig fun _ _ => 0) ∧
    (∀ e ∈ exampleLoaded.scene_data_.objects.toList,
      EntityOk (stdConfig fun _ _ => 0) exampleLoaded.scene_data_ e) ∧
    ∃ out js_objects,
      SaveScene (stdConfig fun _ _ => 0) exampleLoaded [] = some out ∧
      JsObject.at_ out "objects" = some (JsElement.arr js_objects) ∧
      js_objects.length = exampleLoaded.scene_data_.objects.toList.length ∧
      ∀ (k : Nat) (e : SceneObject), exampleLoaded.scene_data_.objects.toList[k]? = some e →
        ∃ js_obj, js_objects[k]? = some (JsElement.obj js_obj) ∧
          JsObject.keys js_obj =
            ((List.range MAX_COMPONENT_TYPES).filter fun i => e.comp_mask.testBit i).map
              (slotName (stdConfig fun _ _ => 0)) :=
  ⟨stdConfig_namesDistinct _,
    @LoadScene_entityOk _ (stdConfig fun _ _ => 0) freshManager exampleLoaded exampleScene rfl,
    saveScene_writes_mask_keys_in_slot_order (stdConfig fun _ _ => 0)
      (stdConfig_namesDistinct _) exampleLoaded []
      (@LoadScene_entityOk _ (stdConfig fun _ _ => 0) freshManager exampleLoaded exampleScene rfl)⟩

/-- The hooks of the concrete manager unite the boxes of `stdContrib`. -/
theorem stdConfig_hooksUnite (g : Nat → Nat → Nat) : HooksUnite (stdConfig g) stdContrib := by
  intro i post js c bb ext c1 bb1 ext1 hpost hres
  simp only [stdConfig, stdHook] at hpost
  unfold stdContrib
  split at hpost
  · rename_i h1
    cases hpost
    cases hres
    simp [h1, BBox.unionOpt]
  · rename_i h1
    split at hpost
    · rename_i h2
      cases hpost
      cases hres
      simp [h1, h2, BBox.unionOpt]
    · rename_i h2
      split at hpost
      · cases hpost
        cases hres
        simp [h1, h2, BBox.unionOpt]
      · cases hpost

/-- Instance of the amended C7: the scene with a translated Transform. -/
theorem loadScene_transform_local_bbox_is_union_witness :
    HooksUnite (stdConfig fun _ _ => 0) stdContrib ∧
    LoadScene (stdConfig fun _ _ => 0) freshManager sceneMoved = .ok loadedMoved ∧
    (∀ e ∈ loadedMoved.scene_data_.objects.toList, e.comp_mask.testBit CompTransform = true) ∧
    loadedMoved.scene_data_.objects.toList[0]? = some movedEntity ∧
    ∃ sk js_obj tr,
      LoadPrefix (stdConfig fun _ _ => 0) freshManager sceneMoved 0 = .ok sk ∧
      (sceneObjects sceneMoved)[0]? = some (JsElement.obj js_obj) ∧
      CompAt loadedMoved CompTransform (movedEntity.components CompTransform) = some tr ∧
      BBox.mk tr.bbox_min tr.bbox_max =
        (hookBoxes (stdConfig fun _ _ => 0) stdContrib js_obj
          (LoadState.start (stdConfig fun _ _ => 0) sk)).foldl BBox.union BBox.initial ∧
      tr.bbox_min_ws = (Comp.UpdateBBox tr).bbox_min_ws ∧
      tr.bbox_max_ws = (Comp.UpdateBBox tr).bbox_max_ws :=
  ⟨stdConfig_hooksUnite _, rfl, by decide, rfl,
    loadScene_transform_local_bbox_is_union (stdConfig fun _ _ => 0) stdContrib
      (stdConfig_hooksUnite _) freshManager loadedMoved sceneMoved rfl (by decide) 0
      movedEntity rfl⟩

/-- C6 fails on the code. A node without a Transform member: in a new manager
the lookup of line 354 returns null whatever the never-assigned index holds,
and the write through it is undefined behaviour. When the never-assigned index
reads as 0 and an earlier entity owns Transform 0, the load completes, the
second entity has no Transform bit, and the box of the first entity's
Transform has been overwritten with the light box of the second. -/
theorem loadScene_node_without_transform :
    (∀ g : Nat → Nat → Nat,
      LoadScene (stdConfig g) freshManager sceneWithoutTransform = .crash) ∧
    LoadScene (stdConfig fun _ _ => 0) freshManager sceneSecondWithoutTransform =
      .ok loadedSecondWithoutTransform ∧
    loadedSecondWithoutTransform.scene_data_.objects.toList.map (fun e => e.comp_mask) =
      [2 ^ CompTransform + 2 ^ CompDrawable, 2 ^ CompLightSource] ∧
    loadedSecondWithoutTransform.scene_data_.objects.toList.map
      (fun e => e.comp_mask.testBit CompTransform) = [true, false] ∧
    loadedSecondWithoutTransform.scene_data_.objects.toList.map
      (fun e => e.components CompTransform) = [0, 0] ∧
    (CompAt loadedSecondWithoutTransform CompTransform 0).map
      (fun c => BBox.mk c.bbox_min c.bbox_max) = some stdLightBox :=
  ⟨fun _ => rfl, rfl, by decide, by decide, by decide, by decide⟩

/-- C9 fails on the code. The example scene of the spec is loaded, saved and
loaded again: the saved node has the keys `Transform` and `Drawable` but not the
key `name` of its source node, and the name `a`, indexed after the first load,
is absent from the index after the second. -/
theorem saveScene_then_loadScene_loses_entity_name :
    LoadScene (stdConfig fun _ _ => 0) freshManager exampleScene = .ok exampleLoaded ∧
    SaveScene (stdConfig fun _ _ => 0) exampleLoaded [] = some exampleSaved ∧
    LoadScene (stdConfig fun _ _ => 0) freshManager exampleSaved = .ok exampleReloaded ∧
    nodeKeys exampleScene = [["name", "Transform", "Drawable"]] ∧
    nodeKeys exampleSaved = [["Transform", "Drawable"]] ∧
    exampleLoaded.scene_data_.objects.toList.map (fun e => e.name) = ["a"] ∧
    exampleReloaded.scene_data_.objects.toList.map (fun e => e.name) = [""] ∧
    exampleLoaded.scene_data_.name_to_object "a" = some 0 ∧
    exampleReloaded.scene_data_.name_to_object "a" = none ∧
    exampleReloaded.scene_data_.objects.toList.map (fun e => e.comp_mask) =
      exampleLoaded.scene_data_.objects.toList.map (fun e => e.comp_mask) :=
  ⟨rfl, rfl, rfl, by decide, by decide, by decide, by decide, rfl, rfl, by decide⟩

/-- C10 fails on the code. The same document, whose `environment` node sets the
sun colour only, is loaded into a new manager and into a manager that has
loaded `sceneWithSun` before: the sun colour agrees, but sun direction, sun
softness and the path-tracing environment map name are those of the scene
loaded before. -/
theorem loadScene_partial_environment_keeps_old_fields :
    LoadScene (stdConfig fun _ _ => 0) freshManager sceneSunColOnly = .ok sunColOnlyFromFresh ∧
    LoadScene (stdConfig fun _ _ => 0) managerAfterSun sceneSunColOnly = .ok sunColOnlyAfterSun ∧
    sunColOnlyFromFresh.scene_data_.env.sun_col = ⟨1, 2, 3⟩ ∧
    sunColOnlyAfterSun.scene_data_.env.sun_col = ⟨1, 2, 3⟩ ∧
    sunColOnlyFromFresh.scene_data_.env.sun_softness = 0 ∧
    sunColOnlyAfterSun.scene_data_.env.sun_softness = 5 ∧
    sunColOnlyFromFresh.scene_data_.env.sun_dir = ⟨0, 0, 0⟩ ∧
    sunColOnlyAfterSun.scene_data_.env.sun_dir = ⟨0, -1, 0⟩ ∧
    sunColOnlyFromFresh.scene_data_.env.env_map_name_pt = "" ∧
    sunColOnlyAfterSun.scene_data_.env.env_map_name_pt = "old" :=
  ⟨rfl, rfl, by decide, by decide, by decide, by decide, by decide, by decide, by decide,
    by decide⟩

/-! ## Resource cache -/

theorem SparseArray.mem_entries {T : Type} (a : SparseArray T) (i : Nat) (v : T) :
    (i, v) ∈ a.entries ↔ a.GetOrNull i = some v := by
  unfold SparseArray.entries SparseArray.GetOrNull
  rw [List.mem_filterMap]
  constructor
  · rintro ⟨⟨j, o⟩, hmem, hq⟩
    rw [List.mk_mem_enum_iff_getElem?] at hmem
    cases o with
    | none => simp at hq
    | some w =>
      simp at hq
      rcases hq with ⟨rfl, rfl⟩
      rw [hmem]; rfl
  · intro h
    refine ⟨(i, some v), ?_, by simp⟩
    rw [List.mk_mem_enum_iff_getElem?]
    cases hx : a.slots[i]? with
    | none => rw [hx] at h; simp at h
    | some o =>
      rw [hx] at h
      cases o with
      | none => simp at h
      | some w => simp at h; rw [h]

theorem Storage.FindByName_some {s : Storage} {name : String} {i : Nat} {r : Resource}
    (h : s.FindByName name = some (i, r)) : s.GetOrNull i = some r ∧ r.name = name := by
  unfold Storage.FindByName at h
  refine ⟨(SparseArray.mem_entries s i r).1 (List.mem_of_find?_eq_some h), ?_⟩
  simpa using List.find?_some h

theorem Storage.FindByName_none {s : Storage} {name : String}
    (h : s.FindByName name = none) (i : Nat) (r : Resource) (hr : s.GetOrNull i = some r) :
    r.name ≠ name := by
  unfold Storage.FindByName at h
  have := List.find?_eq_none.1 h (i, r) ((SparseArray.mem_entries s i r).2 hr)
  simpa using this

theorem CacheStep.noDup {s t : Storage} (h : CacheStep s t) (hs : s.NoDupNames) :
    t.NoDupNames := by
  cases h with
  | same => exact hs
  | init i r q hr hq =>
    intro a b ra rb ha hb hn
    rw [SparseArray.GetOrNull_write_live hr] at ha hb
    by_cases h1 : a = i <;> by_cases h2 : b = i
    · rw [h1, h2]
    · simp only [h1, h2, if_true, if_false] at ha hb
      cases ha
      rw [h1]
      exact hs i b r rb hr hb (hq ▸ hn)
    · simp only [h1, h2, if_true, if_false] at ha hb
      cases hb
      rw [h2]
      exact hs a i ra r ha hr (hn.trans hq)
    · simp only [h1, h2, if_false] at ha hb
      exact hs a b ra rb ha hb hn
  | add q hq =>
    intro a b ra rb ha hb hn
    rw [SparseArray.GetOrNull_emplace] at ha hb
    by_cases h1 : a = s.nextIndex <;> by_cases h2 : b = s.nextIndex
    · rw [h1, h2]
    · simp only [h1, h2, if_true, if_false] at ha hb
      cases ha
      exact absurd hn.symm (hq b rb hb)
    · simp only [h1, h2, if_true, if_false] at ha hb
      cases hb
      exact absurd hn (hq a ra ha)
    · simp only [h1, h2, if_false] at ha hb
      exact hs a b ra rb ha hb hn

theorem Resource.Init_name (r : Resource) (d : Option Data) : (r.Init d).name = r.name := by
  cases d <;> rfl

theorem Resource.create_name (n : String) (d : Option Data) : (Resource.create n d).name = n := by
  cases d <;> rfl

theorem CacheStep.of_add {s : Storage} {name : String} (d : Option Data)
    (h : s.FindByName name = none) : CacheStep s (s.Add name d).1 := by
  unfold Storage.Add
  refine CacheStep.add _ ?_
  intro i r hr
  rw [Resource.create_name]
  exact Storage.FindByName_none h i r hr

theorem CacheStep.of_init {s : Storage} {name : String} {i : Nat} {r : Resource}
    (d : Option Data) (h : s.FindByName name = some (i, r)) :
    CacheStep s (s.write i (r.Init d)) :=
  CacheStep.init i r _ (Storage.FindByName_some h).1 (Resource.Init_name r d)

/-- Every call changes each cache that is looked up by name by one `CacheStep`. -/
theorem Context.call_steps (ctx : Context) (c : CtxCall) :
    CacheStep ctx.meshes_ (ctx.call c).meshes_ ∧
    CacheStep ctx.materials_ (ctx.call c).materials_ ∧
    CacheStep ctx.textures_ (ctx.call c).textures_ ∧
    CacheStep ctx.texture_regions_ (ctx.call c).texture_regions_ ∧
    CacheStep ctx.anims_ (ctx.call c).anims_ := by
  cases c with
  | LoadMesh n d p =>
    refine ⟨?_, ?_, ?_, ?_, ?_⟩ <;> simp only [Context.call, Context.LoadMesh] <;>
      (split
       · first | exact CacheStep.same | exact CacheStep.of_add d ‹_›
       · split
         · exact CacheStep.same
         · split
           · first | exact CacheStep.same | exact CacheStep.of_init _ ‹_›
           · exact CacheStep.same)
  | LoadMaterial n d p =>
    refine ⟨?_, ?_, ?_, ?_, ?_⟩ <;> simp only [Context.call, Context.LoadMaterial] <;>
      (split
       · first | exact CacheStep.same | exact CacheStep.of_add d ‹_›
       · split
         · exact CacheStep.same
         · split
           · split
             · first | exact CacheStep.same | exact CacheStep.of_init _ ‹_›
             · exact CacheStep.same
           · exact CacheStep.same)
  | LoadTexture2D n d p =>
    refine ⟨?_, ?_, ?_, ?_, ?_⟩ <;> simp only [Context.call, Context.LoadTexture2D] <;>
      (split
       · first | exact CacheStep.same | exact CacheStep.of_add d ‹_›
       · split
         · split
           · first | exact CacheStep.same | exact CacheStep.of_init _ ‹_›
           · exact CacheStep.same
         · exact CacheStep.same)
  | LoadTextureCube n d p =>
    refine ⟨?_, ?_, ?_, ?_, ?_⟩ <;> simp only [Context.call, Context.LoadTextureCube] <;>
      (split
       · first | exact CacheStep.same | exact CacheStep.of_add d ‹_›
       · split
         · exact CacheStep.same
         · split
           · first | exact CacheStep.same | exact CacheStep.of_init _ ‹_›
           · exact CacheStep.same)
  | LoadTextureRegion n d p =>
    refine ⟨?_, ?_, ?_, ?_, ?_⟩ <;> simp only [Context.call, Context.LoadTextureRegion] <;>
      (split
       · first | exact CacheStep.same | exact CacheStep.of_add d ‹_›
       · split
         · exact CacheStep.same
         · first | exact CacheStep.same | exact CacheStep.of_init _ ‹_›)
  | LoadAnimSequence n d =>
    refine ⟨?_, ?_, ?_, ?_, ?_⟩ <;> simp only [Context.call, Context.LoadAnimSequence] <;>
      (split
       · first | exact CacheStep.same | exact CacheStep.of_add d ‹_›
       · split
         · exact CacheStep.same
         · split
           · split
             · first | exact CacheStep.same | exact CacheStep.of_init _ ‹_›
             · exact CacheStep.same
           · exact CacheStep.same)
  | CreateBuffer n sz =>
    refine ⟨?_, ?_, ?_, ?_, ?_⟩ <;> exact CacheStep.same

theorem Context.NamesApart_call {ctx : Context} (h : ctx.NamesApart) (c : CtxCall) :
    (ctx.call c).NamesApart := by
  obtain ⟨s1, s2, s3, s4, s5⟩ := Context.call_steps ctx c
  exact ⟨s1.noDup h.1, s2.noDup h.2.1, s3.noDup h.2.2.1, s4.noDup h.2.2.2.1,
    s5.noDup h.2.2.2.2⟩

theorem Context.NamesApart_calls (cs : List CtxCall) {ctx : Context} (h : ctx.NamesApart) :
    (ctx.calls cs).NamesApart := by
  induction cs generalizing ctx with
  | nil => exact h
  | cons c cs ih => exact ih (Context.NamesApart_call h c)

theorem SparseArray.GetOrNull_clear {T : Type} (i : Nat) :
    (SparseArray.clear : SparseArray T).GetOrNull i = none := by
  simp [SparseArray.clear, SparseArray.GetOrNull]

theorem Context.NamesApart_empty : Context.empty.NamesApart := by
  refine ⟨?_, ?_, ?_, ?_, ?_⟩ <;> intro i j ri rj hi <;>
    simp [Context.empty, SparseArray.GetOrNull_clear] at hi

theorem SparseArray.size_write_live {T : Type} {a : SparseArray T} {i : Nat} {c : T}
    (h : a.GetOrNull i = some c) (v : T) : (a.write i v).size = a.size := by
  unfold SparseArray.GetOrNull at h
  unfold SparseArray.write SparseArray.size
  obtain ⟨l⟩ := a
  simp only at h ⊢
  induction l generalizing i with
  | nil => rfl
  | cons x xs ih =>
    cases i with
    | zero =>
      simp at h
      subst h
      simp [List.countP_cons]
    | succ n =>
      simp only [List.getElem?_cons_succ] at h
      simp only [List.set_cons_succ, List.countP_cons]
      rw [ih h]

theorem Storage.FindByName_emplace_new {s : Storage} {n : String} (q : Resource)
    (h : s.FindByName n = none) (hq : q.name = n) :
    Storage.FindByName (s.emplace q).1 n = some (s.nextIndex, q) := by
  have hself : (s.emplace q).1.GetOrNull s.nextIndex = some q := by
    simpa [SparseArray.emplace] using SparseArray.GetOrNull_emplace_self s q
  cases hf : Storage.FindByName (s.emplace q).1 n with
  | none => exact absurd hq (Storage.FindByName_none hf _ _ hself)
  | some p =>
    obtain ⟨j, r⟩ := p
    obtain ⟨hj, hn⟩ := Storage.FindByName_some hf
    rw [SparseArray.GetOrNull_emplace] at hj
    by_cases hji : j = s.nextIndex
    · simp only [hji, if_true] at hj
      cases hj
      rw [hji]
    · simp only [hji, if_false] at hj
      exact absurd hn (Storage.FindByName_none h j r hj)

theorem Context.load_found_ready (k : LoadKind) (ctx : Context) (name : String)
    (data : Option Data) (ptr : Bool) (i : Nat) (r : Resource)
    (h : (k.cache ctx).FindByName name = some (i, r)) (hr : r.ready = true) :
    ctx.load k name data ptr = (i, writeStatus ptr k.Found, ctx) := by
  cases k <;> simp only [LoadKind.cache] at h <;>
    simp only [Context.load, Context.LoadMesh, Context.LoadMaterial, Context.LoadTexture2D,
      Context.LoadTextureCube, h, hr, LoadKind.Found] <;>
    cases data <;> cases ptr <;> simp [writeStatus]

theorem Context.load_init_in_place (k : LoadKind) (ctx : Context) (name : String)
    (d : Data) (ptr : Bool) (i : Nat) (r : Resource)
    (h : (k.cache ctx).FindByName name = some (i, r)) (hr : r.ready = false) :
    (ctx.load k name (some d) ptr).1 = i ∧
    k.cache (ctx.load k name (some d) ptr).2.2 = (k.cache ctx).write i (r.Init (some d)) := by
  cases k <;> simp only [LoadKind.cache] at h <;>
    simp [Context.load, Context.LoadMesh, Context.LoadMaterial, Context.LoadTexture2D,
      Context.LoadTextureCube, h, hr, LoadKind.cache]

theorem Context.load_null_existing (k : LoadKind) (ctx : Context) (name : String)
    (ptr : Bool) (i : Nat) (r : Resource)
    (h : (k.cache ctx).FindByName name = some (i, r)) :
    (ctx.load k name none ptr).1 = i ∧ (ctx.load k name none ptr).2.2 = ctx := by
  cases k <;> simp only [LoadKind.cache] at h <;>
    simp only [Context.load, Context.LoadMesh, Context.LoadMaterial, Context.LoadTexture2D,
      Context.LoadTextureCube, h] <;>
    cases r.ready <;> simp

theorem Context.load_null_new (k : LoadKind) (ctx : Context) (name : String)
    (ptr : Bool) (h : (k.cache ctx).FindByName name = none) :
    (ctx.load k name none ptr).1 = (k.cache ctx).nextIndex ∧
    (k.cache (ctx.load k name none ptr).2.2).FindByName name =
      some ((k.cache ctx).nextIndex, Resource.create name none) := by
  have key := Storage.FindByName_emplace_new (Resource.create name none) h
    (Resource.create_name name none)
  cases k <;> simp only [LoadKind.cache] at h key <;>
    simp only [Context.load, Context.LoadMesh, Context.LoadMaterial, Context.LoadTexture2D,
      Context.LoadTextureCube, h, Storage.Add, LoadKind.cache] <;>
    exact ⟨rfl, key⟩

/-! ## Claims C11 to C13: the resource cache -/

/-- C11 (counterexample): two calls of `CreateBuffer` with the name "vertices",
starting from empty caches, leave two live entries of that name in the buffer
cache, so the buffer cache does not hold at most one entry per name. -/
theorem createBuffer_twice_gives_two_entries_of_one_name :
    ¬ (Context.empty.calls
        [CtxCall.CreateBuffer "vertices" 16, CtxCall.CreateBuffer "vertices" 16]).buffers_.NoDupNames := by
  intro h
  have h01 := h 0 1
    { name := "vertices", ready := true, init_calls := 0, payload := some [16] }
    { name := "vertices", ready := true, init_calls := 0, payload := some [16] } rfl rfl rfl
  exact absurd h01 (by decide)

/-- C11 (amended): starting from empty caches, after any sequence of LoadMesh,
LoadMaterial, LoadTexture2D, LoadTextureCube, LoadTextureRegion, LoadAnimSequence
and CreateBuffer calls, no two live entries of the mesh cache have the same name,
and likewise for the material, texture, texture region and animation sequence
caches (the caches that are looked up by name). -/
theorem context_named_caches_hold_one_entry_per_name (cs : List CtxCall) :
    (Context.empty.calls cs).NamesApart :=
  Context.NamesApart_calls cs Context.NamesApart_empty

/-- C12: for each of LoadMesh, LoadMaterial, LoadTexture2D and LoadTextureCube (kind
`k`) called with a name whose entry is `r` at index `i`: if `r` is ready the call
returns `i`, leaves the whole context as it was (so `Init` is not invoked, with or
without data), and writes `Found` through a non-null status pointer; if `r` is not
ready and data `d` is supplied the call returns `i` and the cache is the old one
with the entry at `i` replaced by `r.Init d`, which counts one more `Init`; the
number of live entries is unchanged. -/
theorem load_existing_name_found_or_init_in_place (k : LoadKind) (ctx : Context)
    (name : String) (data : Option Data) (ptr : Bool) (i : Nat) (r : Resource)
    (h : (k.cache ctx).FindByName name = some (i, r)) :
    (r.ready = true →
      ctx.load k name data ptr = (i, (if ptr then some k.Found else none), ctx)) ∧
    (r.ready = false → ∀ d, data = some d →
      (ctx.load k name data ptr).1 = i ∧
      k.cache (ctx.load k name data ptr).2.2 = (k.cache ctx).write i (r.Init (some d)) ∧
      (r.Init (some d)).init_calls = r.init_calls + 1 ∧
      (k.cache (ctx.load k name data ptr).2.2).size = (k.cache ctx).size) := by
  refine ⟨fun hr => Context.load_found_ready k ctx name data ptr i r h hr, ?_⟩
  intro hr d hd
  subst hd
  obtain ⟨h1, h2⟩ := Context.load_init_in_place k ctx name d ptr i r h hr
  refine ⟨h1, h2, rfl, ?_⟩
  rw [h2]
  exact SparseArray.size_write_live (Storage.FindByName_some h).1 _

/-- C12 (witness): the ready mesh "m" is returned as it is by a `LoadMesh` that brings
data, and the mesh placeholder "m" is initialized in place by such a call. -/
theorem load_existing_name_found_or_init_in_place_witness :
    ((LoadKind.mesh.cache ctxWithMesh).FindByName "m"
        = some (0, Resource.create "m" (some [7])) ∧
      (Resource.create "m" (some [7])).ready = true ∧
      ctxWithMesh.load .mesh "m" (some [1, 2]) true
        = (0, some (LoadStatus.mesh .MeshFound), ctxWithMesh)) ∧
    ((LoadKind.mesh.cache ctxWithPlaceholder).FindByName "m"
        = some (0, Resource.create "m" none) ∧
      (Resource.create "m" none).ready = false ∧
      (ctxWithPlaceholder.load .mesh "m" (some [1, 2]) true).1 = 0 ∧
      LoadKind.mesh.cache (ctxWithPlaceholder.load .mesh "m" (some [1, 2]) true).2.2
        = (LoadKind.mesh.cache ctxWithPlaceholder).write 0
            ((Resource.create "m" none).Init (some [1, 2])) ∧
      ((Resource.create "m" none).Init (some [1, 2])).init_calls
        = (Resource.create "m" none).init_calls + 1 ∧
      (LoadKind.mesh.cache (ctxWithPlaceholder.load .mesh "m" (some [1, 2]) true).2.2).size
        = (LoadKind.mesh.cache ctxWithPlaceholder).size) :=
  ⟨⟨rfl, rfl,
      (load_existing_name_found_or_init_in_place .mesh ctxWithMesh "m" (some [1, 2]) true 0
        (Resource.create "m" (some [7])) rfl).1 rfl⟩,
    ⟨rfl, rfl,
      (load_existing_name_found_or_init_in_place .mesh ctxWithPlaceholder "m" (some [1, 2])
        true 0 (Resource.create "m" none) rfl).2 rfl [1, 2] rfl⟩⟩

/-- C13: for each of LoadMesh, LoadMaterial, LoadTexture2D and LoadTextureCube (kind
`k`), every context and every name `n`, two successive calls with null data
return the same index, the second call leaves the context as the first one left
it (the entry referred to is the identical one), and the number of live entries
of the cache after the second call equals the number after the first. -/
theorem load_twice_without_data_is_idempotent (k : LoadKind) (ctx : Context) (n : String)
    (ptr1 ptr2 : Bool) :
    ((ctx.load k n none ptr1).2.2.load k n none ptr2).1 = (ctx.load k n none ptr1).1 ∧
    ((ctx.load k n none ptr1).2.2.load k n none ptr2).2.2 = (ctx.load k n none ptr1).2.2 ∧
    (k.cache ((ctx.load k n none ptr1).2.2.load k n none ptr2).2.2).size
      = (k.cache (ctx.load k n none ptr1).2.2).size := by
  have key : ((ctx.load k n none ptr1).2.2.load k n none ptr2).1 = (ctx.load k n none ptr1).1 ∧
      ((ctx.load k n none ptr1).2.2.load k n none ptr2).2.2 = (ctx.load k n none ptr1).2.2 := by
    cases hf : (k.cache ctx).FindByName n with
    | none =>
      obtain ⟨h1, h2⟩ := Context.load_null_new k ctx n ptr1 hf
      obtain ⟨h3, h4⟩ := Context.load_null_existing k _ n ptr2 _ _ h2
      exact ⟨h3.trans h1.symm, h4⟩
    | some p =>
      obtain ⟨i, r⟩ := p
      obtain ⟨h1, h2⟩ := Context.load_null_existing k ctx n ptr1 i r hf
      rw [h2]
      obtain ⟨h3, h4⟩ := Context.load_null_existing k ctx n ptr2 i r hf
      exact ⟨h3.trans h1.symm, h4⟩
  exact ⟨key.1, key.2, by rw [key.2]⟩

/-! ## Claim C20: PostloadLightmap -/

/-- C20: `PostloadLightmap` throws if and only if `Allocate` of the lightmap splitter
returns -1, and then with the message "Cannot allocate lightmap region!";
otherwise it returns with the accumulator untouched, the allocated position
`pos` stored, and xform = (pos.x/2048, 1 - pos.y/1024, size.x/2048, -size.y/1024)
in exact arithmetic; then for all s, t in [0,1] the point
(xform.x + xform.z*s, xform.y + xform.w*t) lies in the unit square whenever the
rectangle lies inside the 2048 x 1024 canvas, t = 0 gives the v of the row
pos.y, and a larger t gives a smaller (or equal) v. -/
theorem postloadLightmap_throws_iff_allocate_fails_else_xform {S : Type}
    (Allocate : SplitterAllocate S) (lm : Lightmap) (obj_bbox : BBox) (sp : S) :
    ((PostloadLightmap Allocate lm obj_bbox sp).isOk = false ↔
      (Allocate sp lm.size lm.pos).1 = -1) ∧
    ((Allocate sp lm.size lm.pos).1 = -1 →
      ∃ st, PostloadLightmap Allocate lm obj_bbox sp
        = .thrown "Cannot allocate lightmap region!" st) ∧
    ((Allocate sp lm.size lm.pos).1 ≠ -1 →
      ∃ lm1, PostloadLightmap Allocate lm obj_bbox sp
          = .ok (lm1, obj_bbox, (Allocate sp lm.size lm.pos).2.2) ∧
        lm1.size = lm.size ∧ lm1.pos = (Allocate sp lm.size lm.pos).2.1 ∧
        lm1.xform = ((lm1.pos.1 : ℚ) / 2048, 1 - (lm1.pos.2 : ℚ) / 1024,
                     (lm1.size.1 : ℚ) / 2048, -(lm1.size.2 : ℚ) / 1024) ∧
        (0 ≤ lm1.pos.1 → 0 ≤ lm1.size.1 → lm1.pos.1 + lm1.size.1 ≤ 2048 →
          0 ≤ lm1.pos.2 → 0 ≤ lm1.size.2 → lm1.pos.2 + lm1.size.2 ≤ 1024 →
          ∀ s t : ℚ, 0 ≤ s → s ≤ 1 → 0 ≤ t → t ≤ 1 →
            (0 ≤ lm1.u s ∧ lm1.u s ≤ 1) ∧ (0 ≤ lm1.v t ∧ lm1.v t ≤ 1)) ∧
        lm1.v 0 = 1 - (lm1.pos.2 : ℚ) / 1024 ∧
        (0 ≤ lm1.size.2 → ∀ t1 t2 : ℚ, t1 ≤ t2 → lm1.v t2 ≤ lm1.v t1)) := by
  unfold PostloadLightmap
  rcases hA : Allocate sp lm.size lm.pos with ⟨node_id, pos, sp1⟩
  simp only
  by_cases hn : node_id = -1
  · simp [hn, Outcome.isOk]
  · simp only [if_neg hn]
    refine ⟨by simp [Outcome.isOk, hn], fun h => absurd h hn, fun _ => ?_⟩
    refine ⟨_, rfl, rfl, rfl, ?_, ?_, ?_, ?_⟩
    · simp [LIGHTMAP_ATLAS_RESX, LIGHTMAP_ATLAS_RESY]
    · intro h1 h2 h3 h4 h5 h6 s t hs0 hs1 ht0 ht1
      simp only [Lightmap.u, Lightmap.v, LIGHTMAP_ATLAS_RESX, LIGHTMAP_ATLAS_RESY]
      have e1 : (0 : ℚ) ≤ (pos.1 : ℚ) := by exact_mod_cast h1
      have e2 : (0 : ℚ) ≤ (lm.size.1 : ℚ) := by exact_mod_cast h2
      have e3 : (pos.1 : ℚ) + (lm.size.1 : ℚ) ≤ 2048 := by exact_mod_cast h3
      have e4 : (0 : ℚ) ≤ (pos.2 : ℚ) := by exact_mod_cast h4
      have e5 : (0 : ℚ) ≤ (lm.size.2 : ℚ) := by exact_mod_cast h5
      have e6 : (pos.2 : ℚ) + (lm.size.2 : ℚ) ≤ 1024 := by exact_mod_cast h6
      have m1 : 0 ≤ (lm.size.1 : ℚ) * s := mul_nonneg e2 hs0
      have m2 : (lm.size.1 : ℚ) * s ≤ (lm.size.1 : ℚ) := by nlinarith
      have m3 : 0 ≤ (lm.size.2 : ℚ) * t := mul_nonneg e5 ht0
      have m4 : (lm.size.2 : ℚ) * t ≤ (lm.size.2 : ℚ) := by nlinarith
      push_cast
      refine ⟨⟨?_, ?_⟩, ⟨?_, ?_⟩⟩
      · rw [div_mul_eq_mul_div, ← add_div]; apply div_nonneg <;> linarith
      · rw [div_mul_eq_mul_div, ← add_div, div_le_one (by norm_num)]; linarith
      · rw [div_mul_eq_mul_div, neg_mul, neg_div, ← sub_eq_add_neg, sub_sub, ← add_div,
          sub_nonneg, div_le_one (by norm_num)]
        linarith
      · rw [div_mul_eq_mul_div, neg_mul, neg_div, ← sub_eq_add_neg, sub_sub, ← add_div]
        have : 0 ≤ ((pos.2 : ℚ) + (lm.size.2 : ℚ) * t) / 1024 := by
          apply div_nonneg <;> linarith
        linarith
    · simp [Lightmap.v, LIGHTMAP_ATLAS_RESY]
    · intro h5 t1 t2 ht
      simp only [Lightmap.v, LIGHTMAP_ATLAS_RESX, LIGHTMAP_ATLAS_RESY]
      have e5 : (0 : ℚ) ≤ (lm.size.2 : ℚ) := by exact_mod_cast h5
      have : -(lm.size.2 : ℚ) / ((1024 : Int) : ℚ) ≤ 0 := by
        apply div_nonpos_of_nonpos_of_nonneg <;> [linarith; norm_num]
      nlinarith

/-- C20 (witness): with the row splitter, a 512 x 256 request is refused when only
24 rows are left and the hook throws; with 128 rows taken it is placed at
(0, 128), xform is (0, 7/8, 1/4, -1/4), and the centre of the lightmap maps into
the unit square. -/
theorem postloadLightmap_throws_iff_allocate_fails_else_xform_witness :
    (∃ st, PostloadLightmap rowAllocate exampleLightmap BBox.initial 1000
        = .thrown "Cannot allocate lightmap region!" st) ∧
    (∃ lm1, PostloadLightmap rowAllocate exampleLightmap BBox.initial 128
          = .ok (lm1, BBox.initial, 384) ∧
        lm1.xform = (0, 7 / 8, 1 / 4, -1 / 4) ∧
        ((0 ≤ lm1.u (1 / 2) ∧ lm1.u (1 / 2) ≤ 1) ∧ (0 ≤ lm1.v (1 / 2) ∧ lm1.v (1 / 2) ≤ 1)) ∧
        lm1.v 1 ≤ lm1.v 0) := by
  refine ⟨(postloadLightmap_throws_iff_allocate_fails_else_xform rowAllocate exampleLightmap
    BBox.initial 1000).2.1 (by decide), ?_⟩
  obtain ⟨lm1, h, hs, hp, hx, hr, _, hm⟩ :=
    (postloadLightmap_throws_iff_allocate_fails_else_xform rowAllocate exampleLightmap
      BBox.initial 128).2.2 (by decide)
  have hp1 : lm1.pos = (0, 128) := hp
  have hs1 : lm1.size = (512, 256) := hs
  refine ⟨lm1, h, ?_, ?_, ?_⟩
  · rw [hx, hp1, hs1]
    norm_num
  · exact hr (by rw [hp1]) (by rw [hs1]; decide) (by rw [hp1, hs1]; decide)
      (by rw [hp1]; decide) (by rw [hs1]; decide) (by rw [hp1, hs1]; decide)
      (1 / 2) (1 / 2) (by norm_num) (by norm_num) (by norm_num) (by norm_num)
  · exact hm (by rw [hs1]; decide) 0 1 (by norm_num)

/-! ## Claims C14 to C16, C18, C19: the engine around the scene -/

theorem installMipsDDS_slots (layer_index : Int) (face_index : Nat) (file : String) :
    ∀ (fuel : Nat) (_res : Int) (level : Nat) (offset data_len : Int)
      (st : ProbeStorage × List String),
      (installMipsDDS layer_index face_index file fuel _res level offset data_len st).1.used
          = st.1.used ∧
        (installMipsDDS layer_index face_index file fuel _res level offset data_len
          st).1.capacity = st.1.capacity := by
  intro fuel
  induction fuel with
  | zero => intro _ _ _ _ st; exact ⟨rfl, rfl⟩
  | succ n ih =>
    intro _res level offset data_len st
    unfold installMipsDDS
    by_cases hres : 16 ≤ _res
    · simp only [hres, if_true]
      by_cases hlen : data_len < (_res + 3) / 4 * ((_res + 3) / 4) * 16
      · simp only [hlen, if_true]
        exact ih _ _ _ _ _
      · simp only [hlen, if_false, ProbeStorage.SetPixelData]
        exact ih _ _ _ _ _
    · simp [hres]

/-- C14: when the weak reference to the SceneManager does not resolve, each of the
four completion callbacks created by `OnLoadTexture` and `LoadProbeCache` (success
and failure) returns with the world exactly as it was: no task is queued, and
the in-flight counter, the texture cache and the probe storage are unchanged. -/
theorem dead_manager_callbacks_do_nothing (w : World) (h : w.alive = false) :
    (∀ name flags data, w.onTextureLoaded name flags data = w) ∧
    (∀ name, w.onTextureFailed name = w) ∧
    (∀ probe_id face_index file size, w.onProbeFaceLoaded probe_id face_index file size = w) ∧
    (∀ probe_id face_index, w.onProbeFaceFailed probe_id face_index = w) := by
  refine ⟨?_, ?_, ?_, ?_⟩ <;> intros <;>
    simp [World.onTextureLoaded, World.onTextureFailed, World.onProbeFaceLoaded,
      World.onProbeFaceFailed, h]

/-- C14 (witness): the callbacks on a world whose manager is gone. -/
theorem dead_manager_callbacks_do_nothing_witness :
    deadWorld.alive = false ∧
    (∀ name flags data, deadWorld.onTextureLoaded name flags data = deadWorld) ∧
    (∀ name, deadWorld.onTextureFailed name = deadWorld) ∧
    (∀ probe_id face_index file size,
      deadWorld.onProbeFaceLoaded probe_id face_index file size = deadWorld) ∧
    (∀ probe_id face_index, deadWorld.onProbeFaceFailed probe_id face_index = deadWorld) :=
  ⟨rfl, dead_manager_callbacks_do_nothing deadWorld rfl⟩

/-- C15 (counterexample): scene "a" (one probe) is loaded, then scene "b" on the same
manager.  The load of the lightmap texture of "a" and the load of face 0 of the
probe of "a" were started for "a" and are still in flight.  Without a
completion the counter of "b" is 5 and the probe storage holds no pixels;
after the texture completion is delivered the counter is 4, and after the probe
face completion is delivered the probe storage holds six mip levels. -/
theorem completion_of_first_scene_changes_state_of_second :
    (afterA.state?.map fun s =>
        (decide (AsyncLoad.texture "./assets_pc/textures/lightmaps/a_lm_direct.dds" 0
            ∈ s.ext.loads),
          decide (AsyncLoad.probeFace "assets_pc/textures/probes_cache/a0_0.dds" 0 0
            ∈ s.ext.loads))) = some (true, true) ∧
    (afterAB.state?.map fun s =>
        (s.scene_texture_load_counter_, s.ext.probe_storage.pixels.length)) = some (5, 0) ∧
    ((afterAB.andThen
        (completeTexture "./assets_pc/textures/lightmaps/a_lm_direct.dds" 0 [1] false)).state?.map
      fun s => s.scene_texture_load_counter_) = some 4 ∧
    ((afterAB.andThen
        (completeProbeFace "assets_pc/textures/probes_cache/a0_0.dds" 0 0 fullFaceSize)).state?.map
      fun s => s.ext.probe_storage.pixels.length) = some 6 := by
  decide!

/-- C16 (failing input): scene "a" is loaded twice in a row on a fresh manager.  After
the first load the counter is 5 with 5 texture loads in flight; the second
load resets the counter to 0 and starts no load (the placeholders are found in
the cache) while the 5 loads are still in flight; when they have all
completed the counter is -5. -/
theorem loadScene_resets_counter_while_loads_in_flight :
    (afterA.state?.map fun s => (s.scene_texture_load_counter_, texturesInFlight s))
      = some (5, 5) ∧
    (afterAA.state?.map fun s => (s.scene_texture_load_counter_, texturesInFlight s))
      = some (0, 5) ∧
    ((completeTextures (lightmapNames "a") [1, 2] true afterAA).state?.map fun s =>
        (s.scene_texture_load_counter_, texturesInFlight s)) = some (-5, 0) := by
  decide!

/-- C18 (failing input): scene "a" with one probe is loaded on a fresh manager, the
scene is cleared and the minimal document is loaded.  There are no entities
and the lightmap splitter and the decal atlas hold no region, but the next
`Allocate()` of the probe storage returns slot 1, whereas it returns slot 0
after the minimal document is loaded on a fresh manager. -/
theorem clearScene_then_loadScene_leaves_probe_slot_taken :
    (afterAClearMinimal.state?.map fun s =>
        (s.scene_data_.objects.size, s.ext.lm_splitter.length, s.ext.decals_atlas.length,
          s.ext.probe_storage.Allocate.1)) = some (0, 0, 0, 1) ∧
    ((LoadScene engine0 freshEngine minimalScene).state?.map fun s =>
        (s.scene_data_.objects.size, s.ext.lm_splitter.length, s.ext.decals_atlas.length,
          s.ext.probe_storage.Allocate.1)) = some (0, 0, 0, 0) := by
  decide!

/-- C19 (failing input): a document with 17 LightProbe nodes is loaded on a fresh
manager, whose probe storage has PROBE_COUNT = 16 slots.  `LoadScene` returns
without an error, 17 entities exist, the probes 0 to 15 have the layers 0 to 15
and probe 16 has `layer_index = -1`. -/
theorem loadScene_seventeen_probes_leaves_invalid_layer_index :
    (LoadScene engine0 freshEngine (probeScene "p" 17)).isOk = true ∧
    ((LoadScene engine0 freshEngine (probeScene "p" 17)).state?.map fun s =>
        (s.scene_data_.objects.size, s.ext.probe_storage.used,
          (List.range 17).map (probeLayer s)))
      = some (17, 16,
          [some 0, some 1, some 2, some 3, some 4, some 5, some 6, some 7, some 8, some 9,
           some 10, some 11, some 12, some 13, some 14, some 15, some (-1)]) := by
  decide!

/-! ## Claim C17: the length-prefixed mip loop -/

/-- C17 (failing inputs): the loop on three KTX files, for the probe resolution 512
and a `SetPixelData` that succeeds.  On a file of 64 bytes (the header only) the
length prefix is read at offset 64, outside the buffer.  On a file of 68 bytes
whose prefix is FF FF FF FF the level of declared length 4294967295 is passed to
`SetPixelData` although no byte remains, and the next prefix is read at offset
68, outside the buffer.  On a file of 72 bytes whose first level declares 8
bytes and has 4, the error is logged and the loop goes on to read the next
prefix at offset 76, outside the buffer. -/
theorem ktx_mip_loop_leaves_the_buffer :
    (ktxHeaderOnly.length = 64 ∧
      installProbeFaceKTX (fun _ _ _ => true) ktxHeaderOnly 512 = [MipAccess.readLen 64] ∧
      MipAccess.inBounds 64 (MipAccess.readLen 64) = false) ∧
    (ktxHugeLength.length = 68 ∧
      installProbeFaceKTX (fun _ _ _ => true) ktxHugeLength 512
        = [MipAccess.readLen 64, MipAccess.setPixel 0 68 4294967295, MipAccess.readLen 68] ∧
      MipAccess.inBounds 68 (MipAccess.setPixel 0 68 4294967295) = false ∧
      MipAccess.inBounds 68 (MipAccess.readLen 68) = false) ∧
    (ktxShortLevel.length = 72 ∧
      installProbeFaceKTX (fun _ _ _ => true) ktxShortLevel 512
        = [MipAccess.readLen 64, MipAccess.error 0, MipAccess.readLen 76] ∧
      MipAccess.inBounds 72 (MipAccess.readLen 76) = false) := by
  decide!

/-! ## Claim C24: an entry that is not ready, requested without data -/

/-- C24: when the name has an entry `r` at index `i` that is not ready and no source
data is passed, LoadMesh, LoadMaterial and LoadTextureCube return `i`, leave the
whole context as it was (no `Init`) and write nothing through the status pointer,
null or not; LoadTexture2D returns `i`, leaves the context as it was and writes
`TexFound` through a non-null pointer; and the value `PostloadDrawable` compares
with `MeshFound` after its first `LoadMesh` is then the prior content of its
local `status`. -/
theorem load_not_ready_without_data_leaves_status (ctx : Context) (name : String)
    (ptr : Bool) (i : Nat) (r : Resource) (hr : r.ready = false) :
    (ctx.meshes_.FindByName name = some (i, r) →
      ctx.LoadMesh name none ptr = (i, none, ctx) ∧
      ∀ uninit in_file, (PostloadDrawable_LoadMesh uninit ctx name in_file).2.1 = uninit) ∧
    (ctx.materials_.FindByName name = some (i, r) →
      ctx.LoadMaterial name none ptr = (i, none, ctx)) ∧
    (ctx.textures_.FindByName name = some (i, r) →
      ctx.LoadTextureCube name none ptr = (i, none, ctx) ∧
      ctx.LoadTexture2D name none ptr
        = (i, (if ptr then some eTexLoadStatus.TexFound else none), ctx)) := by
  refine ⟨fun h => ⟨?_, ?_⟩, fun h => ?_, fun h => ⟨?_, ?_⟩⟩
  · simp [Context.LoadMesh, h, hr]
  · intro uninit in_file
    have h1 : ctx.LoadMesh name none true = (i, none, ctx) := by
      simp [Context.LoadMesh, h, hr]
    unfold PostloadDrawable_LoadMesh
    rw [h1]
    simp only [Option.getD_none]
    split <;> rfl
  · simp [Context.LoadMaterial, h, hr]
  · simp [Context.LoadTextureCube, h, hr]
  · cases ptr <;> simp [Context.LoadTexture2D, h, writeStatus]

/-- C24 (witness): the placeholders "m" of the mesh, material and texture caches
requested again without data. -/
theorem load_not_ready_without_data_leaves_status_witness :
    (Resource.create "m" none).ready = false ∧
    ctxWithPlaceholder.meshes_.FindByName "m" = some (0, Resource.create "m" none) ∧
    (ctxWithPlaceholder.LoadMesh "m" none true = (0, none, ctxWithPlaceholder) ∧
      ∀ uninit in_file,
        (PostloadDrawable_LoadMesh uninit ctxWithPlaceholder "m" in_file).2.1 = uninit) ∧
    ctxWithPlaceholders.materials_.FindByName "m" = some (0, Resource.create "m" none) ∧
    ctxWithPlaceholders.LoadMaterial "m" none true = (0, none, ctxWithPlaceholders) ∧
    ctxWithPlaceholders.textures_.FindByName "m" = some (0, Resource.create "m" none) ∧
    (ctxWithPlaceholders.LoadTextureCube "m" none true = (0, none, ctxWithPlaceholders) ∧
      ctxWithPlaceholders.LoadTexture2D "m" none true
        = (0, (if true then some eTexLoadStatus.TexFound else none), ctxWithPlaceholders)) :=
  ⟨rfl, rfl,
    (load_not_ready_without_data_leaves_status ctxWithPlaceholder "m" true 0
      (Resource.create "m" none) rfl).1 rfl,
    rfl,
    (load_not_ready_without_data_leaves_status ctxWithPlaceholders "m" true 0
      (Resource.create "m" none) rfl).2.1 rfl,
    rfl,
    (load_not_ready_without_data_leaves_status ctxWithPlaceholders "m" true 0
      (Resource.create "m" none) rfl).2.2 rfl⟩

/-! ## Claim C23: DefaultCompStorage -/

namespace DefaultCompStorage

theorem createN_of_map_some (n : Nat) :
    ∀ es : List Comp, createN n ⟨es.map some⟩
      = (⟨(es ++ List.replicate n Comp.new).map some⟩,
          (List.range n).map (fun k => es.length + k)) := by
  induction n with
  | zero => intro es; simp [createN]
  | succ n ih =>
    intro es
    simp only [createN, Create, SparseArray.emplace_of_map_some, ih]
    congr 1
    · simp [List.replicate_succ]
    · rw [List.range_succ_eq_map]
      simp only [List.map_cons, List.map_map, List.length_append, List.length_singleton,
        Nat.add_zero]
      congr 1
      apply List.map_congr_left
      intro k _
      simp only [Function.comp]
      omega

theorem liveFrom_of_map_some (es : List Comp) (i : Nat) :
    (SparseArray.mk (es.map some)).liveFrom i = if i < es.length then some i else none := by
  unfold SparseArray.liveFrom
  simp only [← List.map_drop, List.length_map, List.length_drop]
  by_cases hi : i < es.length
  · have hne : es.drop i ≠ [] := by
      intro h
      have := congrArg List.length h
      simp at this
      omega
    obtain ⟨c, rest, hc⟩ := List.exists_cons_of_ne_nil hne
    simp [hc, hi, List.findIdx_cons]
  · simp only [hi, if_false]
    have : es.length - i = 0 := by omega
    simp [this]

theorem iterate_of_map_some (es : List Comp) (hn : es.length ≤ 4294967295) :
    ∀ (m i : Nat), i + m = es.length →
      iterate ⟨es.map some⟩ (m + 1) (if i < es.length then i else 0xffffffff)
        = ((List.range m).map (fun k => i + k), true) := by
  intro m
  induction m with
  | zero =>
    intro i hi
    have : ¬ i < es.length := by omega
    simp [this, iterate]
  | succ m ih =>
    intro i hi
    have h1 : i < es.length := by omega
    have h2 : i ≠ 4294967295 := by omega
    simp only [h1, if_true]
    rw [iterate]
    simp only [h2, if_false, Next, liveFrom_of_map_some]
    have key := ih (i + 1) (by omega)
    by_cases h3 : i + 1 < es.length
    · simp only [h3, if_true] at key ⊢
      rw [key, List.range_succ_eq_map]
      simp only [List.map_cons, List.map_map, Nat.add_zero]
      congr 2
      apply List.map_congr_left
      intro k _
      simp only [Function.comp]
      omega
    · simp only [h3, if_false] at key ⊢
      rw [key, List.range_succ_eq_map]
      simp only [List.map_cons, List.map_map, Nat.add_zero]
      congr 2
      apply List.map_congr_left
      intro k _
      simp only [Function.comp]
      omega

end DefaultCompStorage

/-- C23 (amended): after `N` calls of `Create()` on an empty storage (`N` below 2^31, the range
of the `int` that `Count()` returns), `Count()` is `N`, the calls have returned
the indices 0, ..., N-1 (pairwise distinct), `Get` is non-null at each of them,
`First()` is the sentinel 0xffffffff when `N = 0`, and the iteration `First()`,
`Next(First())`, ... visits exactly these indices once each, in order, and then
reaches the sentinel. -/
theorem defaultCompStorage_count_and_iteration (N : Nat) (hN : N < 2147483648) :
    DefaultCompStorage.Count (DefaultCompStorage.createN N SparseArray.clear).1 = N ∧
    (DefaultCompStorage.createN N SparseArray.clear).2 = List.range N ∧
    (DefaultCompStorage.createN N SparseArray.clear).2.Nodup ∧
    (∀ i ∈ (DefaultCompStorage.createN N SparseArray.clear).2,
      (DefaultCompStorage.Get (DefaultCompStorage.createN N SparseArray.clear).1 i).isSome
        = true) ∧
    (N = 0 →
      DefaultCompStorage.First (DefaultCompStorage.createN N SparseArray.clear).1
        = 0xffffffff) ∧
    DefaultCompStorage.iterate (DefaultCompStorage.createN N SparseArray.clear).1 (N + 1)
        (DefaultCompStorage.First (DefaultCompStorage.createN N SparseArray.clear).1)
      = ((DefaultCompStorage.createN N SparseArray.clear).2, true) := by
  have hc : DefaultCompStorage.createN N SparseArray.clear
      = (⟨(List.replicate N Comp.new).map some⟩, List.range N) := by
    have := DefaultCompStorage.createN_of_map_some N []
    simpa [SparseArray.clear] using this
  rw [hc]
  simp only
  have hsize : (SparseArray.mk ((List.replicate N Comp.new).map some)).size = N := by
    rw [SparseArray.size_of_map_some, List.length_replicate]
  have hfirst : DefaultCompStorage.First ⟨(List.replicate N Comp.new).map some⟩
      = if 0 < (List.replicate N Comp.new).length then 0 else 0xffffffff := by
    unfold DefaultCompStorage.First
    rw [hsize, DefaultCompStorage.liveFrom_of_map_some]
    by_cases h0 : N = 0
    · simp [h0]
    · have : 0 < N := Nat.pos_of_ne_zero h0
      simp [h0, this]
  refine ⟨?_, trivial, List.nodup_range N, ?_, ?_, ?_⟩
  · unfold DefaultCompStorage.Count
    rw [hsize]
    omega
  · intro i hi
    have hlt : i < N := List.mem_range.1 hi
    unfold DefaultCompStorage.Get
    rw [SparseArray.GetOrNull_of_map_some]
    simp [hlt]
  · intro h0
    rw [hfirst]
    simp [h0]
  · rw [hfirst]
    have := DefaultCompStorage.iterate_of_map_some (List.replicate N Comp.new)
      (by rw [List.length_replicate]; omega) N 0 (by rw [List.length_replicate]; omega)
    simp only [Nat.zero_add] at this
    rw [this]
    simp

/-- C23 (witness): three calls of `Create()` on an empty storage. -/
theorem defaultCompStorage_count_and_iteration_witness :
    (3 : Nat) < 2147483648 ∧
    DefaultCompStorage.Count (DefaultCompStorage.createN 3 SparseArray.clear).1 = (3 : Nat) ∧
    (DefaultCompStorage.createN 3 SparseArray.clear).2 = List.range 3 ∧
    DefaultCompStorage.iterate (DefaultCompStorage.createN 3 SparseArray.clear).1 (3 + 1)
        (DefaultCompStorage.First (DefaultCompStorage.createN 3 SparseArray.clear).1)
      = ((DefaultCompStorage.createN 3 SparseArray.clear).2, true) :=
  ⟨by decide, (defaultCompStorage_count_and_iteration 3 (by decide)).1,
    (defaultCompStorage_count_and_iteration 3 (by decide)).2.1,
    (defaultCompStorage_count_and_iteration 3 (by decide)).2.2.2.2.2⟩

/-! ## Claim C26: a node whose hooks contribute no bounds -/

section Accumulator

variable {Ext : Type}

end Accumulator

theorem V3.Min_assoc {F : Type} [LinearOrderedField F] (a b c : V3 F) :
    V3.Min (V3.Min a b) c = V3.Min a (V3.Min b c) := by
  simp [V3.Min, min_assoc]

theorem V3.Max_assoc {F : Type} [LinearOrderedField F] (a b c : V3 F) :
    V3.Max (V3.Max a b) c = V3.Max a (V3.Max b c) := by
  simp [V3.Max, max_assoc]

theorem PostloadLightSource_bbox_eq {F : Type} [LinearOrderedField F]
    (sqrt : F → F) (init : V3 F) (ls : LightSource F) :
    PostloadLightSource_bbox sqrt init ls
      = (Box3.point init).union (lightBoxUnion sqrt ls) := by
  unfold PostloadLightSource_bbox lightBoxUnion
  by_cases hs : ls.spot < 0
  · simp only [hs, if_true, Box3.union, Box3.point, V3.Min_assoc, V3.Max_assoc]
  · simp only [hs, if_false, Box3.union, Box3.point, V3.Min_assoc, V3.Max_assoc]

theorem sqrtQ_examples : sqrtQ (1 - 3 / 5 * (3 / 5)) = 4 / 5 := by
  norm_num [sqrtQ]

theorem lightBoxUnion_lightDown :
    lightBoxUnion sqrtQ lightDown = ⟨⟨-4, -5, -4⟩, ⟨4, -3, 4⟩⟩ := by
  simp only [lightBoxUnion, lightDown, sqrtQ_examples]
  norm_num [V3.Min, V3.Max, V3.smul, V3.add, V3.sub, Box3.union, Box3.point]

theorem lightBoxUnion_lightUpward :
    lightBoxUnion sqrtQ lightUpward = ⟨⟨-4, 3, -4⟩, ⟨4, 5, 4⟩⟩ := by
  simp only [lightBoxUnion, lightUpward, sqrtQ_examples]
  norm_num [V3.Min, V3.Max, V3.smul, V3.add, V3.sub, Box3.union, Box3.point]

theorem lightBoxUnion_lightAlongX :
    lightBoxUnion sqrtQ lightAlongX = ⟨⟨-1, 0, -4⟩, ⟨7, 0, 4⟩⟩ := by
  simp only [lightBoxUnion, lightAlongX, sqrtQ_examples]
  norm_num [V3.Min, V3.Max, V3.smul, V3.add, V3.sub, Box3.union, Box3.point]

/-- C21 (counterexample): whatever value a default-constructed `Vec3f` has, the local
box of the light pointing down or that of the light pointing up (spot cosine
3/5, radius 5, so p1 = (0, ∓5, 0), p2 = (0, ∓3, 0), d = 4) is not the union of
the boxes of p1 and of p2 ± (d, 0, d): both corners of the computed box start
from the default-constructed value, which is united into it. -/
theorem light_box_is_not_only_the_named_union :
    ¬ ∃ init : V3 ℚ,
      PostloadLightSource_bbox sqrtQ init lightDown = lightBoxUnion sqrtQ lightDown ∧
      PostloadLightSource_bbox sqrtQ init lightUpward = lightBoxUnion sqrtQ lightUpward := by
  rintro ⟨init, h1, h2⟩
  rw [PostloadLightSource_bbox_eq, lightBoxUnion_lightDown] at h1
  rw [PostloadLightSource_bbox_eq, lightBoxUnion_lightUpward] at h2
  have e1 : max init.y (-3) = -3 := congrArg (fun b => b.bmax.y) h1
  have e2 : min init.y 3 = 3 := congrArg (fun b => b.bmin.y) h2
  have a1 : init.y ≤ -3 := by
    rw [← e1]
    exact le_max_left _ _
  have a2 : 3 ≤ init.y := by
    rw [← e2]
    exact min_le_left _ _
  linarith

/-- C21 (amended): for every light (direction, spot cosine `s`, radius `r`), the
local box computed by `PostloadLightSource` is exactly the union of the box of the
default-constructed value `init`, with which both corners start, and of the
boxes of p1 and of p2 ± (d, 0, d), and for `s < 0` also of p1 ± (r, 0, r); in
particular it contains `init`. -/
theorem light_box_is_union_with_default_corner {F : Type} [LinearOrderedField F]
    (sqrt : F → F) (init : V3 F) (ls : LightSource F) :
    PostloadLightSource_bbox sqrt init ls
      = (Box3.point init).union (lightBoxUnion sqrt ls) ∧
    (PostloadLightSource_bbox sqrt init ls).contains init := by
  refine ⟨PostloadLightSource_bbox_eq sqrt init ls, ?_⟩
  rw [PostloadLightSource_bbox_eq]
  simp [Box3.contains, Box3.union, Box3.point, V3.le, V3.Min, V3.Max]

/-- C22 (failing input): the light at the origin pointing along the x axis (a unit
direction) with spot cosine 3/5 and radius 5.  The points (3, 4, 0) and
(3, -4, 0) have length 5 and lie in its cone of influence, but whatever value a
default-constructed `Vec3f` has the local box does not contain both; with the
zero vector the box is from (-1, 0, -4) to (7, 0, 4) and contains neither. -/
theorem light_box_misses_cone_of_horizontal_light :
    lightAlongX.dir.dot lightAlongX.dir = 1 ∧
    InCone lightAlongX ⟨3, 4, 0⟩ ∧ InCone lightAlongX ⟨3, -4, 0⟩ ∧
    (¬ ∃ init : V3 ℚ,
      (PostloadLightSource_bbox sqrtQ init lightAlongX).contains ⟨3, 4, 0⟩ ∧
      (PostloadLightSource_bbox sqrtQ init lightAlongX).contains ⟨3, -4, 0⟩) ∧
    PostloadLightSource_bbox sqrtQ ⟨0, 0, 0⟩ lightAlongX = ⟨⟨-1, 0, -4⟩, ⟨7, 0, 4⟩⟩ := by
  refine ⟨by norm_num [lightAlongX, V3.dot], ?_, ?_, ?_, ?_⟩
  · exact ⟨5, by norm_num, by norm_num [V3.dot], by norm_num [lightAlongX],
      by norm_num [lightAlongX, V3.dot]⟩
  · exact ⟨5, by norm_num, by norm_num [V3.dot], by norm_num [lightAlongX],
      by norm_num [lightAlongX, V3.dot]⟩
  · rintro ⟨init, h1, h2⟩
    rw [PostloadLightSource_bbox_eq, lightBoxUnion_lightAlongX] at h1 h2
    have a1 : (4 : ℚ) ≤ max init.y 0 := h1.2.2.1
    have a2 : min init.y 0 ≤ (-4 : ℚ) := h2.1.2.1
    rcases le_max_iff.1 a1 with a1 | a1
    · rcases min_le_iff.1 a2 with a2 | a2 <;> linarith
    · linarith
  · rw [PostloadLightSource_bbox_eq, lightBoxUnion_lightAlongX]
    norm_num [Box3.union, Box3.point, V3.Min, V3.Max]

/-- C27 (failing input): for a direction along the x axis, `(a, 0, 0)` with any
`a` (the non-zero ones included), neither test of `PostloadLightSource` holds (the comparisons are strict and
the y and z components are equal), `up` stays the x axis, which is parallel to
the direction, and `side` is the zero vector. -/
theorem light_frame_degenerate_along_x {F : Type} [LinearOrderedField F] (a : F) :
    PostloadLightSource_up (⟨a, 0, 0⟩ : V3 F) = ⟨1, 0, 0⟩ ∧
    PostloadLightSource_side (⟨a, 0, 0⟩ : V3 F) = ⟨0, 0, 0⟩ := by
  have hup : PostloadLightSource_up (⟨a, 0, 0⟩ : V3 F) = ⟨1, 0, 0⟩ := by
    simp [PostloadLightSource_up]
  refine ⟨hup, ?_⟩
  unfold PostloadLightSource_side
  rw [hup]
  simp [V3.Cross]

/-! ## Claims C29 and C30: the model compiler -/

/-- C29 (failing input): a skeletal mesh with one vertex, one triangle, one material,
one strip and one bone.  The header is written with `num_chunks = 7` although
six entries follow, and the vertex attribute chunk is declared with 84 bytes
(13 floats and 8 weights) although 76 bytes are written for the vertex (the
second uvs are not written), so the declared offsets of the later chunks are 8
bytes past the places where these chunks start.  For the static and the colored
mesh of the same sizes the header is consistent. -/
theorem compileModel_skeletal_header_inconsistent :
    (CompileModel_write .M_SKEL (smallMesh .M_SKEL 1)).num_chunks = 7 ∧
    (CompileModel_write .M_SKEL (smallMesh .M_SKEL 1)).p.length = 6 ∧
    ((CompileModel_write .M_SKEL (smallMesh .M_SKEL 1)).p.map fun c => c.length)
      = [56, 84, 12, 64, 12, 100] ∧
    (CompileModel_write .M_SKEL (smallMesh .M_SKEL 1)).written = [56, 76, 12, 64, 12, 100] ∧
    ((CompileModel_write .M_SKEL (smallMesh .M_SKEL 1)).p.map fun c => c.offset)
      = [64, 120, 204, 216, 280, 292] ∧
    (CompileModel_write .M_SKEL (smallMesh .M_SKEL 1)).consistent = false ∧
    (CompileModel_write .M_STATIC (smallMesh .M_STATIC 1)).consistent = true ∧
    (CompileModel_write .M_COLORED (smallMesh .M_COLORED 1)).consistent = true := by
  decide!

/-- C30 (failing inputs): with the delimiter " ", `Tokenize` has undefined behaviour
on a string that begins with two delimiters (`q` is the delimiter at index 1,
`p` has been moved to index 2, and `assign(p, q)` receives a reversed range), on
the empty string (`strpbrk(p + 1, ...)` starts beyond the terminating NUL) and on
a string of delimiters only (the skipping loop steps over the terminating NUL);
a string with a single leading delimiter and strings without one are split as
expected. -/
theorem tokenize_fails_on_leading_delimiters :
    Tokenize "  1.0 2.0" " " = none ∧
    Tokenize "" " " = none ∧
    Tokenize "   " " " = none ∧
    Tokenize " 1.0 2.0" " " = some ["1.0", "2.0"] ∧
    Tokenize "1.0  2.0 " " " = some ["1.0", "2.0"] := by
  decide!

/-! ## Claim C28: the fixed-size mip loop -/

theorem toInt32_of_range {x : Int} (h1 : -2147483648 ≤ x) (h2 : x < 2147483648) :
    toInt32 x = x := by
  unfold toInt32
  omega

theorem ddsLen32_eq (n : Nat) (hn : n ≤ 32768) :
    ddsLen32 (n : Int) = ((((n + 3) / 4) ^ 2 * 16 : Nat) : Int) ∧
    ((n + 3) / 4) ^ 2 * 16 ≤ 1073741824 := by
  have hc : (n + 3) / 4 ≤ 8192 := by omega
  have hsq : ((n + 3) / 4) * ((n + 3) / 4) ≤ 8192 * 8192 := Nat.mul_le_mul hc hc
  have h1 : toInt32 ((n : Int) + 3) = (n : Int) + 3 := toInt32_of_range (by omega) (by omega)
  have h2 : Int.tdiv ((n : Int) + 3) 4 = (((n + 3) / 4 : Nat) : Int) := by
    rw [Int.tdiv_eq_ediv (by omega) (by norm_num)]
    omega
  have h3 : ((((n + 3) / 4 : Nat) : Int)) * (((n + 3) / 4 : Nat) : Int)
      = ((((n + 3) / 4) * ((n + 3) / 4) : Nat) : Int) := by push_cast; ring
  have h4 : toInt32 ((((n + 3) / 4) * ((n + 3) / 4) : Nat) : Int)
      = ((((n + 3) / 4) * ((n + 3) / 4) : Nat) : Int) :=
    toInt32_of_range (by omega) (by omega)
  have h5 : toInt32 (((((n + 3) / 4) * ((n + 3) / 4) : Nat) : Int) * 16)
      = ((((n + 3) / 4) * ((n + 3) / 4) : Nat) : Int) * 16 :=
    toInt32_of_range (by omega) (by omega)
  constructor
  · unfold ddsLen32
    rw [h1, h2, h3, h4, h5, sq]
    push_cast
    ring
  · rw [sq]
    omega

theorem mipLen_ratio (n : Nat) (hn : 16 ≤ n) :
    64 * (((n / 2 + 3) / 4) ^ 2 * 16) ≤ 25 * (((n + 3) / 4) ^ 2 * 16) := by
  have h : 8 * ((n / 2 + 3) / 4) ≤ 5 * ((n + 3) / 4) := by omega
  have h2 := Nat.mul_le_mul h h
  rw [sq, sq]
  nlinarith

theorem mipSum_succ (res k : Nat) : mipSum res (k + 1) = mipSum res k + mipLen res k := by
  unfold mipSum
  exact List.sum_range_succ _ _

theorem mipSum_mono (res : Nat) {k m : Nat} (h : k ≤ m) : mipSum res k ≤ mipSum res m := by
  induction m with
  | zero =>
    have : k = 0 := by omega
    rw [this]
  | succ m ih =>
    by_cases hk : k = m + 1
    · rw [hk]
    · have := ih (by omega)
      rw [mipSum_succ]
      omega

theorem div_pow_succ (res level : Nat) : res / 2 ^ (level + 1) = res / 2 ^ level / 2 := by
  rw [pow_succ, Nat.div_div_eq_div_mul]

theorem installMipsDDS32_length (SetPixelData : Nat → Int → Int → Bool) :
    ∀ (fuel n level : Nat) (offset data_len : Int),
      (installMipsDDS32 SetPixelData fuel (n : Int) level offset data_len).length
        = halvings fuel n := by
  intro fuel
  induction fuel with
  | zero => intros; rfl
  | succ fuel ih =>
    intro n level offset data_len
    unfold installMipsDDS32 halvings
    by_cases h : 16 ≤ n
    · have h1 : (16 : Int) ≤ (n : Int) := by omega
      have h2 : Int.tdiv (n : Int) 2 = ((n / 2 : Nat) : Int) := by
        rw [Int.tdiv_eq_ediv (by omega) (by norm_num)]
        omega
      simp only [h, h1, if_true, List.length_cons, h2, ih]
    · have h1 : ¬ (16 : Int) ≤ (n : Int) := by omega
      simp only [h, h1, if_false, List.length_nil]

theorem installMipsDDS32_spec (SetPixelData : Nat → Int → Int → Bool) (res : Nat)
    (size : Int) :
    ∀ (fuel level : Nat) (d : Int),
      res / 2 ^ level ≤ 32768 → res / 2 ^ level < fuel →
      d = size - 128 - (mipSum res level : Int) →
      d < 2147483648 →
      (16 ≤ res / 2 ^ level → 64 * (mipLen res level : Int) ≤ 39 * (d + 2147483648)) →
      ∀ (k : Nat) (st : DdsStep),
        (installMipsDDS32 SetPixelData fuel ((res / 2 ^ level : Nat) : Int) level
            (128 + (mipSum res level : Int)) d)[k]? = some st →
        st.level = level + k ∧ 16 ≤ res / 2 ^ (level + k) ∧
        st.len = (mipLen res (level + k) : Int) ∧
        st.offset = 128 + (mipSum res (level + k) : Int) ∧
        (st.invoked = true ↔ (mipSum res (level + k + 1) : Int) ≤ size - 128) ∧
        st.failed = !(st.invoked && SetPixelData st.level st.offset st.len) := by
  intro fuel
  induction fuel with
  | zero => intro level d _ hf; exact absurd hf (Nat.not_lt_zero _)
  | succ fuel ih =>
    intro level d hn hf hd hd2 hpot k st hst
    unfold installMipsDDS32 at hst
    by_cases h16 : 16 ≤ res / 2 ^ level
    · have h16i : (16 : Int) ≤ ((res / 2 ^ level : Nat) : Int) := by omega
      obtain ⟨hlen, hbound⟩ := ddsLen32_eq (res / 2 ^ level) hn
      have hlen2 : ddsLen32 ((res / 2 ^ level : Nat) : Int) = (mipLen res level : Int) := hlen
      have hb2 : mipLen res level ≤ 1073741824 := hbound
      have hp := hpot h16
      simp only [h16i, if_true, hlen2] at hst
      cases k with
      | zero =>
        simp only [List.getElem?_cons_zero, Option.some.injEq] at hst
        subst hst
        refine ⟨rfl, h16, rfl, rfl, ?_, rfl⟩
        simp only [decide_eq_true_eq, Nat.add_zero]
        rw [mipSum_succ]
        push_cast
        omega
      | succ k =>
        simp only [List.getElem?_cons_succ] at hst
        have hr : Int.tdiv ((res / 2 ^ level : Nat) : Int) 2
            = ((res / 2 ^ (level + 1) : Nat) : Int) := by
          rw [Int.tdiv_eq_ediv (by omega) (by norm_num), div_pow_succ]
          omega
        have ho : (128 : Int) + (mipSum res level : Int) + (mipLen res level : Int)
            = 128 + (mipSum res (level + 1) : Int) := by
          rw [mipSum_succ]
          push_cast
          ring
        have hdd : toInt32 (d - (mipLen res level : Int)) = d - (mipLen res level : Int) :=
          toInt32_of_range (by omega) (by omega)
        rw [hr, ho, hdd] at hst
        have hnext := ih (level + 1) (d - (mipLen res level : Int))
          (by rw [div_pow_succ]; omega) (by rw [div_pow_succ]; omega)
          (by rw [mipSum_succ]; push_cast; omega) (by omega)
          (by
            intro h16n
            have hr16 : 16 ≤ res / 2 ^ level / 2 := by rw [← div_pow_succ]; exact h16n
            have hrat := mipLen_ratio (res / 2 ^ level) h16
            have e1 : mipLen res (level + 1) = ((res / 2 ^ level / 2 + 3) / 4) ^ 2 * 16 := by
              unfold mipLen
              rw [div_pow_succ]
            have e2 : mipLen res level = ((res / 2 ^ level + 3) / 4) ^ 2 * 16 := rfl
            rw [← e1, ← e2] at hrat
            have hrat2 : 64 * (mipLen res (level + 1) : Int) ≤ 25 * (mipLen res level : Int) := by
              exact_mod_cast hrat
            omega)
          k st hst
        have e : level + 1 + k = level + (k + 1) := by omega
        rw [e] at hnext
        exact hnext
    · have h16i : ¬ (16 : Int) ≤ ((res / 2 ^ level : Nat) : Int) := by omega
      simp only [h16i, if_false] at hst
      simp at hst

/-- C28 (counterexample): for the resolution 65536 and a file of 128 bytes (the
header only) the length of level 0, ((65536 + 3) / 4)^2 * 16 = 4294967296, does
not fit the `int` in which the loop computes it: `len` is 0, which is not
greater than `data_len = 0`, and `SetPixelData` is invoked for level 0 although
the length of the level exceeds the payload. -/
theorem dds_mip_loop_overflows_at_large_resolution :
    ((installProbeFaceDDS (fun _ _ _ => true) 65536 128).head?.map fun st =>
        (st.level, st.len, st.invoked)) = some (0, 0, true) ∧
    mipLen 65536 0 = 4294967296 ∧
    ¬ ((mipSum 65536 1 : Int) ≤ 128 - 128) := by
  decide!

/-- C28 (amended): for every resolution `res` up to 32768 and every file size
`0 <= size < 2^31` (so that no `int` of the loop overflows), the loop runs for
exactly the number of halvings of `res` that stay at least 16 (6 for 512, none
below 16); iteration `k` is level `k`, has `16 <= res / 2^k`,
`len = ((res / 2^k + 3) / 4)^2 * 16` and starts at the offset 128 plus the lengths
of the levels before; `SetPixelData` is invoked for it exactly when the lengths
of the levels 0..k sum to at most `size - 128`, and then the byte range lies
inside the payload; and once a level is not installed no later level is. -/
theorem dds_mip_loop_levels_and_bounds (SetPixelData : Nat → Int → Int → Bool) (res : Nat)
    (size : Int) (hres : res ≤ 32768) (hs0 : 0 ≤ size) (hs1 : size < 2147483648) :
    (installProbeFaceDDS SetPixelData res size).length = mipLevels res ∧
    mipLevels 512 = 6 ∧ (res < 16 → mipLevels res = 0) ∧
    (∀ (k : Nat) (st : DdsStep), (installProbeFaceDDS SetPixelData res size)[k]? = some st →
      st.level = k ∧ 16 ≤ res / 2 ^ k ∧ st.len = (mipLen res k : Int) ∧
      st.offset = 128 + (mipSum res k : Int) ∧
      (st.invoked = true ↔ (mipSum res (k + 1) : Int) ≤ size - 128) ∧
      (st.invoked = true → 128 ≤ st.offset ∧ st.offset + st.len ≤ size) ∧
      (st.invoked = false → ∀ (k2 : Nat) (st2 : DdsStep), k < k2 →
        (installProbeFaceDDS SetPixelData res size)[k2]? = some st2 →
        st2.invoked = false)) := by
  have hd : toInt32 (size - 128) = size - 128 := toInt32_of_range (by omega) (by omega)
  have hspec : ∀ (k : Nat) (st : DdsStep),
      (installProbeFaceDDS SetPixelData res size)[k]? = some st →
      st.level = k ∧ 16 ≤ res / 2 ^ k ∧ st.len = (mipLen res k : Int) ∧
      st.offset = 128 + (mipSum res k : Int) ∧
      (st.invoked = true ↔ (mipSum res (k + 1) : Int) ≤ size - 128) ∧
      st.failed = !(st.invoked && SetPixelData st.level st.offset st.len) := by
    intro k st hst
    have h0 : res / 2 ^ 0 = res := by simp
    have hm0 : mipSum res 0 = 0 := rfl
    have key := installMipsDDS32_spec SetPixelData res size (res + 1) 0 (size - 128)
      (by rw [h0]; exact hres) (by rw [h0]; omega) (by rw [hm0]; simp) (by omega)
      (by
        intro _
        have hb := (ddsLen32_eq res hres).2
        have e : mipLen res 0 = ((res + 3) / 4) ^ 2 * 16 := by
          unfold mipLen
          rw [h0]
        rw [← e] at hb
        have hb2 : (mipLen res 0 : Int) ≤ 1073741824 := by exact_mod_cast hb
        omega)
      k st (by
        unfold installProbeFaceDDS sizeof_DDSHeader at hst
        rw [hd] at hst
        rw [h0, hm0]
        simpa using hst)
    simpa using key
  refine ⟨?_, by decide, ?_, ?_⟩
  · unfold installProbeFaceDDS mipLevels
    exact installMipsDDS32_length SetPixelData (res + 1) res 0 _ _
  · intro h
    unfold mipLevels halvings
    simp [show ¬ 16 ≤ res by omega]
  · intro k st hst
    obtain ⟨a1, a2, a3, a4, a5, _⟩ := hspec k st hst
    refine ⟨a1, a2, a3, a4, a5, ?_, ?_⟩
    · intro hi
      have := a5.1 hi
      rw [mipSum_succ] at this
      push_cast at this
      rw [a3, a4]
      omega
    · intro hi k2 st2 hk hst2
      obtain ⟨_, _, _, _, b5, _⟩ := hspec k2 st2 hst2
      cases h2 : st2.invoked with
      | false => rfl
      | true =>
        have c1 := b5.1 h2
        have c2 : mipSum res (k + 1) ≤ mipSum res (k2 + 1) := mipSum_mono res (by omega)
        have c3 : (mipSum res (k + 1) : Int) ≤ size - 128 := by
          have : (mipSum res (k + 1) : Int) ≤ (mipSum res (k2 + 1) : Int) := by
            exact_mod_cast c2
          omega
        have := a5.2 c3
        rw [hi] at this
        cases this

/-- C28 (witness): the resolution 512 with a file that holds the full mip chain. -/
theorem dds_mip_loop_levels_and_bounds_witness :
    (512 : Nat) ≤ 32768 ∧ (0 : Int) ≤ fullFaceSize ∧ fullFaceSize < 2147483648 ∧
    (installProbeFaceDDS (fun _ _ _ => true) 512 fullFaceSize).length = mipLevels 512 ∧
    mipLevels 512 = 6 :=
  ⟨by decide, by decide, by decide,
    (dds_mip_loop_levels_and_bounds (fun _ _ _ => true) 512 fullFaceSize (by decide)
      (by decide) (by decide)).1,
    (dds_mip_loop_levels_and_bounds (fun _ _ _ => true) 512 fullFaceSize (by decide)
      (by decide) (by decide)).2.1⟩

/-! ## Claim C25: component storages across two loads -/

theorem SparseArray.countP_set_none {T : Type} (v : T) :
    ∀ (l : List (Option T)) (i : Nat), l[i]? = some none →
      (l.set i (some v)).countP (fun s => s.isSome) = l.countP (fun s => s.isSome) + 1 := by
  intro l
  induction l with
  | nil => intro i h; simp at h
  | cons x xs ih =>
    intro i h
    cases i with
    | zero =>
      simp at h
      subst h
      simp [List.countP_cons]
    | succ n =>
      simp only [List.getElem?_cons_succ] at h
      simp only [List.set_cons_succ, List.countP_cons]
      rw [ih n h]
      omega

theorem SparseArray.size_emplace {T : Type} (a : SparseArray T) (v : T) :
    (a.emplace v).1.size = a.size + 1 := by
  unfold SparseArray.emplace SparseArray.size SparseArray.nextIndex
  by_cases h : List.findIdx (fun s : Option T => s.isNone) a.slots < a.slots.length
  · simp only [h, if_true]
    apply SparseArray.countP_set_none
    have hp := @List.findIdx_getElem _ (fun s : Option T => s.isNone) a.slots h
    rw [List.getElem?_eq_getElem h]
    cases hx : a.slots[List.findIdx (fun s : Option T => s.isNone) a.slots] with
    | none => rfl
    | some c => rw [hx] at hp; simp at hp
  · simp only [h, if_false, List.countP_append]
    simp

section Counts

variable {Ext : Type}

theorem storeCount_setStore (sm : SceneManager Ext) (i : Nat) (a : SparseArray Comp) (j : Nat) :
    storeCount (sm.setStore i a) j = if j = i then a.size else storeCount sm j := by
  unfold storeCount SceneManager.setStore
  by_cases h : j = i <;> simp [h]

theorem storeCount_emplace_write (sm : SceneManager Ext) (i : Nat) (c : Comp) (j : Nat) :
    storeCount (sm.setStore i (((sm.scene_data_.comp_store i).emplace Comp.new).1.write
        (sm.scene_data_.comp_store i).nextIndex c)) j
      = storeCount sm j + if j = i then 1 else 0 := by
  rw [storeCount_setStore]
  by_cases h : j = i
  · simp only [h, if_true]
    have hlive : ((sm.scene_data_.comp_store i).emplace Comp.new).1.GetOrNull
        (sm.scene_data_.comp_store i).nextIndex = some Comp.new := by
      simpa [SparseArray.emplace] using
        SparseArray.GetOrNull_emplace_self (sm.scene_data_.comp_store i) Comp.new
    rw [SparseArray.size_write_live hlive, SparseArray.size_emplace]
    rfl
  · simp [h]

theorem LoadComponent_count {cfg : Config Ext} {o : JsObject} {i : Nat} {st : CompStorage}
    {L L1 : LoadState Ext} (h : LoadComponent cfg o i st L = .ok L1) (j : Nat) :
    storeCount L1.sm j = storeCount L.sm j + if j = i then 1 else 0 := by
  unfold LoadComponent at h
  simp only [SparseArray.emplace] at h
  split at h
  · cases h
  · rename_i c1 hc1
    split at h
    · cases h
      exact storeCount_emplace_write L.sm i c1 j
    · rename_i post hpost
      split at h
      · rename_i c2 bb ext1 hres
        cases h
        exact storeCount_emplace_write L.sm i c2 j
      · cases h
      · cases h

theorem LoadKey_count {cfg : Config Ext} {kv : String × JsElement} {L L1 : LoadState Ext}
    (h : LoadKey cfg kv L = .ok L1) (j : Nat) :
    storeCount L1.sm j = storeCount L.sm j + nodeComponents cfg j [kv] := by
  unfold nodeComponents
  rcases LoadKey_cases cfg kv L L1 h with ⟨rfl, hno⟩ | ⟨o, i, st, ho, hm, _, _, _, hc⟩
  · have : (match kv.2 with
        | .obj _ => decide (matchSlot cfg kv.1 MAX_COMPONENT_TYPES 0 = some j)
        | _ => false) = false := by
      cases hk : kv.2 with
      | obj o => simpa using hno o j hk
      | num _ => rfl
      | str _ => rfl
      | lit _ => rfl
      | arr _ => rfl
    simp [List.countP_cons, this]
  · rw [LoadComponent_count hc j]
    simp only [List.countP_cons, List.countP_nil, ho, hm, Nat.zero_add]
    by_cases hji : j = i
    · simp [hji]
    · have : ¬ i = j := fun e => hji e.symm
      simp [hji, this]

theorem LoadKeys_count {cfg : Config Ext} :
    ∀ (ks : JsObject) (L L1 : LoadState Ext), LoadKeys cfg ks L = .ok L1 →
      ∀ j, storeCount L1.sm j = storeCount L.sm j + nodeComponents cfg j ks := by
  intro ks
  induction ks with
  | nil =>
    intro L L1 h j
    simp only [LoadKeys] at h
    cases h
    simp [nodeComponents]
  | cons kv rest ih =>
    intro L L1 h j
    simp only [LoadKeys] at h
    obtain ⟨L2, h2, h3⟩ := Outcome.andThen_eq_ok.1 h
    rw [ih L2 L1 h3 j, LoadKey_count h2 j]
    unfold nodeComponents
    simp only [List.countP_cons, List.countP_nil]
    omega

theorem FinishObject_count {cfg : Config Ext} {js_obj : JsObject} {L : LoadState Ext}
    {s1 : SceneManager Ext} (h : FinishObject cfg js_obj L = .ok s1) (j : Nat) :
    storeCount s1 j = storeCount L.sm j := by
  unfold FinishObject at h
  split at h
  · cases h
  · split at h
    · cases h
    · rename_i tr htr
      have key : ∀ c : Comp, storeCount (L.sm.setStore CompTransform
          ((L.sm.scene_data_.comp_store CompTransform).write
            (L.obj.components CompTransform) c)) j = storeCount L.sm j := by
        intro c
        rw [storeCount_setStore]
        by_cases hj : j = CompTransform
        · simp only [hj, if_true]
          rw [SparseArray.size_write_live htr]
          rfl
        · simp [hj]
      simp only at h
      split at h
      · split at h
        · cases h
        · cases h
          exact key _
      · cases h
        exact key _

theorem LoadObject_count {cfg : Config Ext} {js_elem : JsElement} {s s1 : SceneManager Ext}
    (h : LoadObject cfg js_elem s = .ok s1) (j : Nat) :
    storeCount s1 j = storeCount s j + nodeComponents cfg j (js_elem.as_obj.getD []) := by
  unfold LoadObject at h
  split at h
  · cases h
  · rename_i js_obj hobj
    rw [hobj]
    split at h
    · rename_i L hL
      rw [FinishObject_count h j, LoadKeys_count js_obj _ L hL j]
      rfl
    · cases h
    · cases h

theorem LoadObjects_count {cfg : Config Ext} :
    ∀ (nodes : JsArray) (s s1 : SceneManager Ext), LoadObjects cfg nodes s = .ok s1 →
      ∀ j, storeCount s1 j = storeCount s j + nodesComponents cfg j nodes := by
  intro nodes
  induction nodes with
  | nil =>
    intro s s1 h j
    simp only [LoadObjects] at h
    cases h
    simp [nodesComponents]
  | cons node rest ih =>
    intro s s1 h j
    simp only [LoadObjects] at h
    obtain ⟨s2, h2, h3⟩ := Outcome.andThen_eq_ok.1 h
    rw [ih s2 s1 h3 j, LoadObject_count h2 j]
    unfold nodesComponents
    simp only [List.map_cons, List.sum_cons]
    omega

theorem LoadScene_count {cfg : Config Ext} {sm sm1 : SceneManager Ext} {js_scene : JsObject}
    (h : LoadScene cfg sm js_scene = .ok sm1) (j : Nat) :
    storeCount sm1 j = storeCount sm j + sceneComponents cfg j js_scene := by
  obtain ⟨s2, s3, nodes, s5, h2, h3, hn, h5, _, _, hcs, hss⟩ := LoadScene_ok h
  have h5c := LoadObjects_count nodes s3 s5 h5 j
  unfold sceneComponents
  rw [sceneObjects_eq hn]
  unfold storeCount at h5c ⊢
  rw [hss.comp_store, h5c, hcs]

end Counts

section TwoLoads

variable {Ext : Type}

theorem LoadScene_keep_live {cfg : Config Ext} {sm sm1 : SceneManager Ext} {js_scene : JsObject}
    (h : LoadScene cfg sm js_scene = .ok sm1) (i idx : Nat)
    (hl : (CompAt sm i idx).isSome = true) : (CompAt sm1 i idx).isSome = true := by
  obtain ⟨s2, s3, nodes, s5, _, _, _, h5, _, _, hcs, hss⟩ := LoadScene_ok h
  have h0 : (CompAt s3 i idx).isSome = true := by
    unfold CompAt at hl ⊢
    rw [hcs]
    exact hl
  have := LoadObjects_keep_live h5 i idx h0
  unfold CompAt at this ⊢
  rw [hss.comp_store]
  exact this

theorem LoadPrefix_keep_live {cfg : Config Ext} {sm sm1 sk : SceneManager Ext}
    {js_scene : JsObject} (h : LoadScene cfg sm js_scene = .ok sm1) {k : Nat}
    (hp : LoadPrefix cfg sm js_scene k = .ok sk) (i idx : Nat)
    (hl : (CompAt sm i idx).isSome = true) : (CompAt sk i idx).isSome = true := by
  obtain ⟨s2, s3, nodes, s5, h2, h3, hn, _, _, _, hcs, _⟩ := LoadScene_ok h
  rw [LoadPrefix_eq h2 h3 hn] at hp
  have h0 : (CompAt s3 i idx).isSome = true := by
    unfold CompAt at hl ⊢
    rw [hcs]
    exact hl
  exact LoadObjects_keep_live hp i idx h0

/-- An iteration of the object loop leaves the live components of every slot
but Transform as they are. -/
theorem LoadObject_keep_value {cfg : Config Ext} {js_elem : JsElement}
    {s s1 : SceneManager Ext} (h : LoadObject cfg js_elem s = .ok s1) (j idx : Nat) (c : Comp)
    (hj : j ≠ CompTransform) (hc : CompAt s j idx = some c) : CompAt s1 j idx = some c := by
  obtain ⟨js_obj, L, tr, _, hL, _, _, hcomp, _⟩ := LoadObject_ok h
  have hinv := NodeInv_LoadKeys js_obj _ L (NodeInv_start cfg s) hL
  rw [hcomp, if_neg (fun hx => hj hx.1)]
  exact hinv.keep j idx c hc

theorem LoadObjects_keep_value {cfg : Config Ext} :
    ∀ (nodes : JsArray) (s s1 : SceneManager Ext), LoadObjects cfg nodes s = .ok s1 →
      ∀ (j idx : Nat) (c : Comp), j ≠ CompTransform → CompAt s j idx = some c →
        CompAt s1 j idx = some c := by
  intro nodes
  induction nodes with
  | nil =>
    intro s s1 h j idx c _ hc
    simp only [LoadObjects] at h
    cases h
    exact hc
  | cons node rest ih =>
    intro s s1 h j idx c hj hc
    simp only [LoadObjects] at h
    obtain ⟨s2, h2, h3⟩ := Outcome.andThen_eq_ok.1 h
    exact ih s2 s1 h3 j idx c hj (LoadObject_keep_value h2 j idx c hj hc)

theorem LoadScene_keep_value {cfg : Config Ext} {sm sm1 : SceneManager Ext}
    {js_scene : JsObject} (h : LoadScene cfg sm js_scene = .ok sm1) (j idx : Nat) (c : Comp)
    (hj : j ≠ CompTransform) (hc : CompAt sm j idx = some c) : CompAt sm1 j idx = some c := by
  obtain ⟨s2, s3, nodes, s5, _, _, _, h5, _, _, hcs, hss⟩ := LoadScene_ok h
  have h0 : CompAt s3 j idx = some c := by
    unfold CompAt at hc ⊢
    rw [hcs]
    exact hc
  have := LoadObjects_keep_value nodes s3 s5 h5 j idx c hj h0
  unfold CompAt at this ⊢
  rw [hss.comp_store]
  exact this

theorem Count_of_small (data_ : SparseArray Comp) (h : data_.size < 2147483648) :
    DefaultCompStorage.Count data_ = (data_.size : Int) := by
  unfold DefaultCompStorage.Count
  omega

theorem foldl_probe_faces {α β : Type} (f : α → β → Nat → α) :
    ∀ (ps : List β) (a : α),
      ps.foldl (fun e p => (List.range 6).foldl (fun e1 face_index => f e1 p face_index) e) a =
        (ps.flatMap fun p => (List.range 6).map fun face_index => (p, face_index)).foldl
          (fun e r => f e r.1 r.2) a := by
  intro ps
  induction ps with
  | nil => intro a; rfl
  | cons p rest ih =>
    intro a
    rw [List.foldl_cons, ih, List.flatMap_cons, List.foldl_append, List.foldl_map]

/-- What `LoadProbeCache` does when it returns: it hands the requests
`probeRequests` to `LoadProbeFace`, in order. -/
theorem LoadProbeCache_ok {cfg : Config Ext} {s a : SceneManager Ext}
    (h : LoadProbeCache cfg s = .ok a) :
    a = s.setExt ((probeRequests s).foldl
      (fun e r => cfg.LoadProbeFace s.scene_data_.name r.1 r.2.1 r.2.2 e)
      (cfg.probe_storage_compress s.ext)) := by
  unfold LoadProbeCache at h
  simp only at h
  split at h
  · cases h
  · cases h
    congr 1
    unfold probeRequests
    have := foldl_probe_faces
      (fun (e : Ext) (p : Nat × Comp) (face_index : Nat) =>
        cfg.LoadProbeFace s.scene_data_.name p.1 p.2 face_index e)
      (s.scene_data_.comp_store CompProbe).entries (cfg.probe_storage_compress s.ext)
    rw [this]
    generalize (s.scene_data_.comp_store CompProbe).entries = ps
    generalize cfg.probe_storage_compress s.ext = e0
    induction ps generalizing e0 with
    | nil => rfl
    | cons p rest ih =>
      simp only [List.flatMap_cons, List.foldl_append, List.foldl_map]
      exact ih _

theorem mem_probeRequests {sm : SceneManager Ext} {idx : Nat} {c : Comp}
    (h : CompAt sm CompProbe idx = some c) (face_index : Nat) (hf : face_index < 6) :
    (idx, c, face_index) ∈ probeRequests sm := by
  unfold probeRequests
  rw [List.mem_flatMap]
  refine ⟨(idx, c), (SparseArray.mem_entries _ _ _).2 h, ?_⟩
  rw [List.mem_map]
  exact ⟨face_index, List.mem_range.2 hf, rfl⟩

/-- C25 (amended): `ClearScene` leaves every component storage as it was, so two
loads of the same document in a row that both return add the components of the
document twice. After the first load every storage holds what it held before
plus the components of its type in the document, after the second load twice
that number more than at the start; `Count()` returns what the storage held at
the start (nothing in a new manager) plus twice the number, when that is below
`2 ^ 31`.
Every component live after the first load is still live after the second, and
unchanged unless it is a Transform. No set mask bit of an entity of the second
scene records an index that was live after the first load. `LoadProbeCache` of
the second load runs on a state whose LightProbe storage still holds every
probe of the first load, and hands to `LoadProbeFace` the requests of
`probeRequests`, in order, among them one for each face of every such probe. -/
theorem loadScene_twice_keeps_components_of_first_load (cfg : Config Ext)
    (sm s1 s2 : SceneManager Ext) (d : JsObject)
    (h1 : LoadScene cfg sm d = .ok s1) (h2 : LoadScene cfg s1 d = .ok s2) :
    (∀ s : SceneManager Ext,
      (ClearScene cfg s).scene_data_.comp_store = s.scene_data_.comp_store) ∧
    (∀ i, storeCount s1 i = storeCount sm i + sceneComponents cfg i d ∧
      storeCount s2 i = storeCount sm i + 2 * sceneComponents cfg i d) ∧
    (∀ i, storeCount sm i + 2 * sceneComponents cfg i d < 2147483648 →
      DefaultCompStorage.Count (s2.scene_data_.comp_store i) =
        (storeCount sm i : Int) + 2 * (sceneComponents cfg i d : Int)) ∧
    (∀ i idx, (CompAt s1 i idx).isSome = true → (CompAt s2 i idx).isSome = true) ∧
    (∀ i idx c, i ≠ CompTransform → CompAt s1 i idx = some c → CompAt s2 i idx = some c) ∧
    (∀ (k : Nat) (e : SceneObject), s2.scene_data_.objects.toList[k]? = some e →
      ∀ i, e.comp_mask.testBit i = true → CompAt s1 i (e.components i) = none) ∧
    ∃ s6 a,
      ((((LoadHeader cfg s1 d).andThen (LoadLightmaps cfg)).andThen
        (LoadObjectsBlock cfg d)).andThen (LoadEnvironment cfg d)) = .ok s6 ∧
      LoadProbeCache cfg s6 = .ok a ∧
      LoadFinish cfg s6 = .ok s2 ∧
      a = s6.setExt ((probeRequests s6).foldl
        (fun e r => cfg.LoadProbeFace s6.scene_data_.name r.1 r.2.1 r.2.2 e)
        (cfg.probe_storage_compress s6.ext)) ∧
      ∀ idx c, CompAt s1 CompProbe idx = some c →
        ∀ face_index, face_index < 6 → (idx, c, face_index) ∈ probeRequests s6 := by
  have hc1 := LoadScene_count h1
  have hc2 := LoadScene_count h2
  have hkeep := LoadScene_keep_live h2
  have hval := LoadScene_keep_value h2
  refine ⟨fun _ => rfl, ?_, ?_, hkeep, hval, ?_, ?_⟩
  · intro i
    refine ⟨hc1 i, ?_⟩
    rw [hc2 i, hc1 i]
    omega
  · intro i hsmall
    have hsz : storeCount s2 i = storeCount sm i + 2 * sceneComponents cfg i d := by
      rw [hc2 i, hc1 i]
      omega
    have hlt : (s2.scene_data_.comp_store i).size < 2147483648 := by
      unfold storeCount at hsz hsmall
      omega
    rw [Count_of_small _ hlt]
    unfold storeCount at hsz ⊢
    rw [hsz]
    push_cast
    rfl
  · intro k e he i hbit
    have hk : k < (sceneObjects d).length := by
      rw [← (LoadScene_entity_count h2).2]
      exact lt_of_getElem?_eq_some he
    obtain ⟨sk, sk1, js_obj, L, hp, _, _, _, hL, _, hent, _⟩ := LoadScene_entity h2 k hk
    rw [hent] at he
    cases he
    have hinv := NodeInv_LoadKeys js_obj _ L (NodeInv_start cfg sk) hL
    obtain ⟨_, _, hfree, _⟩ := hinv.set_bit i hbit
    cases hlive : CompAt s1 i (L.obj.components i) with
    | none => rfl
    | some c =>
      have := LoadPrefix_keep_live h2 hp i (L.obj.components i) (by rw [hlive]; rfl)
      rw [hfree] at this
      cases this
  · have h2c := h2
    unfold LoadScene at h2c
    obtain ⟨s6, h6, h7⟩ := Outcome.andThen_eq_ok.1 h2c
    have h7c := h7
    unfold LoadFinish at h7c
    obtain ⟨a, ha, _⟩ := Outcome.andThen_eq_ok.1 h7c
    refine ⟨s6, a, h6, ha, h7, LoadProbeCache_ok ha, ?_⟩
    intro idx c hc face_index hf
    have h2v := hval CompProbe idx c (by decide) hc
    have h6v : CompAt s6 CompProbe idx = some c := by
      unfold CompAt at h2v ⊢
      rw [(LoadFinish_ok h7).1.comp_store] at h2v
      exact h2v
    exact mem_probeRequests h6v face_index hf

end TwoLoads

/-- C25 (witness): the document "a" with one entity that has a Transform and a
LightProbe is loaded twice into a new manager over `Engine`, whose storages are
empty. After the second load twelve of the requests in flight are for faces of
probe 0, the probe of the first load: six from each load. -/
theorem loadScene_twice_keeps_components_of_first_load_witness :
    LoadScene engine0 freshEngine (probeScene "a" 1) = .ok probesLoaded ∧
    LoadScene engine0 probesLoaded (probeScene "a" 1) = .ok probesLoadedTwice ∧
    (probesLoadedTwice.ext.loads.filter fun l =>
      match l with
      | .probeFace _ 0 _ => true
      | _ => false).length = 12 ∧
    (∀ i, storeCount freshEngine i = 0) ∧
    ((∀ s : SceneManager Engine,
      (ClearScene engine0 s).scene_data_.comp_store = s.scene_data_.comp_store) ∧
    (∀ i, storeCount probesLoaded i =
        storeCount freshEngine i + sceneComponents engine0 i (probeScene "a" 1) ∧
      storeCount probesLoadedTwice i =
        storeCount freshEngine i + 2 * sceneComponents engine0 i (probeScene "a" 1)) ∧
    (∀ i, storeCount freshEngine i +
        2 * sceneComponents engine0 i (probeScene "a" 1) < 2147483648 →
      DefaultCompStorage.Count (probesLoadedTwice.scene_data_.comp_store i) =
        (storeCount freshEngine i : Int) +
          2 * (sceneComponents engine0 i (probeScene "a" 1) : Int)) ∧
    (∀ i idx, (CompAt probesLoaded i idx).isSome = true →
      (CompAt probesLoadedTwice i idx).isSome = true) ∧
    (∀ i idx c, i ≠ CompTransform → CompAt probesLoaded i idx = some c →
      CompAt probesLoadedTwice i idx = some c) ∧
    (∀ (k : Nat) (e : SceneObject),
      probesLoadedTwice.scene_data_.objects.toList[k]? = some e →
      ∀ i, e.comp_mask.testBit i = true → CompAt probesLoaded i (e.components i) = none) ∧
    ∃ s6 a,
      ((((LoadHeader engine0 probesLoaded (probeScene "a" 1)).andThen
        (LoadLightmaps engine0)).andThen
        (LoadObjectsBlock engine0 (probeScene "a" 1))).andThen
        (LoadEnvironment engine0 (probeScene "a" 1))) = .ok s6 ∧
      LoadProbeCache engine0 s6 = .ok a ∧
      LoadFinish engine0 s6 = .ok probesLoadedTwice ∧
      a = s6.setExt ((probeRequests s6).foldl
        (fun e r => engine0.LoadProbeFace s6.scene_data_.name r.1 r.2.1 r.2.2 e)
        (engine0.probe_storage_compress s6.ext)) ∧
      ∀ idx c, CompAt probesLoaded CompProbe idx = some c →
        ∀ face_index, face_index < 6 → (idx, c, face_index) ∈ probeRequests s6) :=
  ⟨rfl, rfl, by decide!, fun _ => rfl,
    loadScene_twice_keeps_components_of_first_load engine0 freshEngine probesLoaded
      probesLoadedTwice (probeScene "a" 1) rfl rfl⟩

/-! ## Loads of the concrete manager that are known to return -/

section Totality

theorem FinishObject_total {Ext : Type} {cfg : Config Ext} {js_obj : JsObject}
    {L : LoadState Ext} (hreg : Registered cfg CompTransform)
    (hlive : (CompAt L.sm CompTransform (L.obj.components CompTransform)).isSome = true)
    (hname : JsObject.Has js_obj "name" = true →
      ∃ n, (JsObject.at_ js_obj "name").bind JsElement.as_str = some n) :
    ∃ s1, FinishObject cfg js_obj L = .ok s1 := by
  obtain ⟨st, hst⟩ := Option.isSome_iff_exists.1 hreg
  obtain ⟨tr, htr⟩ := Option.isSome_iff_exists.1 hlive
  unfold CompAt at htr
  unfold FinishObject
  simp only [hst, htr]
  by_cases hhas : JsObject.Has js_obj "name" = true
  · obtain ⟨n, hn⟩ := hname hhas
    simp only [hhas, if_true, hn]
    exact ⟨_, rfl⟩
  · simp only [hhas]
    exact ⟨_, rfl⟩

theorem stdConfig_registered_transform (g : Nat → Nat → Nat) :
    Registered (stdConfig g) CompTransform := rfl

theorem LoadObject_total_std (g : Nat → Nat → Nat) (js_obj : JsObject)
    (s : SceneManager (List String))
    (hk : ∃ L, LoadKeys (stdConfig g) js_obj (LoadState.start (stdConfig g) s) = .ok L)
    (hT : ∃ kv ∈ js_obj, ∃ o, kv.2 = JsElement.obj o ∧ kv.1 = "Transform")
    (hname : JsObject.Has js_obj "name" = true →
      ∃ n, (JsObject.at_ js_obj "name").bind JsElement.as_str = some n) :
    ∃ s1, LoadObject (stdConfig g) (.obj js_obj) s = .ok s1 := by
  obtain ⟨L, hL⟩ := hk
  have hinv := NodeInv_LoadKeys js_obj _ L (NodeInv_start (stdConfig g) s) hL
  have hbit : L.obj.comp_mask.testBit CompTransform = true := by
    refine (LoadKeys_mask js_obj _ L (by intro j hj; simp [LoadState.start, SceneObject.fresh] at hj)
      hL CompTransform).2 (Or.inr ?_)
    obtain ⟨kv, hmem, o, ho, hkey⟩ := hT
    refine ⟨kv, hmem, o, ho, ?_⟩
    rw [hkey]
    rfl
  obtain ⟨_, _, _, hlive⟩ := hinv.set_bit CompTransform hbit
  unfold LoadObject
  simp only [JsElement.as_obj, hL]
  exact FinishObject_total (stdConfig_registered_transform g) hlive hname

theorem LoadObject_plainNode (g : Nat → Nat → Nat) (s : SceneManager (List String)) :
    ∃ s1, LoadObject (stdConfig g) plainNode s = .ok s1 :=
  LoadObject_total_std g [("Transform", .obj [])] s ⟨_, rfl⟩
    ⟨("Transform", .obj []), by simp, [], rfl, rfl⟩ (fun h => by simp [JsObject.Has] at h)

theorem LoadObject_namedNode (g : Nat → Nat → Nat) (s : SceneManager (List String)) :
    ∃ s1, LoadObject (stdConfig g) namedNode s = .ok s1 :=
  LoadObject_total_std g [("name", .str "a"), ("Transform", .obj [])] s ⟨_, rfl⟩
    ⟨("Transform", .obj []), by simp, [], rfl, rfl⟩ (fun _ => ⟨"a", rfl⟩)

theorem LoadObjects_total_std (g : Nat → Nat → Nat) :
    ∀ (nodes : JsArray), (∀ node ∈ nodes, node = plainNode ∨ node = namedNode) →
      ∀ s : SceneManager (List String), ∃ s1, LoadObjects (stdConfig g) nodes s = .ok s1 := by
  intro nodes
  induction nodes with
  | nil => intro _ s; exact ⟨s, rfl⟩
  | cons node rest ih =>
    intro h s
    have h1 : ∃ s1, LoadObject (stdConfig g) node s = .ok s1 := by
      rcases h node (by simp) with e | e
      · rw [e]; exact LoadObject_plainNode g s
      · rw [e]; exact LoadObject_namedNode g s
    obtain ⟨s1, hs1⟩ := h1
    obtain ⟨s2, hs2⟩ := ih (fun n hn => h n (by simp [hn])) s1
    refine ⟨s2, ?_⟩
    simp only [LoadObjects, hs1, Outcome.andThen]
    exact hs2

theorem OnLoadTexture_total_std (g : Nat → Nat → Nat) (name : String) (flags : Nat)
    (sm : SceneManager (List String)) (h : ¬ 4096 ≤ (TEXTURES_PATH ++ name).utf8ByteSize) :
    ∃ r, OnLoadTexture (stdConfig g) name flags sm = .ok r := by
  unfold OnLoadTexture
  simp only [h, if_false]
  by_cases hm : TEXTURES_PATH ++ name ∈ sm.ext
  · simp only [stdConfig, hm, if_true]
    exact ⟨_, rfl⟩
  · simp only [stdConfig, hm, if_false]
    exact ⟨_, rfl⟩

theorem LoadLightmapSH_total_std (g : Nat → Nat → Nat) :
    ∀ (fuel sh_l : Nat) (sm : SceneManager (List String)), sh_l + fuel ≤ 4 →
      ∃ s1, LoadLightmapSH (stdConfig g) "lightmaps/t" fuel sh_l sm = .ok s1 := by
  intro fuel
  induction fuel with
  | zero => intro sh_l sm _; exact ⟨sm, rfl⟩
  | succ fuel ih =>
    intro sh_l sm hle
    have hshort : ¬ 4096 ≤ (TEXTURES_PATH ++
        ("lightmaps/t" ++ "_lm_sh_" ++ toString sh_l ++ tex_ext)).utf8ByteSize := by
      have hlt : sh_l < 4 := by omega
      interval_cases sh_l <;> decide
    obtain ⟨r, hr⟩ := OnLoadTexture_total_std g _ 0 sm hshort
    unfold LoadLightmapSH
    simp only [hr]
    exact ih (sh_l + 1) _ (by omega)

theorem LoadLightmaps_total_std (g : Nat → Nat → Nat) (sm : SceneManager (List String))
    (hname : sm.scene_data_.name = "t") :
    ∃ s1, LoadLightmaps (stdConfig g) sm = .ok s1 := by
  have hshort : ¬ 4096 ≤ (TEXTURES_PATH ++
      ("lightmaps/" ++ "t" ++ "_lm_direct" ++ tex_ext)).utf8ByteSize := by decide
  obtain ⟨r, hr⟩ := OnLoadTexture_total_std g _ 0 sm hshort
  unfold LoadLightmaps
  simp only [hname, hr]
  exact LoadLightmapSH_total_std g 4 0 _ (by omega)

/-- A document `sceneOfNodes nodes` whose nodes are all `plainNode` or `namedNode`
loads in every state of the concrete manager. -/
theorem LoadScene_total_std (g : Nat → Nat → Nat) (nodes : JsArray)
    (h : ∀ node ∈ nodes, node = plainNode ∨ node = namedNode)
    (sm : SceneManager (List String)) :
    ∃ s1, LoadScene (stdConfig g) sm (sceneOfNodes nodes) = .ok s1 := by
  obtain ⟨s2, hs2, hn2⟩ : ∃ s2, LoadHeader (stdConfig g) sm (sceneOfNodes nodes) = .ok s2 ∧
      s2.scene_data_.name = "t" := ⟨_, rfl, show c_str "t" = "t" by decide⟩
  obtain ⟨s3, hs3⟩ := LoadLightmaps_total_std g s2 hn2
  obtain ⟨s4, hs4⟩ := LoadObjects_total_std g nodes h s3
  have hblock : LoadObjectsBlock (stdConfig g) (sceneOfNodes nodes) s3 = .ok s4 := hs4
  obtain ⟨s5, hs5⟩ : ∃ s5, LoadEnvironment (stdConfig g) (sceneOfNodes nodes) s4 = .ok s5 :=
    ⟨_, rfl⟩
  obtain ⟨s6, hs6⟩ : ∃ s6, LoadFinish (stdConfig g) s5 = .ok s6 := ⟨_, rfl⟩
  refine ⟨s6, ?_⟩
  unfold LoadScene
  simp only [hs2, Outcome.andThen, hs3, hblock, hs5]
  exact hs6

end Totality

section LongDocuments

theorem sceneObjects_sceneOfNodes (nodes : JsArray) : sceneObjects (sceneOfNodes nodes) = nodes :=
  rfl

theorem replicate_plain_or_named (n : Nat) (tail : JsArray)
    (ht : ∀ node ∈ tail, node = plainNode ∨ node = namedNode) :
    ∀ node ∈ List.replicate n plainNode ++ tail, node = plainNode ∨ node = namedNode := by
  intro node hmem
  rcases List.mem_append.1 hmem with h | h
  · exact Or.inl (List.eq_of_mem_replicate h)
  · exact ht node h

/-- After `n` nodes without a name and one node named `a`, loaded into any state
of the concrete manager, the index holds `n` reduced to 32 bits under `a`. -/
theorem LoadScene_manyThenNamed (g : Nat → Nat → Nat) (n : Nat)
    (sm : SceneManager (List String)) :
    (sceneObjects (sceneOfNodes (List.replicate n plainNode ++ [namedNode]))).length = n + 1 ∧
    (sceneObjects (sceneOfNodes (List.replicate n plainNode ++ [namedNode])))[n]? =
      some namedNode ∧
    ∃ s1, LoadScene (stdConfig g) sm
        (sceneOfNodes (List.replicate n plainNode ++ [namedNode])) = .ok s1 ∧
      s1.scene_data_.name_to_object "a" = some (n % 4294967296) ∧
      s1.scene_data_.objects.size = n + 1 := by
  have hlen : (List.replicate n plainNode ++ [namedNode]).length = n + 1 := by
    rw [List.length_append, List.length_replicate]
    rfl
  have hget : (List.replicate n plainNode ++ [namedNode])[n]? = some namedNode := by
    rw [List.getElem?_append_right (by rw [List.length_replicate]), List.length_replicate,
      Nat.sub_self]
    rfl
  rw [sceneObjects_sceneOfNodes]
  refine ⟨hlen, hget, ?_⟩
  obtain ⟨s1, hs1⟩ := LoadScene_total_std g (List.replicate n plainNode ++ [namedNode])
    (replicate_plain_or_named n _ (by intro node h; exact Or.inr (List.mem_singleton.1 h))) sm
  refine ⟨s1, hs1, ?_, ?_⟩
  · obtain ⟨s2, s3, nodes, s5, _, _, hn, h5, hs3, hnames3, _, hss⟩ := LoadScene_ok hs1
    have hso : List.replicate n plainNode ++ [namedNode] = nodes :=
      (sceneObjects_sceneOfNodes _).symm.trans (sceneObjects_eq hn)
    subst hso
    have hs0 : s3.scene_data_.objects.slots = ([] : List SceneObject).map some := by
      simpa using hs3
    obtain ⟨ha, _⟩ := LoadObjects_names _ s3 s5 [] hs0 h5 "a"
    have hidx := ha n namedNode hget ⟨_, rfl, by decide⟩ (by
      intro k2 node2 hk2 hnode2
      have := lt_of_getElem?_eq_some hnode2
      rw [hlen] at this
      omega)
    rw [hss.names, hidx]
    simp
  · rw [(LoadScene_entity_count hs1).1, sceneObjects_sceneOfNodes, hlen]

end LongDocuments

/-- C5 (counterexample). Two inputs on which the index is not what the claim
says. A node that declares the name `a`, NUL, `b` is stored and indexed under
the C string of that name, `a`: the declared name is absent from the index and
`a`, which no node declares, is present. In a document of `2 ^ 32` nodes without
a name followed by one node named `a`, the last node has store index `2 ^ 32`,
and the index, which holds the position converted to `uint32_t`, maps `a` to 0. -/
theorem loadScene_name_index_holds_c_strings_and_32_bit_positions :
    (LoadScene (stdConfig fun _ _ => 0) freshManager sceneNulName = .ok loadedNulName ∧
      (sceneObjects sceneNulName).map (fun node => node.as_obj.bind declaredName) =
        [some nameWithNul] ∧
      nameWithNul ≠ "a" ∧
      loadedNulName.scene_data_.name_to_object nameWithNul = none ∧
      loadedNulName.scene_data_.name_to_object "a" = some 0) ∧
    ((sceneObjects sceneManyThenNamed).length = 4294967297 ∧
      (sceneObjects sceneManyThenNamed)[4294967296]? = some namedNode ∧
      ∃ s1, LoadScene (stdConfig fun _ _ => 0) freshManager sceneManyThenNamed = .ok s1 ∧
        s1.scene_data_.name_to_object "a" = some 0 ∧
        s1.scene_data_.objects.size = 4294967297) :=
  ⟨⟨rfl, by decide, by decide, by decide!, by decide!⟩,
    LoadScene_manyThenNamed (fun _ _ => 0) 4294967296 freshManager⟩

theorem DefaultCompStorage.Count_createN (N : Nat) :
    DefaultCompStorage.Count (DefaultCompStorage.createN N SparseArray.clear).1 =
      ((N : Int) + 2147483648) % 4294967296 - 2147483648 := by
  have hc : DefaultCompStorage.createN N SparseArray.clear
      = (⟨(List.replicate N Comp.new).map some⟩, List.range N) := by
    have := DefaultCompStorage.createN_of_map_some N []
    simpa [SparseArray.clear] using this
  rw [hc]
  unfold DefaultCompStorage.Count
  rw [SparseArray.size_of_map_some, List.length_replicate]

/-- C23 (counterexample): after `2 ^ 31` calls of `Create()` on an empty storage the
size is `2 ^ 31`, which the conversion to `int` in `Count()` turns into `-2 ^ 31`:
`Count()` is not `N`. -/
theorem defaultCompStorage_count_wraps_at_two_pow_31 :
    DefaultCompStorage.Count (DefaultCompStorage.createN 2147483648 SparseArray.clear).1 =
      -2147483648 ∧
    DefaultCompStorage.Count (DefaultCompStorage.createN 2147483648 SparseArray.clear).1 ≠
      ((2147483648 : Nat) : Int) := by
  have h := DefaultCompStorage.Count_createN 2147483648
  have e : (((2147483648 : Nat) : Int) + 2147483648) % 4294967296 - 2147483648 =
      -2147483648 := by norm_num
  rw [e] at h
  refine ⟨h, ?_⟩
  rw [h]
  norm_num

section LongDocuments

theorem sceneComponents_manyPlain (g : Nat → Nat → Nat) (n : Nat) :
    sceneComponents (stdConfig g) CompTransform (sceneOfNodes (List.replicate n plainNode)) =
      n := by
  have h1 : nodeComponents (stdConfig g) CompTransform (plainNode.as_obj.getD []) = 1 :=
    rfl
  unfold sceneComponents nodesComponents
  rw [sceneObjects_sceneOfNodes, List.map_replicate, List.sum_replicate, h1]
  simp

/-- Two loads in a row of `n` nodes with a Transform each into a new concrete
manager return, and leave `2 * n` Transforms. -/
theorem LoadScene_twice_manyPlain (g : Nat → Nat → Nat) (n : Nat) :
    ∃ s1 s2,
      LoadScene (stdConfig g) freshManager (sceneOfNodes (List.replicate n plainNode)) =
        .ok s1 ∧
      LoadScene (stdConfig g) s1 (sceneOfNodes (List.replicate n plainNode)) = .ok s2 ∧
      DefaultCompStorage.Count (s2.scene_data_.comp_store CompTransform) =
        ((2 * n : Nat) + 2147483648 : Int) % 4294967296 - 2147483648 := by
  have hall : ∀ node ∈ List.replicate n plainNode, node = plainNode ∨ node = namedNode :=
    fun node h => Or.inl (List.eq_of_mem_replicate h)
  obtain ⟨s1, hs1⟩ := LoadScene_total_std g _ hall freshManager
  obtain ⟨s2, hs2⟩ := LoadScene_total_std g _ hall s1
  refine ⟨s1, s2, hs1, hs2, ?_⟩
  have hc1 := LoadScene_count hs1 CompTransform
  have hc2 := LoadScene_count hs2 CompTransform
  rw [sceneComponents_manyPlain] at hc1 hc2
  have h0 : storeCount freshManager CompTransform = 0 := by decide
  have hsz : (s2.scene_data_.comp_store CompTransform).size = 2 * n := by
    unfold storeCount at hc1 hc2 h0
    omega
  unfold DefaultCompStorage.Count
  rw [hsz]

end LongDocuments

/-- C25 (counterexample): the document of `2 ^ 30` nodes with a Transform each is
loaded twice in a row into a new manager, whose storages are empty. Both loads
return, the document has `2 ^ 30` Transform components, and `Count()` of the
Transform storage is `-2 ^ 31`, not twice that number: the storage holds `2 ^ 31`
elements and `Count()` converts the size to `int`. -/
theorem loadScene_twice_count_wraps_for_two_pow_30_components :
    storeCount freshManager CompTransform = 0 ∧
    sceneComponents (stdConfig fun _ _ => 0) CompTransform sceneManyPlain = 1073741824 ∧
    ∃ s1 s2,
      LoadScene (stdConfig fun _ _ => 0) freshManager sceneManyPlain = .ok s1 ∧
      LoadScene (stdConfig fun _ _ => 0) s1 sceneManyPlain = .ok s2 ∧
      DefaultCompStorage.Count (s2.scene_data_.comp_store CompTransform) = -2147483648 := by
  obtain ⟨s1, s2, a, b, c⟩ := LoadScene_twice_manyPlain (fun _ _ => 0) 1073741824
  refine ⟨by decide, sceneComponents_manyPlain _ 1073741824, s1, s2, a, b, ?_⟩
  rw [c]
  norm_num

/-! ## Claim C15: what the queued tasks do -/

theorem installMipsDDS_pixels (res : Nat) (size : Int) (layer_index : Int) (face_index : Nat)
    (file : String) :
    ∀ (fuel level : Nat) (offset data_len : Int) (st : ProbeStorage × List String),
      offset = 128 + (mipSum res level : Int) →
      (data_len = size - 128 - (mipSum res level : Int) ∨
        (data_len < 0 ∧ size - 128 < (mipSum res level : Int))) →
      (installMipsDDS layer_index face_index file fuel ((res / 2 ^ level : Nat) : Int) level
          offset data_len st).1 =
        { st.1 with
          pixels := st.1.pixels ++
            ((List.range' level (halvings fuel (res / 2 ^ level))).filter fun k =>
              decide ((mipSum res (k + 1) : Int) ≤ size - 128)).map
              (mipPixels res layer_index face_index file) } := by
  intro fuel
  induction fuel with
  | zero =>
    intro level offset data_len st _ _
    simp [installMipsDDS, halvings]
  | succ fuel ih =>
    intro level offset data_len st hoff hlen
    unfold installMipsDDS halvings
    by_cases h16 : 16 ≤ res / 2 ^ level
    · have h16i : (16 : Int) ≤ ((res / 2 ^ level : Nat) : Int) := by exact_mod_cast h16
      have hl : (((res / 2 ^ level : Nat) : Int) + 3) / 4 *
          ((((res / 2 ^ level : Nat) : Int) + 3) / 4) * 16 = (mipLen res level : Int) := by
        unfold mipLen
        push_cast
        ring
      have hhalf : ((res / 2 ^ level : Nat) : Int) / 2 = ((res / 2 ^ (level + 1) : Nat) : Int) := by
        rw [div_pow_succ]
        push_cast
        rfl
      have hsum := mipSum_succ res level
      have hmono : ∀ k, level ≤ k → mipSum res level ≤ mipSum res (k + 1) :=
        fun k hk => mipSum_mono res (by omega)
      simp only [h16i, h16, if_true, hl, hhalf]
      rw [List.range'_succ, List.filter_cons, ← div_pow_succ res level]
      by_cases hfit : data_len < (mipLen res level : Int)
      · have hnot : ¬ ((mipSum res (level + 1) : Int) ≤ size - 128) := by
          rw [hsum]; push_cast
          rcases hlen with h | ⟨h1, h2⟩ <;> omega
        simp only [hfit, if_true, hnot, decide_False, Bool.false_eq_true, if_false]
        rw [ih (level + 1) _ _ _ (by rw [hoff, hsum]; push_cast; ring)
          (Or.inr ⟨by omega, by
            rw [hsum]; push_cast
            rcases hlen with h | ⟨h1, h2⟩ <;> omega⟩)]
      · have hA : data_len = size - 128 - (mipSum res level : Int) := by
          rcases hlen with h | ⟨h1, h2⟩
          · exact h
          · have : (0 : Int) ≤ (mipLen res level : Int) := Int.natCast_nonneg _
            omega
        have hyes : (mipSum res (level + 1) : Int) ≤ size - 128 := by
          rw [hsum]; push_cast; omega
        simp only [hfit, if_false, hyes, decide_True, if_true, ProbeStorage.SetPixelData,
          List.map_cons]
        rw [ih (level + 1) _ _ _ (by rw [hoff, hsum]; push_cast; ring)
          (Or.inl (by rw [hsum]; push_cast; omega))]
        simp only [List.append_assoc, List.singleton_append]
        rw [hoff]
        rfl
    · have h16i : ¬ (16 : Int) ≤ ((res / 2 ^ level : Nat) : Int) := by
        intro h; exact h16 (by exact_mod_cast h)
      simp only [h16i, h16, if_false, List.range'_zero, List.filter_nil, List.map_nil,
        List.append_nil]

theorem levelsInFile_eq (res : Nat) (size : Int) :
    levelsInFile res size =
      (List.range' 0 (halvings (res + 1) (res / 2 ^ 0))).filter fun k =>
        decide ((mipSum res (k + 1) : Int) ≤ size - 128) := by
  unfold levelsInFile mipLevels
  rw [List.range_eq_range', pow_zero, Nat.div_one]

/-- C15 (amended): a completion that is delivered while the SceneManager is alive is
carried out, whichever scene is loaded: each success callback and the texture
failure callback queue their task. A texture task, when run, returns and leaves
the scene data (entities, name index, components, name, environment), the probe
storage and the lightmap splitter as they are; it acts on the entry of the
texture cache that has its name: the entry is initialised with the bytes when
the texture is in use and removed when it is not (a failure leaves an entry in
use alone), and the cache is unchanged when there is no such entry. A probe
face task for a probe that exists returns and leaves the scene data, the
texture cache and the in-flight counter as they are, takes or frees no probe
slot, and installs, after what the probe storage holds, the mip levels of the
face that the file holds in full, level by level. -/
theorem completion_runs_on_live_manager_and_keeps_scene (sm : SceneManager Engine)
    (in_use : Bool) :
    (∀ name flags data,
      (World.onTextureLoaded ⟨true, sm⟩ name flags data).sm.ext.tasks
        = sm.ext.tasks ++ [QueuedTask.textureLoaded name flags data]) ∧
    (∀ name,
      (World.onTextureFailed ⟨true, sm⟩ name).sm.ext.tasks
        = sm.ext.tasks ++ [QueuedTask.textureFailed name]) ∧
    (∀ probe_id face_index file size,
      (World.onProbeFaceLoaded ⟨true, sm⟩ probe_id face_index file size).sm.ext.tasks
        = sm.ext.tasks ++ [QueuedTask.probeFaceLoaded probe_id face_index file size]) ∧
    (∀ name flags data, ∃ s1,
      runTask (.textureLoaded name flags data) in_use sm = .ok s1 ∧
        s1.scene_data_ = sm.scene_data_ ∧ s1.ext.probe_storage = sm.ext.probe_storage ∧
        s1.ext.lm_splitter = sm.ext.lm_splitter ∧
        (∀ i r, sm.ext.ctx.textures_.FindByName name = some (i, r) →
          s1.ext.ctx =
            { sm.ext.ctx with
              textures_ :=
                if in_use then sm.ext.ctx.textures_.write i (r.Init (some data))
                else sm.ext.ctx.textures_.erase i }) ∧
        (sm.ext.ctx.textures_.FindByName name = none → s1.ext.ctx = sm.ext.ctx)) ∧
    (∀ name, ∃ s1,
      runTask (.textureFailed name) in_use sm = .ok s1 ∧
        s1.scene_data_ = sm.scene_data_ ∧ s1.ext.probe_storage = sm.ext.probe_storage ∧
        s1.ext.lm_splitter = sm.ext.lm_splitter ∧
        (∀ i r, sm.ext.ctx.textures_.FindByName name = some (i, r) →
          s1.ext.ctx =
            { sm.ext.ctx with
              textures_ :=
                if in_use then sm.ext.ctx.textures_ else sm.ext.ctx.textures_.erase i }) ∧
        (sm.ext.ctx.textures_.FindByName name = none → s1.ext.ctx = sm.ext.ctx)) ∧
    (∀ probe_id face_index file size c,
      (sm.scene_data_.comp_store CompProbe).GetOrNull probe_id = some c →
      ∃ s1, runTask (.probeFaceLoaded probe_id face_index file size) in_use sm = .ok s1 ∧
        s1.scene_data_ = sm.scene_data_ ∧ s1.ext.ctx = sm.ext.ctx ∧
        s1.scene_texture_load_counter_ = sm.scene_texture_load_counter_ ∧
        s1.ext.probe_storage.used = sm.ext.probe_storage.used ∧
        s1.ext.probe_storage.capacity = sm.ext.probe_storage.capacity ∧
        s1.ext.probe_storage =
          { sm.ext.probe_storage with
            pixels := sm.ext.probe_storage.pixels ++
              (levelsInFile sm.ext.probe_storage.res size).map
                (mipPixels sm.ext.probe_storage.res (LightProbe.ofComp c).layer_index
                  face_index file) }) := by
  refine ⟨fun _ _ _ => rfl, fun _ => rfl, fun _ _ _ _ => rfl, ?_, ?_, ?_⟩
  · intro name flags data
    refine ⟨_, rfl, rfl, rfl, rfl, ?_, ?_⟩
    · intro i r h
      simp only [h]
    · intro h
      simp only [h]
  · intro name
    refine ⟨_, rfl, rfl, rfl, rfl, ?_, ?_⟩
    · intro i r h
      simp only [h]
    · intro h
      simp only [h]
  · intro probe_id face_index file size c hc
    simp only [runTask, hc]
    have key := installMipsDDS_slots (LightProbe.ofComp c).layer_index face_index file
      (sm.ext.probe_storage.res + 1) sm.ext.probe_storage.res 0 sizeof_DDSHeader
      (size - sizeof_DDSHeader) (sm.ext.probe_storage, sm.ext.log)
    have hpix := installMipsDDS_pixels sm.ext.probe_storage.res size
      (LightProbe.ofComp c).layer_index face_index file (sm.ext.probe_storage.res + 1) 0
      sizeof_DDSHeader (size - sizeof_DDSHeader) (sm.ext.probe_storage, sm.ext.log)
      (by simp [sizeof_DDSHeader, mipSum]) (Or.inl (by simp [sizeof_DDSHeader, mipSum]))
    rw [← levelsInFile_eq] at hpix
    simp only [pow_zero, Nat.div_one] at hpix
    exact ⟨_, rfl, rfl, rfl, rfl, key.1, key.2, hpix⟩

/-- C15 (witness): the texture task on a manager whose texture cache holds the
placeholder "m", and the probe face task on a manager that holds a probe at
index 0, for a file with the full mip chain of a face of resolution 512. -/
theorem completion_runs_on_live_manager_and_keeps_scene_witness :
    (managerWithProbe.scene_data_.comp_store CompProbe).GetOrNull 0 = some Comp.new ∧
    managerWithTexture.ext.ctx.textures_.FindByName "m" =
      some (0, Resource.create "m" none) ∧
    levelsInFile managerWithProbe.ext.probe_storage.res fullFaceSize = [0, 1, 2, 3, 4, 5] ∧
    (∃ s1, runTask (.textureLoaded "m" 0 [1]) true managerWithTexture = .ok s1 ∧
      s1.scene_data_ = managerWithTexture.scene_data_ ∧
      s1.ext.probe_storage = managerWithTexture.ext.probe_storage ∧
      s1.ext.lm_splitter = managerWithTexture.ext.lm_splitter ∧
      (∀ i r, managerWithTexture.ext.ctx.textures_.FindByName "m" = some (i, r) →
        s1.ext.ctx =
          { managerWithTexture.ext.ctx with
            textures_ :=
              if true = true then
                managerWithTexture.ext.ctx.textures_.write i (r.Init (some [1]))
              else managerWithTexture.ext.ctx.textures_.erase i }) ∧
      (managerWithTexture.ext.ctx.textures_.FindByName "m" = none →
        s1.ext.ctx = managerWithTexture.ext.ctx)) ∧
    (∃ s1, runTask (.probeFaceLoaded 0 0 "f" fullFaceSize) true managerWithProbe = .ok s1 ∧
      s1.scene_data_ = managerWithProbe.scene_data_ ∧
      s1.ext.ctx = managerWithProbe.ext.ctx ∧
      s1.scene_texture_load_counter_ = managerWithProbe.scene_texture_load_counter_ ∧
      s1.ext.probe_storage.used = managerWithProbe.ext.probe_storage.used ∧
      s1.ext.probe_storage.capacity = managerWithProbe.ext.probe_storage.capacity ∧
      s1.ext.probe_storage =
        { managerWithProbe.ext.probe_storage with
          pixels := managerWithProbe.ext.probe_storage.pixels ++
            (levelsInFile managerWithProbe.ext.probe_storage.res fullFaceSize).map
              (mipPixels managerWithProbe.ext.probe_storage.res
                (LightProbe.ofComp Comp.new).layer_index 0 "f") }) :=
  ⟨rfl, by decide, by decide!,
    (completion_runs_on_live_manager_and_keeps_scene managerWithTexture true).2.2.2.1 "m" 0 [1],
    (completion_runs_on_live_manager_and_keeps_scene managerWithProbe true).2.2.2.2.2
      0 0 "f" fullFaceSize Comp.new rfl⟩

/-- C7, as stated, fails, on two counts. In the scene `sceneMoved` the only box
contributed to the entity is the mesh box of its Drawable, from (-1, -1, -1) to
(1, 1, 1), and the local box of its Transform is that box, but the world box of
the Transform is the box from (9, -1, -1) to (11, 1, 1). And the box depends on
the order of the keys: a node with a Drawable whose mesh, of file `a`, is looked
up under the name `x`, and an Occluder with the mesh of file `x`, gets the box
from -1 to 1 when the Drawable comes first and the box from -7 to 7 when the
Occluder comes first, because the second hook finds the mesh `x` of the first
in the cache. -/
theorem loadScene_world_bbox_is_not_the_union_and_depends_on_key_order :
    (LoadScene (stdConfig fun _ _ => 0) freshManager sceneMoved = .ok loadedMoved ∧
    loadedMoved.scene_data_.objects.toList[0]? = some movedEntity ∧
    CompAt loadedMoved CompTransform (movedEntity.components CompTransform) =
      some movedTransform ∧
    hookBoxes (stdConfig fun _ _ => 0) stdContrib
      [("Transform", .obj [("pos", .arr [.num 10, .num 0, .num 0])]),
       ("Drawable", .obj [("mesh_file", .str "x")])]
      (LoadState.start (stdConfig fun _ _ => 0)
        ((LoadPrefix (stdConfig fun _ _ => 0) freshManager sceneMoved 0).getD freshManager)) =
      [stdMeshBox] ∧
    [stdMeshBox].foldl BBox.union BBox.initial = ⟨⟨-1, -1, -1⟩, ⟨1, 1, 1⟩⟩ ∧
    BBox.mk movedTransform.bbox_min movedTransform.bbox_max = ⟨⟨-1, -1, -1⟩, ⟨1, 1, 1⟩⟩ ∧
    BBox.mk movedTransform.bbox_min_ws movedTransform.bbox_max_ws =
      ⟨⟨9, -1, -1⟩, ⟨11, 1, 1⟩⟩ ∧
    BBox.mk movedTransform.bbox_min_ws movedTransform.bbox_max_ws ≠
      [stdMeshBox].foldl BBox.union BBox.initial) ∧
    (transformBoxes (LoadScene engineMeshes freshEngine
        (sceneOfNodes [.obj [("Transform", .obj []), drawableMember, occluderMember]])) =
      some (⟨⟨-1, -1, -1⟩, ⟨1, 1, 1⟩⟩, ⟨⟨-1, -1, -1⟩, ⟨1, 1, 1⟩⟩) ∧
    transformBoxes (LoadScene engineMeshes freshEngine
        (sceneOfNodes [.obj [("Transform", .obj []), occluderMember, drawableMember]])) =
      some (⟨⟨-7, -7, -7⟩, ⟨7, 7, 7⟩⟩, ⟨⟨-7, -7, -7⟩, ⟨7, 7, 7⟩⟩)) :=
  ⟨⟨rfl, rfl, rfl, by decide, by decide, by decide, by decide, by decide⟩,
    by decide!, by decide!⟩


end DummyEngine
